import Mathlib

/-!
# sockbiter: a shallow embedding of `sockbiter.c`

The C program opens `num_conns` TCP connections, starts one sender and one
receiver thread per connection, and collects one result per connection in a
Lua table.  This file embeds the functions of `sockbiter.c` as Lean functions:

* system calls are answered by explicit environments (the value each call
  returns is an input of the model), and every call that matters is recorded
  in a trace of `Event`s in program order;
* `size_t` values are `Nat` reduced modulo `2 ^ 64` where the C code does
  arithmetic or a conversion on them, `ssize_t`, `int` and `lua_Integer` values
  are `Int`;
* loops whose termination depends on the environment (`sendfile`, `write`)
  take a fuel argument and return `none` when the fuel runs out;
* timestamps are recorded as events only: their values are clock readings
  converted to floating point and are not modelled.
-/

namespace Sockbiter

/-! ## Common definitions -/

/-- The text `snprintf(buf, size, ...)` leaves in `buf` when the formatted
message is `s`: at most `size - 1` characters. -/
def snprintf (size : Nat) (s : String) : String :=
  ⟨s.data.take (size - 1)⟩

/-- Value of `UINT_MAX` (32-bit `unsigned`). -/
def UINT_MAX : Nat := 4294967295

/-- Conversion of a signed value to `size_t` (64 bit). -/
def to_size_t (x : Int) : Nat := (x % (2 ^ 64 : Int)).toNat

/-- Conversion of a signed value to `unsigned` (32 bit). -/
def to_unsigned (x : Int) : Nat := (x % (2 ^ 32 : Int)).toNat

/-- Conversion of a signed value to `int` (32 bit, two's complement). -/
def to_int (x : Int) : Int := (x + 2 ^ 31) % 2 ^ 32 - 2 ^ 31

/-- Conversion of a value to `lua_Integer` (64 bit, two's complement). -/
def to_lua_Integer (x : Int) : Int := (x + 2 ^ 63) % 2 ^ 64 - 2 ^ 63

/-- The six timestamp fields of a connection. -/
inductive Timestamp
  | connect_start
  | connect_end
  | send_start
  | send_end
  | receive_start
  | receive_end
  deriving DecidableEq, Repr

/-- The calls of the program that the model records, in program order. -/
inductive Event
  | mutex_lock (err : Nat)
  | mutex_unlock (err : Nat)
  | barrier_wait
  | clock_gettime (slot : Timestamp)
  | connecttcpsock (fd : Int)
  | sendfile (count : Nat) (sent : Int)
  | shutdown_wr (fd : Int)
  | recv (rlen : Int)
  | write (fd : Int) (now : Nat) (count : Nat) (wlen : Int)
  | barrier_init (count : Nat) (err : Nat)
  | barrier_destroy
  | open_in (fd : Int)
  | fstat (ret : Int)
  | open_out (path : String) (fd : Int)
  | mutex_init (err : Nat)
  | create_sender (err : Nat)
  | create_receiver (err : Nat)
  | join (thread : Nat)
  | close (fd : Int)
  | mutex_destroy
  | free
  deriving DecidableEq, Repr

/-! ## `connecttcpsock` -/

def AF_INET : Int := 2
def AF_INET6 : Int := 10
def SOCK_STREAM : Int := 1

/-- One entry of the list returned by `getaddrinfo`, together with the answers
of the operating system to the calls `connecttcpsock` makes for it:
the return value of `socket`, of `setsockopt` and of `connect`, each with the
text of `strerror(errno)` after a failure. -/
structure addrinfo where
  ai_family : Int
  ai_socktype : Int
  socket_ret : Int
  socket_err : String
  setsockopt_ret : Int
  setsockopt_err : String
  connect_ret : Int
  connect_err : String
  deriving DecidableEq, Repr

/-- The answer of `getaddrinfo`: its return value, the text of
`gai_strerror` for it, and the result list. -/
structure Resolver where
  err : Int
  gai_strerror : String
  result : List addrinfo
  deriving DecidableEq, Repr

/-- Name of the address family in the `socket(...)` diagnostic. -/
def family_name (ai_family : Int) : String :=
  if ai_family = AF_INET then "AF_INET"
  else if ai_family = AF_INET6 then "AF_INET6" else "<unknown>"

/-- Name of the socket type in the `socket(...)` diagnostic. -/
def socktype_name (ai_socktype : Int) : String :=
  if ai_socktype = SOCK_STREAM then "SOCK_STREAM" else "<unknown>"

/-- The `while (result != NULL)` loop of `connecttcpsock` (lines 61-89) with
the code after it.  Arguments: the rest of the result list, `lasterr` and the
current content of `msgbuf`.  Returns the function result and `msgbuf`. -/
def connect_loop (msglen : Nat) (tcpfastopen : Bool) :
    List addrinfo → String → String → Int × String
  | [], lasterr, _ => (-1, snprintf msglen ("No usable address: " ++ lasterr))
  | result :: next, _, msgbuf =>
    let fd := result.socket_ret
    if fd < 0 then
      (-1, snprintf msglen ("socket(" ++ family_name result.ai_family ++ ", "
        ++ socktype_name result.ai_socktype ++ ", 0): " ++ result.socket_err))
    else if tcpfastopen && decide (result.setsockopt_ret < 0) then
      (-1, snprintf msglen
        ("setsockopt(SOL_TCP, TCP_FASTOPEN, 5): " ++ result.setsockopt_err))
    else if result.connect_ret = 0 then
      (fd, msgbuf)
    else
      connect_loop msglen tcpfastopen next result.connect_err msgbuf

/-- Model of `connecttcpsock` (lines 40-93): returns the socket, or `-1` with
the diagnostic in `msgbuf`.  The second component is `msgbuf` on return. -/
def connecttcpsock (env : Resolver) (msgbuf : String) (msglen : Nat)
    (tcpfastopen : Bool) : Int × String :=
  if env.err ≠ 0 then
    (-1, snprintf msglen ("getaddrinfo: " ++ env.gai_strerror))
  else if env.result = [] then
    (-1, snprintf msglen "No results for getaddrinfo")
  else
    connect_loop msglen tcpfastopen env.result "" msgbuf

/-! ## Connection records -/

/-- Model of `struct ms_thread`; `thread` is the thread handle. -/
structure ms_thread where
  thread : Nat
  created : Bool
  successful : Bool
  errmsg : String
  deriving DecidableEq, Repr

/-- Model of `struct ms_conn`.  The chain through `prev` is a `List ms_conn`
whose head is the record the C pointer designates and whose tail is what
`prev` leads to.  The barrier pointer, the mutex object, the receive buffer,
the copy of the input path and the timestamps are not fields of the model. -/
structure ms_conn where
  fd_in : Int
  fd_out : Int
  fd_sock : Int
  host : String
  port : String
  use_shutdown : Bool
  ignore_out : Bool
  in_len : Nat
  out_file : String
  connectmx_created : Bool
  sender : ms_thread
  receiver : ms_thread
  recv_total : Nat
  deriving DecidableEq, Repr

/-! ## The sender thread -/

/-- What the operating system answers to the calls of one sender thread:
the return value of `pthread_mutex_lock` and of `pthread_mutex_unlock`, the
answer of `getaddrinfo` used by `connecttcpsock`, the return value of the
`k`-th `sendfile` call (as a function of `k` and of the count requested) with
the text of `strerror(errno)` after it, and `strerror` for error numbers. -/
structure SenderEnv where
  lock_err : Nat
  resolver : Resolver
  unlock_err : Nat
  sendfile : Nat → Nat → Int
  sendfile_err : Nat → String
  strerror : Nat → String

/-- The `while (remaining > 0)` loop of `ms_sender_thread` (lines 165-180).
Arguments: fuel, the number `k` of `sendfile` calls made so far, `remaining`.
Returns the diagnostic of a failed `sendfile` (or `none` when the loop ends
normally) and the events of the loop; `none` when the fuel runs out. -/
def send_loop (env : SenderEnv) (fd_sock : Int) (use_shutdown : Bool) :
    Nat → Nat → Nat → Option (Option String × List Event)
  | fuel, k, remaining =>
    if remaining = 0 then some (none, [])
    else
      match fuel with
      | 0 => none
      | fuel + 1 =>
        let sent := env.sendfile k remaining
        if sent < 0 then
          some (some ("sendfile failed: " ++ env.sendfile_err k),
            [Event.sendfile remaining sent])
        else if to_size_t sent ≥ remaining then
          let evs := if use_shutdown then [Event.shutdown_wr fd_sock] else []
          (send_loop env fd_sock use_shutdown fuel (k + 1) 0).map
            (fun r => (r.1, Event.sendfile remaining sent :: evs ++ r.2))
        else
          (send_loop env fd_sock use_shutdown fuel (k + 1)
              (remaining - to_size_t sent)).map
            (fun r => (r.1, Event.sendfile remaining sent :: r.2))

/-- Store a diagnostic in the sender status of a record. -/
def set_sender_errmsg (conn : ms_conn) (msg : String) : ms_conn :=
  { conn with sender := { conn.sender with errmsg := snprintf 8192 msg } }

/-- Model of `ms_sender_thread` (lines 132-185): the record when the thread
returns and the events of the thread; `none` when the fuel of the send loop
runs out. -/
def ms_sender_thread (env : SenderEnv) (fuel : Nat) (conn0 : ms_conn) :
    Option (ms_conn × List Event) :=
  let conn : ms_conn := { conn0 with sender := { conn0.sender with successful := false } }
  let err := env.lock_err
  if err ≠ 0 then
    some (set_sender_errmsg conn ("pthread_mutex_lock failed: " ++ env.strerror err),
      [Event.mutex_lock err, Event.barrier_wait])
  else
    let r := connecttcpsock env.resolver "" 256 false
    let conn : ms_conn := { conn with fd_sock := r.1 }
    if r.1 < 0 then
      some (set_sender_errmsg conn
          ("Cannot open TCP connection to " ++ conn.host ++ ":" ++ conn.port ++ ": " ++ r.2),
        [Event.mutex_lock err, Event.barrier_wait,
         Event.clock_gettime Timestamp.connect_start, Event.connecttcpsock r.1])
    else
      let err2 := env.unlock_err
      let head := [Event.mutex_lock err, Event.barrier_wait,
         Event.clock_gettime Timestamp.connect_start, Event.connecttcpsock r.1,
         Event.clock_gettime Timestamp.connect_end, Event.mutex_unlock err2]
      if err2 ≠ 0 then
        some (set_sender_errmsg conn ("pthread_mutex_unlock failed: " ++ env.strerror err2),
          head)
      else
        match send_loop env conn.fd_sock conn.use_shutdown fuel 0 conn.in_len with
        | none => none
        | some (some msg, evs) =>
          some (set_sender_errmsg conn msg,
            head ++ Event.clock_gettime Timestamp.send_start :: evs)
        | some (none, evs) =>
          some ({ conn with sender := { conn.sender with successful := true } },
            head ++ Event.clock_gettime Timestamp.send_start :: evs
              ++ [Event.clock_gettime Timestamp.send_end])

/-! ## The receiver thread -/

/-- A byte of the response stream. -/
abbrev Byte := Nat

/-- The answer of one `recv` call: either the bytes stored in `recvbuf` (the
call returns their number, zero at end of stream), or a failure (the call
returns `-1`) with the text of `strerror(errno)`. -/
inductive RecvResult
  | data (bytes : List Byte)
  | error (msg : String)
  deriving DecidableEq, Repr

/-- The return value `rlen` of a `recv` call. -/
def RecvResult.rlen : RecvResult → Int
  | RecvResult.data bytes => bytes.length
  | RecvResult.error _ => -1

/-- The text of `strerror(errno)` after a `recv` call. -/
def RecvResult.strerror : RecvResult → String
  | RecvResult.data _ => ""
  | RecvResult.error msg => msg

/-- The content of `recvbuf` after a `recv` call. -/
def RecvResult.recvbuf : RecvResult → List Byte
  | RecvResult.data bytes => bytes
  | RecvResult.error _ => []

/-- What the operating system answers to the calls of one receiver thread:
the return values of `pthread_mutex_lock` and `pthread_mutex_unlock`, the
answers of the successive `recv` calls, and the return value of the `k`-th
`write` call (as a function of `k` and of the count requested) with the text
of `strerror(errno)` after it. -/
structure ReceiverEnv where
  lock_err : Nat
  unlock_err : Nat
  recv : List RecvResult
  write : Nat → Nat → Int
  write_err : Nat → String
  strerror : Nat → String

/-- State of the receiver while it drains the socket: the number of `write`
calls made so far, `recv_total`, the bytes appended to the output file and
the events so far (most recent last). -/
structure DrainState where
  writes : Nat
  recv_total : Nat
  file : List Byte
  events : List Event
  deriving DecidableEq, Repr

/-- The `while (rlen > 0)` loop of `ms_receiver_thread` (lines 226-235).
Arguments: fuel, `rlen`, the offset `now` into `recvbuf`, the state.
A `write` that returns `wlen` appends the `wlen` bytes at `now` to the file.
Returns the diagnostic of a failed `write` (or `none`) and the state; `none`
when the fuel runs out. -/
def write_loop (env : ReceiverEnv) (fd_out : Int) (out_file : String) (recvbuf : List Byte) :
    Nat → Int → Nat → DrainState → Option (Option String × DrainState)
  | fuel, rlen, now, st =>
    if rlen > 0 then
      match fuel with
      | 0 => none
      | fuel + 1 =>
        let wlen := env.write st.writes rlen.toNat
        let st1 : DrainState := { st with
          writes := st.writes + 1,
          events := st.events ++ [Event.write fd_out now rlen.toNat wlen] }
        if wlen < 0 then
          some (some ("Cannot write to output file \x27" ++ out_file ++ "\x27: "
            ++ env.write_err st.writes), st1)
        else
          write_loop env fd_out out_file recvbuf fuel (rlen - wlen) (now + wlen.toNat)
            { st1 with file := st1.file ++ (recvbuf.drop now).take wlen.toNat }
    else some (none, st)

/-- The `for (;;)` loop of `ms_receiver_thread` (lines 209-237), over the
answers of the successive `recv` calls.  Returns the diagnostic of a failure
(or `none` at end of stream) and the state; `none` when the answers or the
fuel of a write loop run out. -/
def recv_loop (env : ReceiverEnv) (fuel : Nat) (conn : ms_conn) :
    List RecvResult → DrainState → Option (Option String × DrainState)
  | [], _ => none
  | r :: rest, st =>
    let rlen := r.rlen
    let st1 : DrainState := { st with events := st.events ++ [Event.recv rlen] }
    if rlen = 0 then
      some (none, { st1 with
        events := st1.events ++ [Event.clock_gettime Timestamp.receive_end] })
    else if rlen < 0 then
      some (some ("recv failed: " ++ r.strerror), st1)
    else
      let st2 : DrainState := { st1 with
        recv_total := (st1.recv_total + rlen.toNat) % 2 ^ 64 }
      if ¬ conn.ignore_out then
        match write_loop env conn.fd_out conn.out_file r.recvbuf fuel rlen 0 st2 with
        | none => none
        | some (some msg, st3) => some (some msg, st3)
        | some (none, st3) => recv_loop env fuel conn rest st3
      else
        recv_loop env fuel conn rest st2

/-- Store a diagnostic in the receiver status of a record. -/
def set_receiver_errmsg (conn : ms_conn) (msg : String) : ms_conn :=
  { conn with receiver := { conn.receiver with errmsg := snprintf 8192 msg } }

/-- Model of `ms_receiver_thread` (lines 187-241): the record when the thread
returns, the bytes it appended to the output file and its events; `none` when
the thread never returns. -/
def ms_receiver_thread (env : ReceiverEnv) (fuel : Nat) (conn0 : ms_conn) :
    Option (ms_conn × List Byte × List Event) :=
  let conn : ms_conn := { conn0 with
    receiver := { conn0.receiver with successful := false }, recv_total := 0 }
  let err := env.lock_err
  if err ≠ 0 then
    some (set_receiver_errmsg conn ("pthread_mutex_lock failed: " ++ env.strerror err),
      [], [Event.barrier_wait, Event.mutex_lock err])
  else
    let err2 := env.unlock_err
    let head := [Event.barrier_wait, Event.mutex_lock err, Event.mutex_unlock err2]
    if err2 ≠ 0 then
      some (set_receiver_errmsg conn ("pthread_mutex_unlock failed: " ++ env.strerror err2),
        [], head)
    else
      match recv_loop env fuel conn env.recv
          { writes := 0, recv_total := conn.recv_total, file := [],
            events := head ++ [Event.clock_gettime Timestamp.receive_start] } with
      | none => none
      | some (some msg, st) =>
        some (set_receiver_errmsg { conn with recv_total := st.recv_total } msg,
          st.file, st.events)
      | some (none, st) =>
        some ({ conn with recv_total := st.recv_total,
                          receiver := { conn.receiver with successful := true } },
          st.file, st.events)

/-! ## The harness -/

/-- Model of `ms_destroy_conns` (lines 243-263): the events of the teardown of
a chain.  The commented-out `pthread_cancel` statements leave the first
`if` with an empty block and make the test of `connectmx_created` the body of
the `if` on `receiver.created && cancel_threads`. -/
def ms_destroy_conns : List ms_conn → Bool → List Event
  | [], _ => []
  | conn :: prev, cancel_threads =>
    (if conn.fd_in ≥ 0 then [Event.close conn.fd_in] else [])
    ++ (if conn.fd_out ≥ 0 then [Event.close conn.fd_out] else [])
    ++ (if conn.fd_sock ≥ 0 then [Event.close conn.fd_sock] else [])
    ++ (if conn.receiver.created && cancel_threads then
          (if conn.connectmx_created then [Event.mutex_destroy] else [])
        else [])
    ++ [Event.free]
    ++ ms_destroy_conns prev cancel_threads

/-- What a sender thread has left in its record when it is joined. -/
structure SenderDone where
  successful : Bool
  errmsg : String
  fd_sock : Int
  deriving DecidableEq, Repr

/-- What a receiver thread has left in its record when it is joined. -/
structure ReceiverDone where
  successful : Bool
  errmsg : String
  recv_total : Nat
  deriving DecidableEq, Repr

/-- What the operating system and the C library answer to the calls of the
harness.  Calls made once per connection are indexed by the loop counter `i`
of `ms_create_conns`; `format fmt n` is the text `snprintf` produces from the
format `fmt` and the `int` argument `n`; `sender_done` and `receiver_done`
give, for a thread handle, the state in which the thread leaves its record. -/
structure HarnessEnv where
  barrier_init_err : Nat
  open_in : Nat → Int
  open_in_err : Nat → String
  fstat_ret : Int
  fstat_err : String
  st_size : Int
  format : String → Int → String
  open_out : Nat → Int
  open_out_err : Nat → String
  mutex_init_err : Nat → Nat
  create_sender_err : Nat → Nat
  create_receiver_err : Nat → Nat
  strerror : Nat → String
  sender_done : Nat → SenderDone
  receiver_done : Nat → ReceiverDone

/-- The arguments of `ms_create_conns` other than the message buffer and the
barrier. -/
structure CreateArgs where
  msglen : Nat
  in_file : String
  out_file_fmt : String
  host : String
  port : String
  num_conns : Nat
  use_shutdown : Bool
  ignore_out : Bool
  deriving DecidableEq, Repr

/-- Result of one iteration of the loop of `ms_create_conns`: the diagnostic
when the iteration jumps to `failed`, the record, the value of the variable
`in_len` and the events. -/
structure CreateStep where
  failed : Option String
  conn : ms_conn
  in_len : Nat
  events : List Event

/-- Handle of the sender thread started in iteration `i`: threads are
numbered in the order in which they are started. -/
def sender_handle (i : Nat) : Nat := 2 * i

/-- Handle of the receiver thread started in iteration `i`. -/
def receiver_handle (i : Nat) : Nat := 2 * i + 1

/-- The body of the `for` loop of `ms_create_conns` (lines 277-343) for loop
counter `i`, entered with the variable `in_len`. -/
def create_conn (env : HarnessEnv) (a : CreateArgs) (i : Nat) (in_len : Nat) : CreateStep :=
  let conn : ms_conn :=
    { fd_in := -1, fd_out := -1, fd_sock := -1, host := a.host, port := a.port,
      use_shutdown := a.use_shutdown, ignore_out := a.ignore_out, in_len := in_len,
      out_file := "", connectmx_created := false,
      sender := { thread := 0, created := false, successful := false, errmsg := "" },
      receiver := { thread := 0, created := false, successful := false, errmsg := "" },
      recv_total := 0 }
  let conn : ms_conn := { conn with fd_in := env.open_in i }
  let ev1 := [Event.open_in conn.fd_in]
  if conn.fd_in < 0 then
    { failed := some ("Cannot open input file \x27" ++ a.in_file ++ "\x27: " ++ env.open_in_err i),
      conn := conn, in_len := in_len, events := ev1 }
  else if i = 0 ∧ env.fstat_ret < 0 then
    { failed := some ("Cannot stat input file \x27" ++ a.in_file ++ "\x27: " ++ env.fstat_err),
      conn := conn, in_len := in_len, events := ev1 ++ [Event.fstat env.fstat_ret] }
  else
    let in_len := if i = 0 then to_size_t env.st_size else in_len
    let conn : ms_conn := if i = 0 then { conn with in_len := in_len } else conn
    let ev2 := if i = 0 then ev1 ++ [Event.fstat env.fstat_ret] else ev1
    let conn : ms_conn :=
      if a.ignore_out then conn
      else { conn with
        out_file := snprintf 4096 (env.format a.out_file_fmt (to_int ((i : Int) + 1))),
        fd_out := env.open_out i }
    let ev3 := if a.ignore_out then ev2 else ev2 ++ [Event.open_out conn.out_file conn.fd_out]
    if ¬ a.ignore_out ∧ conn.fd_out < 0 then
      { failed := some ("Cannot open output file \x27" ++ conn.out_file ++ "\x27: "
          ++ env.open_out_err i),
        conn := conn, in_len := in_len, events := ev3 }
    else
      let err := env.mutex_init_err i
      let ev4 := ev3 ++ [Event.mutex_init err]
      if err ≠ 0 then
        { failed := some ("pthread_mutex_init failed: " ++ env.strerror err),
          conn := conn, in_len := in_len, events := ev4 }
      else
        let conn : ms_conn := { conn with connectmx_created := true }
        let err := env.create_sender_err i
        let ev5 := ev4 ++ [Event.create_sender err]
        if err ≠ 0 then
          { failed := some ("Failed to start sender thread #" ++ toString i ++ ": "
              ++ env.strerror err),
            conn := conn, in_len := in_len, events := ev5 }
        else
          let conn : ms_conn := { conn with
            sender := { conn.sender with thread := sender_handle i, created := true } }
          let err := env.create_receiver_err i
          let ev6 := ev5 ++ [Event.create_receiver err]
          if err ≠ 0 then
            { failed := some ("Failed to start receiver thread #" ++ toString i ++ ": "
                ++ env.strerror err),
              conn := conn, in_len := in_len, events := ev6 }
          else
            { failed := none,
              conn := { conn with
                receiver := { conn.receiver with thread := receiver_handle i, created := true } },
              in_len := in_len, events := ev6 }

/-- The `for` loop of `ms_create_conns` with the code after it.  Arguments:
the number of iterations left (`num_conns - i`), the counter `i`, the chain
`last`, the variable `in_len` and the content of `msgbuf`.  Returns the
chain (`[]` for `NULL`), `msgbuf` and the events. -/
def create_loop (env : HarnessEnv) (a : CreateArgs) :
    Nat → Nat → List ms_conn → Nat → String → List ms_conn × String × List Event
  | 0, _, last, _, msgbuf => (last, msgbuf, [])
  | n + 1, i, last, in_len, msgbuf =>
    let step := create_conn env a i in_len
    match step.failed with
    | some msg =>
      ([], snprintf a.msglen msg,
        step.events ++ ms_destroy_conns (step.conn :: last) true)
    | none =>
      let r := create_loop env a n (i + 1) (step.conn :: last) step.in_len msgbuf
      (r.1, r.2.1, step.events ++ r.2.2)

/-- Model of `ms_create_conns` (lines 270-349). -/
def ms_create_conns (env : HarnessEnv) (a : CreateArgs) (msgbuf : String) :
    List ms_conn × String × List Event :=
  create_loop env a a.num_conns 0 [] 0 msgbuf

/-- The values stored in the result table: an error message, or the table of
a successful connection (the six timestamp fields are not modelled). -/
inductive LuaValue
  | string (s : String)
  | result (total_sent : Int) (total_received : Int)
  deriving DecidableEq, Repr

/-- A Lua table with integer keys: at most one entry per key. -/
abbrev LuaTable := List (Int × LuaValue)

/-- Model of `lua_rawseti`: `t[i] = v`. -/
def lua_rawseti (t : LuaTable) (i : Int) (v : LuaValue) : LuaTable :=
  (i, v) :: t.filter (fun e => decide (e.1 ≠ i))

/-- Model of `lua_rawgeti`: the value `t[i]`, `none` for `nil`. -/
def lua_rawgeti : LuaTable → Int → Option LuaValue
  | [], _ => none
  | e :: t, i => if e.1 = i then some e.2 else lua_rawgeti t i

/-- State of the result loop of `lcf_multi_sendfile`: the counter `i`, the
result table and the events so far. -/
structure LoopState where
  i : Int
  table : LuaTable
  events : List Event
  deriving DecidableEq, Repr

/-- The record after `pthread_join` of its sender thread. -/
def join_sender (env : HarnessEnv) (c : ms_conn) : ms_conn :=
  let d := env.sender_done c.sender.thread
  { c with fd_sock := d.fd_sock,
           sender := { c.sender with successful := d.successful, errmsg := d.errmsg } }

/-- The record after `pthread_join` of its receiver thread. -/
def join_receiver (env : HarnessEnv) (c : ms_conn) : ms_conn :=
  let d := env.receiver_done c.receiver.thread
  { c with recv_total := d.recv_total,
           receiver := { c.receiver with successful := d.successful, errmsg := d.errmsg } }

/-- The body of the result loop of `lcf_multi_sendfile` (lines 412-448) for
the record `c0`: the new state and the record after the joins. -/
def result_step (env : HarnessEnv) (st : LoopState) (c0 : ms_conn) : LoopState × ms_conn :=
  let i := to_lua_Integer (st.i + 1)
  let c := join_sender env c0
  let ev1 := st.events ++ [Event.join c.sender.thread]
  if ¬ c.sender.successful then
    ({ i := i, table := lua_rawseti st.table i (LuaValue.string c.sender.errmsg),
       events := ev1 }, c)
  else
    let c := join_receiver env c
    let ev2 := ev1 ++ [Event.join c.receiver.thread]
    if ¬ c.receiver.successful then
      ({ i := i, table := lua_rawseti st.table i (LuaValue.string c.receiver.errmsg),
         events := ev2 }, c)
    else
      ({ i := i,
         table := lua_rawseti st.table i
           (LuaValue.result (to_lua_Integer c.in_len) (to_lua_Integer c.recv_total)),
         events := ev2 }, c)

/-- The value that the body of the result loop stores in the table for the
record `c0` (lines 414-447). -/
def result_entry (env : HarnessEnv) (c0 : ms_conn) : LuaValue :=
  (lua_rawgeti (result_step env { i := 0, table := [], events := [] } c0).1.table 1).getD
    (LuaValue.string "")

/-- The result loop `for (c = conns; c != NULL; c = c->prev)` of
`lcf_multi_sendfile` (lines 411-449): the final state and the chain after the
joins. -/
def result_loop (env : HarnessEnv) : List ms_conn → LoopState → LoopState × List ms_conn
  | [], st => (st, [])
  | c :: prev, st =>
    let r := result_step env st c
    let rest := result_loop env prev r.1
    (rest.1, r.2 :: rest.2)

/-- What `lcf_multi_sendfile` returns to Lua: an error raised with
`luaL_error` (format string and argument), `nil` with a message, or the
result table. -/
inductive LuaReturn
  | error (fmt : String) (arg : String)
  | failure (msg : String)
  | results (t : LuaTable)
  deriving DecidableEq, Repr

/-- Model of `lcf_multi_sendfile` (lines 373-453): the value returned to Lua
and the events of the call, in order. -/
def lcf_multi_sendfile (env : HarnessEnv) (in_file out_file_fmt host port : String)
    (num_conns : Int) (use_shutdown ignore_out : Bool) : LuaReturn × List Event :=
  let max_conn : Nat := UINT_MAX / 2 - 1
  if num_conns ≤ 0 ∨ to_size_t num_conns > max_conn then
    (LuaReturn.error "number of connections must greater than zero and smaller than %zu"
      (toString max_conn), [])
  else
    let err := env.barrier_init_err
    let ev0 := Event.barrier_init (to_unsigned (to_lua_Integer (num_conns * 2 + 1))) err
    if err ≠ 0 then
      (LuaReturn.error "pthread_barrier_init failed: %s" (env.strerror err), [ev0])
    else
      let r := ms_create_conns env
        { msglen := 8192, in_file := in_file, out_file_fmt := out_file_fmt, host := host,
          port := port, num_conns := to_size_t num_conns, use_shutdown := use_shutdown,
          ignore_out := ignore_out } ""
      if r.1 = [] then
        (LuaReturn.failure r.2.1, ev0 :: r.2.2 ++ [Event.barrier_destroy])
      else
        let l := result_loop env r.1 { i := 0, table := [], events := [] }
        (LuaReturn.results l.1.table,
          ev0 :: r.2.2 ++ [Event.barrier_wait] ++ l.1.events
            ++ ms_destroy_conns l.2 false ++ [Event.barrier_destroy])

/-! ## Measures on traces -/

/-- Sum of the values returned by the `sendfile` calls of a trace. -/
def bytes_sent : List Event → Int
  | [] => 0
  | Event.sendfile _ sent :: evs => sent + bytes_sent evs
  | _ :: evs => bytes_sent evs

/-- Effect of one event on whether the thread holds the connect mutex: a
lock that returns 0 acquires it, an unlock that returns 0 releases it. -/
def handoff_step (held : Bool) : Event → Bool
  | Event.mutex_lock 0 => true
  | Event.mutex_unlock 0 => false
  | _ => held

/-- Whether the thread holds the connect mutex after the events of a trace. -/
def holds_handoff (evs : List Event) : Bool :=
  evs.foldl handoff_step false

/-- Whether an event is a `shutdown` call. -/
def is_shutdown : Event → Bool
  | Event.shutdown_wr _ => true
  | _ => false

/-- Whether an event is a `write` call. -/
def is_write : Event → Bool
  | Event.write _ _ _ _ => true
  | _ => false

/-- Whether the events are the `write` calls on `fd` that flush a chunk of
`len` bytes of which `done` are already written: each call starts at the
first unwritten byte, asks for all the remaining bytes and writes at least 1
and at most that many, and after the last call the whole chunk is written. -/
def resumes_from (fd : Int) (len : Nat) : Nat → List Event → Bool
  | done, [] => done == len
  | done, Event.write fd2 now count wlen :: evs =>
    fd2 == fd && now == done && count == len - done && decide (1 ≤ wlen)
      && decide (wlen ≤ (count : Int)) && resumes_from fd len (done + wlen.toNat) evs
  | _, _ :: _ => false

/-- The descriptors given to `close` by the events of a trace, in order. -/
def closed_fds : List Event → List Int
  | [] => []
  | Event.close fd :: evs => fd :: closed_fds evs
  | _ :: evs => closed_fds evs

/-- Whether an event is a `free` of a record. -/
def is_free : Event → Bool
  | Event.free => true
  | _ => false

/-- Whether an event is a `pthread_mutex_destroy` call. -/
def is_mutex_destroy : Event → Bool
  | Event.mutex_destroy => true
  | _ => false

/-- Whether an event is the opening of an output file. -/
def is_open_out : Event → Bool
  | Event.open_out _ _ => true
  | _ => false

/-! ## Interleavings of the threads of one connection -/

/-- The parties of the launch of one connection: its sender thread, its
receiver thread, and the other participants of the barrier (the orchestrator
and the threads of the other connections). -/
inductive Task
  | sender
  | receiver
  | other
  deriving DecidableEq, Repr

/-- Whether an event is a `pthread_barrier_wait` call. -/
def is_barrier_wait : Event → Bool
  | Event.barrier_wait => true
  | _ => false

/-- The owner of the connect mutex after task `t` performs an event, given
the owner before; `none` when the call cannot return in this state.  A
`pthread_mutex_lock` that returns 0 needs the mutex to be free and makes `t`
its owner; a `pthread_mutex_unlock` that returns 0 by the owner frees it;
no other event touches the mutex. -/
def perform (t : Task) (owner : Option Task) : Event → Option (Option Task)
  | Event.mutex_lock 0 => if owner = none then some (some t) else none
  | Event.mutex_unlock 0 => some (if owner = some t then none else owner)
  | _ => some owner

/-- State of an interleaved run of the two threads of one connection: the
events each thread has still to perform (its trace is fixed by the answers
of its environment), whether it has passed the barrier, the number of other
participants that have not reached the barrier yet, the owner of the connect
mutex, and the events performed so far, in order, each with its task. -/
structure Launch where
  sender_rest : List Event
  receiver_rest : List Event
  sender_passed : Bool
  receiver_passed : Bool
  others_left : Nat
  owner : Option Task
  history : List (Task × Event)

/-- Whether a thread has reached the barrier: it has passed it, or the call
it is in is `pthread_barrier_wait`. -/
def at_barrier (rest : List Event) (passed : Bool) : Bool :=
  passed || (match rest with
    | e :: _ => is_barrier_wait e
    | [] => false)

/-- One step of an interleaved run, by the task chosen; `none` when that task
cannot take a step.  Another participant reaches the barrier; or a thread
completes its next call: a `pthread_barrier_wait` returns only when the
other thread and all other participants have reached the barrier, and the
mutex calls follow `perform`. -/
def launch_step (s : Launch) : Task → Option Launch
  | Task.other =>
    if s.others_left = 0 then none
    else some { s with
      others_left := s.others_left - 1,
      history := s.history ++ [(Task.other, Event.barrier_wait)] }
  | Task.sender =>
    match s.sender_rest with
    | [] => none
    | e :: rest =>
      if is_barrier_wait e
          && !(at_barrier s.receiver_rest s.receiver_passed && decide (s.others_left = 0)) then
        none
      else
        (perform Task.sender s.owner e).map (fun o => { s with
          sender_rest := rest,
          sender_passed := s.sender_passed || is_barrier_wait e,
          owner := o,
          history := s.history ++ [(Task.sender, e)] })
  | Task.receiver =>
    match s.receiver_rest with
    | [] => none
    | e :: rest =>
      if is_barrier_wait e
          && !(at_barrier s.sender_rest s.sender_passed && decide (s.others_left = 0)) then
        none
      else
        (perform Task.receiver s.owner e).map (fun o => { s with
          receiver_rest := rest,
          receiver_passed := s.receiver_passed || is_barrier_wait e,
          owner := o,
          history := s.history ++ [(Task.receiver, e)] })

/-- The run that follows a schedule (the task that takes each step); `none`
when the schedule asks a task for a step it cannot take. -/
def run_schedule : Launch → List Task → Option Launch
  | s, [] => some s
  | s, t :: ts =>
    match launch_step s t with
    | none => none
    | some s2 => run_schedule s2 ts

/-- The state in which the threads of a connection start, with the traces of
the sender and of the receiver and the number of other participants of the
barrier. -/
def launch (sender_trace receiver_trace : List Event) (others : Nat) : Launch :=
  { sender_rest := sender_trace, receiver_rest := receiver_trace, sender_passed := false,
    receiver_passed := false, others_left := others, owner := none, history := [] }

/-- The events of one task in a history, in order. -/
def events_of (t : Task) : List (Task × Event) → List Event
  | [] => []
  | x :: xs => if x.1 = t then x.2 :: events_of t xs else events_of t xs

/-- What holds of a history once the receiver is past its lock: the sender
does not hold the connect mutex and, when its own lock returned 0 (`e = 0`),
it has performed `connecttcpsock` with the non-negative result `fd` and a
`pthread_mutex_unlock` that returned 0. -/
def handed_off (e : Nat) (fd : Int) (h : List (Task × Event)) : Prop :=
  holds_handoff (events_of Task.sender h) = false
  ∧ (e = 0 → (Task.sender, Event.mutex_unlock 0) ∈ h
      ∧ (Task.sender, Event.connecttcpsock fd) ∈ h ∧ 0 ≤ fd)

/-- The invariant of the interleaved runs of a sender with trace `S` whose
lock returned `e` and a receiver with trace `R`. -/
def launch_inv (S R : List Event) (e : Nat) (fd : Int) (s : Launch) : Prop :=
  events_of Task.sender s.history ++ s.sender_rest = S
  ∧ events_of Task.receiver s.history ++ s.receiver_rest = R
  ∧ (s.sender_passed = true → events_of Task.sender s.history ≠ [])
  ∧ (events_of Task.receiver s.history ≠ [] → events_of Task.sender s.history ≠ [])
  ∧ (holds_handoff (events_of Task.sender s.history) = true → s.owner = some Task.sender)
  ∧ ((Task.receiver, Event.mutex_lock 0) ∈ s.history → handed_off e fd s.history)
  ∧ (∀ pre post rlen, s.history = pre ++ (Task.receiver, Event.recv rlen) :: post →
      handed_off e fd pre)

/-! ## Inputs used to evaluate the model -/

/-- A candidate address whose socket cannot be created. -/
def cand_no_socket : addrinfo :=
  { ai_family := AF_INET6, ai_socktype := SOCK_STREAM, socket_ret := -1,
    socket_err := "Address family not supported by protocol",
    setsockopt_ret := 0, setsockopt_err := "", connect_ret := 0, connect_err := "" }

/-- A candidate address whose socket is created and whose connect fails. -/
def cand_refused : addrinfo :=
  { ai_family := AF_INET, ai_socktype := SOCK_STREAM, socket_ret := 4, socket_err := "",
    setsockopt_ret := 0, setsockopt_err := "", connect_ret := -1,
    connect_err := "Connection refused" }

/-- A candidate address whose socket is created and connects. -/
def cand_ok : addrinfo :=
  { ai_family := AF_INET, ai_socktype := SOCK_STREAM, socket_ret := 5, socket_err := "",
    setsockopt_ret := 0, setsockopt_err := "", connect_ret := 0, connect_err := "" }

/-- A resolver answer with a candidate without socket before a working one. -/
def resolver_v6_then_v4 : Resolver :=
  { err := 0, gai_strerror := "", result := [cand_no_socket, cand_ok] }

/-- A resolver answer with a refused candidate before a working one. -/
def resolver_refused_then_ok : Resolver :=
  { err := 0, gai_strerror := "", result := [cand_refused, cand_ok] }

/-- A resolver answer with one working candidate. -/
def resolver_ok : Resolver :=
  { err := 0, gai_strerror := "", result := [cand_ok] }

/-- A resolver answer for a host name that does not resolve. -/
def resolver_unknown_host : Resolver :=
  { err := -2, gai_strerror := "Name or service not known", result := [] }

/-- A sender environment in which every call succeeds and `sendfile`
transfers at most 3 bytes per call. -/
def sender_env_ok : SenderEnv :=
  { lock_err := 0, resolver := resolver_ok, unlock_err := 0,
    sendfile := fun _ count => min (count : Int) 3,
    sendfile_err := fun _ => "", strerror := fun _ => "" }

/-- A sender environment in which the host name does not resolve. -/
def sender_env_unknown_host : SenderEnv :=
  { sender_env_ok with resolver := resolver_unknown_host }

/-- A sender environment in which the second `sendfile` call fails. -/
def sender_env_broken_pipe : SenderEnv :=
  { sender_env_ok with
    sendfile := fun k count => if k = 0 then min ((count : Int) - 1) 3 else -1,
    sendfile_err := fun _ => "Broken pipe" }

/-- A record as `ms_create_conns` leaves it for the first connection. -/
def sample_conn (in_len : Nat) (use_shutdown ignore_out : Bool) : ms_conn :=
  { fd_in := 3, fd_out := if ignore_out then -1 else 4, fd_sock := -1,
    host := "localhost", port := "8080",
    use_shutdown := use_shutdown, ignore_out := ignore_out, in_len := in_len,
    out_file := if ignore_out then "" else "out-1", connectmx_created := true,
    sender := { thread := 0, created := true, successful := false, errmsg := "" },
    receiver := { thread := 1, created := true, successful := false, errmsg := "" },
    recv_total := 0 }

/-- Replace each `%d` of a format by the given text; `pending` tells that
the previous character was a `%` not yet written. -/
def format_chars (arg : List Char) : List Char → Bool → List Char
  | [], pending => if pending then ['%'] else []
  | c :: rest, pending =>
    if pending then
      if c = 'd' then arg ++ format_chars arg rest false
      else if c = '%' then '%' :: format_chars arg rest true
      else '%' :: c :: format_chars arg rest false
    else if c = '%' then format_chars arg rest true
    else c :: format_chars arg rest false

/-- A formatter for templates whose only conversions are `%d`. -/
def format_int (fmt : String) (n : Int) : String :=
  ⟨format_chars (toString n).data fmt.data false⟩

/-- A harness environment in which every call of the setup succeeds, the
input file has 1024 bytes, the sender started first fails in `sendfile` and
every other thread succeeds, each receiver having received 1024 bytes. -/
def harness_env_first_fails : HarnessEnv :=
  { barrier_init_err := 0,
    open_in := fun i => 3 + 2 * (i : Int), open_in_err := fun _ => "",
    fstat_ret := 0, fstat_err := "", st_size := 1024,
    format := format_int,
    open_out := fun i => 4 + 2 * (i : Int), open_out_err := fun _ => "",
    mutex_init_err := fun _ => 0, create_sender_err := fun _ => 0,
    create_receiver_err := fun _ => 0, strerror := fun _ => "",
    sender_done := fun h =>
      if h = 0 then
        { successful := false, errmsg := "sendfile failed: Broken pipe", fd_sock := 100 }
      else { successful := true, errmsg := "", fd_sock := 100 + (h : Int) },
    receiver_done := fun _ => { successful := true, errmsg := "", recv_total := 1024 } }

/-- The arguments `lcf_multi_sendfile` passes to `ms_create_conns` for two
connections to `localhost:8080` with output files `out-%d.txt`. -/
def create_args_two : CreateArgs :=
  { msglen := 8192, in_file := "requests.txt", out_file_fmt := "out-%d.txt",
    host := "localhost", port := "8080", num_conns := 2, use_shutdown := false,
    ignore_out := false }

/-- A receiver environment in which the peer sends 5 bytes, then 2 bytes,
then closes, and `write` accepts at most 2 bytes per call. -/
def receiver_env_ok : ReceiverEnv :=
  { lock_err := 0, unlock_err := 0,
    recv := [RecvResult.data [1, 2, 3, 4, 5], RecvResult.data [6, 7], RecvResult.data []],
    write := fun _ count => min (count : Int) 2,
    write_err := fun _ => "", strerror := fun _ => "" }

/-- A receiver environment in which the connection is reset after 5 bytes. -/
def receiver_env_reset : ReceiverEnv :=
  { receiver_env_ok with
    recv := [RecvResult.data [1, 2, 3, 4, 5], RecvResult.error "Connection reset by peer"] }

/-- A receiver environment in which the second `write` call fails. -/
def receiver_env_disk_full : ReceiverEnv :=
  { receiver_env_ok with
    write := fun k count => if k < 1 then min (count : Int) 2 else -1,
    write_err := fun _ => "No space left on device" }

/-- The arguments of `create_args_two` with `ignore_out` set. -/
def create_args_discard : CreateArgs :=
  { create_args_two with ignore_out := true }

/-- A record after a completed run: both files and the socket are open, the
mutex exists and both threads were started. -/
def conn_after_run : ms_conn :=
  { sample_conn 7 false false with fd_sock := 5 }

/-- A record as `ms_create_conns` leaves it when the sender thread cannot be
started: both files are open and the mutex exists, no thread was started. -/
def conn_sender_not_started : ms_conn :=
  { sample_conn 7 false false with
    sender := { thread := 0, created := false, successful := false, errmsg := "" },
    receiver := { thread := 0, created := false, successful := false, errmsg := "" } }

/-- The environment of `harness_env_first_fails` in which the sender started
first succeeds as well. -/
def harness_env_all_succeed : HarnessEnv :=
  { harness_env_first_fails with
    sender_done := fun h => { successful := true, errmsg := "", fd_sock := 100 + (h : Int) } }

/-- The record `ms_create_conns` builds first for `create_args_two`. -/
def conn_created_first : ms_conn :=
  { fd_in := 3, fd_out := 4, fd_sock := -1, host := "localhost", port := "8080",
    use_shutdown := false, ignore_out := false, in_len := 1024, out_file := "out-1.txt",
    connectmx_created := true,
    sender := { thread := 0, created := true, successful := false, errmsg := "" },
    receiver := { thread := 1, created := true, successful := false, errmsg := "" },
    recv_total := 0 }

/-- The record `ms_create_conns` builds second for `create_args_two`. -/
def conn_created_second : ms_conn :=
  { fd_in := 5, fd_out := 6, fd_sock := -1, host := "localhost", port := "8080",
    use_shutdown := false, ignore_out := false, in_len := 1024, out_file := "out-2.txt",
    connectmx_created := true,
    sender := { thread := 2, created := true, successful := false, errmsg := "" },
    receiver := { thread := 3, created := true, successful := false, errmsg := "" },
    recv_total := 0 }

/-- A receiver environment in which the peer sends 5 bytes and closes, the
first `write` call writes 2 bytes only and the second `write` call fails. -/
def receiver_env_short_then_fail : ReceiverEnv :=
  { lock_err := 0, unlock_err := 0,
    recv := [RecvResult.data [1, 2, 3, 4, 5], RecvResult.data []],
    write := fun k _ => if k = 0 then 2 else -1,
    write_err := fun _ => "No space left on device", strerror := fun _ => "" }

/-- A receiver environment in which the fourth `write` call fails. -/
def receiver_env_disk_full_late : ReceiverEnv :=
  { receiver_env_ok with
    write := fun k count => if k < 3 then min (count : Int) 2 else -1,
    write_err := fun _ => "No space left on device" }

/-- The events of the sender of `sample_conn 7 false false` in
`sender_env_ok`. -/
def launch_sender_trace : List Event :=
  [Event.mutex_lock 0, Event.barrier_wait, Event.clock_gettime Timestamp.connect_start,
   Event.connecttcpsock 5, Event.clock_gettime Timestamp.connect_end, Event.mutex_unlock 0,
   Event.clock_gettime Timestamp.send_start, Event.sendfile 7 3, Event.sendfile 4 3,
   Event.sendfile 1 1, Event.clock_gettime Timestamp.send_end]

/-- A receiver environment in which the peer sends 2 bytes and closes, and
`write` accepts them in one call. -/
def receiver_env_one_chunk : ReceiverEnv :=
  { receiver_env_ok with recv := [RecvResult.data [6, 7], RecvResult.data []] }

/-- The events of the receiver of `sample_conn 7 false false` in
`receiver_env_one_chunk`. -/
def launch_receiver_trace : List Event :=
  [Event.barrier_wait, Event.mutex_lock 0, Event.mutex_unlock 0,
   Event.clock_gettime Timestamp.receive_start, Event.recv 2, Event.write 4 0 2 2,
   Event.recv 0, Event.clock_gettime Timestamp.receive_end]

/-- A schedule that takes the receiver to its first `recv`: the sender locks,
the orchestrator reaches the barrier, both threads pass it, the sender
connects and unlocks, and the receiver locks, unlocks and reads. -/
def launch_schedule : List Task :=
  [Task.sender, Task.other, Task.sender, Task.receiver, Task.sender, Task.sender,
   Task.sender, Task.sender, Task.receiver, Task.receiver, Task.receiver, Task.receiver]

/-- The history of `launch_schedule` before the first `recv`. -/
def launch_before_first_read : List (Task × Event) :=
  [(Task.sender, Event.mutex_lock 0), (Task.other, Event.barrier_wait),
   (Task.sender, Event.barrier_wait), (Task.receiver, Event.barrier_wait),
   (Task.sender, Event.clock_gettime Timestamp.connect_start),
   (Task.sender, Event.connecttcpsock 5),
   (Task.sender, Event.clock_gettime Timestamp.connect_end),
   (Task.sender, Event.mutex_unlock 0), (Task.receiver, Event.mutex_lock 0),
   (Task.receiver, Event.mutex_unlock 0),
   (Task.receiver, Event.clock_gettime Timestamp.receive_start)]

/-- The state that `launch_schedule` reaches. -/
def launch_at_first_read : Launch :=
  { sender_rest := [Event.clock_gettime Timestamp.send_start, Event.sendfile 7 3,
      Event.sendfile 4 3, Event.sendfile 1 1, Event.clock_gettime Timestamp.send_end],
    receiver_rest := [Event.write 4 0 2 2, Event.recv 0,
      Event.clock_gettime Timestamp.receive_end],
    sender_passed := true, receiver_passed := true, others_left := 0, owner := none,
    history := launch_before_first_read ++ [(Task.receiver, Event.recv 2)] }

/-! ## Theorems -/

/-! ### Arithmetic of the conversions -/

theorem to_size_t_of_nonneg (x : Int) (h0 : 0 ≤ x) (h1 : x < 2 ^ 64) :
    to_size_t x = x.toNat := by
  unfold to_size_t
  rw [Int.emod_eq_of_lt h0 h1]

theorem to_size_t_natCast (n : Nat) (h : n < 2 ^ 64) : to_size_t (n : Int) = n := by
  rw [to_size_t_of_nonneg _ (Int.natCast_nonneg n) (by exact_mod_cast h)]
  simp

theorem to_lua_Integer_of_range (x : Int) (h0 : -2 ^ 63 ≤ x) (h1 : x < 2 ^ 63) :
    to_lua_Integer x = x := by
  unfold to_lua_Integer
  rw [Int.emod_eq_of_lt (by linarith) (by linarith)]
  ring

theorem to_unsigned_of_nonneg (x : Int) (h0 : 0 ≤ x) (h1 : x < 2 ^ 32) :
    to_unsigned x = x.toNat := by
  unfold to_unsigned
  rw [Int.emod_eq_of_lt h0 h1]

/-! ### The connector -/

theorem connect_loop_skips (msglen : Nat) (tfo : Bool) (pre tail : List addrinfo)
    (lasterr msgbuf : String)
    (hpre : ∀ p ∈ pre, 0 ≤ p.socket_ret ∧ (tfo = true → 0 ≤ p.setsockopt_ret)
      ∧ p.connect_ret ≠ 0) :
    connect_loop msglen tfo (pre ++ tail) lasterr msgbuf
      = connect_loop msglen tfo tail
          (pre.foldl (fun _ p => p.connect_err) lasterr) msgbuf := by
  induction pre generalizing lasterr with
  | nil => simp
  | cons p ps ih =>
    have hp := hpre p (List.mem_cons_self p ps)
    have hps : ∀ q ∈ ps, 0 ≤ q.socket_ret ∧ (tfo = true → 0 ≤ q.setsockopt_ret)
        ∧ q.connect_ret ≠ 0 := fun q hq => hpre q (List.mem_cons_of_mem p hq)
    have h1 : ¬ p.socket_ret < 0 := not_lt.mpr hp.1
    have h2 : ¬ ((tfo && decide (p.setsockopt_ret < 0)) = true) := by
      intro h
      simp only [Bool.and_eq_true, decide_eq_true_eq] at h
      exact absurd h.2 (not_lt.mpr (hp.2.1 h.1))
    simp only [List.cons_append, connect_loop, h1, h2, hp.2.2, if_false,
      Bool.false_eq_true, List.append_eq]
    rw [ih p.connect_err hps]
    simp

/-- C10 (counterexample): with a first candidate whose socket creation fails
and a second candidate whose socket is created and connects, the connector
does not return the second candidate's socket: it returns -1 with the
diagnostic of the failed socket creation. -/
theorem connecttcpsock_socket_failure_aborts :
    (resolver_v6_then_v4.result.filter
        (fun c => decide (0 ≤ c.socket_ret) && decide (c.connect_ret = 0))).map
        (fun c => c.socket_ret) = [5]
    ∧ connecttcpsock resolver_v6_then_v4 "" 256 false
        = (-1, "socket(AF_INET6, SOCK_STREAM, 0): Address family not supported by protocol") := by
  constructor
  · decide
  · rfl

/-- C10 (amended): the connector tries the candidates in order and skips a
candidate whose socket is created and whose connect fails.  After such
skipped candidates, a candidate whose socket is created and connects gives
that socket as the result; a candidate whose socket creation fails ends the
whole call with -1 and the socket diagnostic, whatever candidates follow;
and when the last candidate is also skipped the call fails with the
diagnostic that carries the error of the last connect. -/
theorem connecttcpsock_first_connected_or_socket_failure
    (env : Resolver) (msgbuf : String) (msglen : Nat) (tfo : Bool)
    (pre tail : List addrinfo) (c : addrinfo)
    (hgai : env.err = 0) (hres : env.result = pre ++ c :: tail)
    (hpre : ∀ p ∈ pre, 0 ≤ p.socket_ret ∧ (tfo = true → 0 ≤ p.setsockopt_ret)
      ∧ p.connect_ret ≠ 0) :
    (0 ≤ c.socket_ret → (tfo = true → 0 ≤ c.setsockopt_ret) → c.connect_ret = 0 →
        connecttcpsock env msgbuf msglen tfo = (c.socket_ret, msgbuf))
    ∧ (c.socket_ret < 0 →
        connecttcpsock env msgbuf msglen tfo
          = (-1, snprintf msglen ("socket(" ++ family_name c.ai_family ++ ", "
              ++ socktype_name c.ai_socktype ++ ", 0): " ++ c.socket_err)))
    ∧ (0 ≤ c.socket_ret → (tfo = true → 0 ≤ c.setsockopt_ret) → c.connect_ret ≠ 0 →
        tail = [] →
        connecttcpsock env msgbuf msglen tfo
          = (-1, snprintf msglen ("No usable address: " ++ c.connect_err))) := by
  have hne : env.result ≠ [] := by rw [hres]; simp
  have hrun : connecttcpsock env msgbuf msglen tfo
      = connect_loop msglen tfo (c :: tail)
          (pre.foldl (fun _ p => p.connect_err) "") msgbuf := by
    unfold connecttcpsock
    simp only [hgai, ne_eq, not_true_eq_false, if_false, hne]
    rw [hres, connect_loop_skips msglen tfo pre (c :: tail) "" msgbuf hpre]
  refine ⟨?_, ?_, ?_⟩
  · intro h1 h2 h3
    have h1n : ¬ c.socket_ret < 0 := not_lt.mpr h1
    have h2n : ¬ ((tfo && decide (c.setsockopt_ret < 0)) = true) := by
      intro h
      simp only [Bool.and_eq_true, decide_eq_true_eq] at h
      exact absurd h.2 (not_lt.mpr (h2 h.1))
    rw [hrun]
    simp only [connect_loop, h1n, h2n, h3, if_false, if_true, Bool.false_eq_true]
  · intro h1
    rw [hrun]
    simp only [connect_loop, h1, if_true]
  · intro h1 h2 h3 h4
    have h1n : ¬ c.socket_ret < 0 := not_lt.mpr h1
    have h2n : ¬ ((tfo && decide (c.setsockopt_ret < 0)) = true) := by
      intro h
      simp only [Bool.and_eq_true, decide_eq_true_eq] at h
      exact absurd h.2 (not_lt.mpr (h2 h.1))
    rw [hrun, h4]
    simp only [connect_loop, h1n, h2n, h3, if_false, Bool.false_eq_true]

/-- C10 (witness): a refused candidate is skipped and the socket of the next
candidate, which connects, is returned. -/
theorem connecttcpsock_first_connected_or_socket_failure_witness :
    connecttcpsock resolver_refused_then_ok "" 256 false = (5, "") :=
  (connecttcpsock_first_connected_or_socket_failure resolver_refused_then_ok "" 256 false
    [cand_refused] [] cand_ok rfl rfl (by decide)).1 (by decide) (by decide) (by decide)

/-! ### The guard on the number of connections -/

theorem lcf_multi_sendfile_guard_iff (num_conns : Int)
    (hlo : -2 ^ 63 ≤ num_conns) (hhi : num_conns < 2 ^ 63) :
    (num_conns ≤ 0 ∨ to_size_t num_conns > UINT_MAX / 2 - 1)
      ↔ (num_conns ≤ 0 ∨ num_conns > ((UINT_MAX / 2 - 1 : Nat) : Int)) := by
  by_cases h0 : num_conns ≤ 0
  · simp [h0]
  · have hpos : 0 ≤ num_conns := by omega
    have hlt : num_conns < 2 ^ 64 := by linarith
    rw [to_size_t_of_nonneg num_conns hpos hlt]
    simp only [h0, false_or, UINT_MAX]
    omega

theorem lcf_multi_sendfile_events_head (env : HarnessEnv)
    (in_file out_file_fmt host port : String) (num_conns : Int)
    (use_shutdown ignore_out : Bool)
    (hacc : ¬ (num_conns ≤ 0 ∨ to_size_t num_conns > UINT_MAX / 2 - 1)) :
    (lcf_multi_sendfile env in_file out_file_fmt host port num_conns use_shutdown
        ignore_out).2.head?
      = some (Event.barrier_init (to_unsigned (to_lua_Integer (num_conns * 2 + 1)))
          env.barrier_init_err) := by
  unfold lcf_multi_sendfile
  simp only [hacc, if_false]
  split
  · rfl
  · split <;> rfl

/-- C5: for a connection count in the range of `lua_Integer`, the entry point
raises the connection-count error, with no event at all before it (no
barrier, no file, no thread), exactly when the count is at most 0 or greater
than `UINT_MAX / 2 - 1`; for every accepted count `n` the first event is the
creation of the barrier, and its participant count, converted to `unsigned`,
is exactly `2 * n + 1` and at least 3. -/
theorem lcf_multi_sendfile_connection_count_guard (env : HarnessEnv)
    (in_file out_file_fmt host port : String) (num_conns : Int)
    (use_shutdown ignore_out : Bool)
    (hlo : -2 ^ 63 ≤ num_conns) (hhi : num_conns < 2 ^ 63) :
    ((num_conns ≤ 0 ∨ num_conns > ((UINT_MAX / 2 - 1 : Nat) : Int))
      ↔ lcf_multi_sendfile env in_file out_file_fmt host port num_conns use_shutdown ignore_out
          = (LuaReturn.error
              "number of connections must greater than zero and smaller than %zu"
              "2147483646", []))
    ∧ (¬ (num_conns ≤ 0 ∨ num_conns > ((UINT_MAX / 2 - 1 : Nat) : Int)) →
        (lcf_multi_sendfile env in_file out_file_fmt host port num_conns use_shutdown
            ignore_out).2.head?
          = some (Event.barrier_init (2 * num_conns + 1).toNat env.barrier_init_err)
        ∧ ((to_unsigned (to_lua_Integer (num_conns * 2 + 1)) : Nat) : Int) = 2 * num_conns + 1
        ∧ (3 : Int) ≤ 2 * num_conns + 1
        ∧ 2 * num_conns + 1 < 2 ^ 32) := by
  have hiff := lcf_multi_sendfile_guard_iff num_conns hlo hhi
  have hcount : ¬ (num_conns ≤ 0 ∨ num_conns > ((UINT_MAX / 2 - 1 : Nat) : Int)) →
      to_unsigned (to_lua_Integer (num_conns * 2 + 1)) = (2 * num_conns + 1).toNat
      ∧ (3 : Int) ≤ 2 * num_conns + 1 ∧ 2 * num_conns + 1 < 2 ^ 32 := by
    intro h
    simp only [UINT_MAX, not_or, not_le, gt_iff_lt, not_lt] at h
    have h1 : (0 : Int) < num_conns := h.1
    have h2 : num_conns ≤ 2147483646 := by
      have := h.2
      norm_num at this
      exact this
    have h3 : to_lua_Integer (num_conns * 2 + 1) = num_conns * 2 + 1 :=
      to_lua_Integer_of_range _ (by linarith) (by linarith)
    rw [h3, to_unsigned_of_nonneg _ (by linarith) (by linarith)]
    refine ⟨?_, by linarith, by linarith⟩
    congr 1
    ring
  constructor
  · constructor
    · intro h
      have h' := hiff.mpr h
      unfold lcf_multi_sendfile
      simp only [h', if_true]
      rfl
    · intro h
      by_contra hn
      have hn' : ¬ (num_conns ≤ 0 ∨ to_size_t num_conns > UINT_MAX / 2 - 1) :=
        fun hc => hn (hiff.mp hc)
      have hhead := lcf_multi_sendfile_events_head env in_file out_file_fmt host port
        num_conns use_shutdown ignore_out hn'
      rw [h] at hhead
      simp at hhead
  · intro h
    have hn' : ¬ (num_conns ≤ 0 ∨ to_size_t num_conns > UINT_MAX / 2 - 1) :=
      fun hc => h (hiff.mp hc)
    obtain ⟨hc1, hc2, hc3⟩ := hcount h
    refine ⟨?_, ?_, hc2, hc3⟩
    · rw [lcf_multi_sendfile_events_head env in_file out_file_fmt host port num_conns
        use_shutdown ignore_out hn', hc1]
    · rw [hc1]
      exact Int.toNat_of_nonneg (by linarith)

/-- C5 (witness): a count of 0 is rejected without any event, and for a count
of 2 the first event is the creation of a barrier for 5 participants. -/
theorem lcf_multi_sendfile_connection_count_guard_witness :
    lcf_multi_sendfile harness_env_first_fails "requests.txt" "out-%d.txt" "localhost"
        "8080" 0 false false
      = (LuaReturn.error "number of connections must greater than zero and smaller than %zu"
          "2147483646", [])
    ∧ (lcf_multi_sendfile harness_env_first_fails "requests.txt" "out-%d.txt" "localhost"
        "8080" 2 false false).2.head?
      = some (Event.barrier_init (2 * 2 + 1 : Int).toNat
          harness_env_first_fails.barrier_init_err) :=
  ⟨(lcf_multi_sendfile_connection_count_guard harness_env_first_fails "requests.txt"
      "out-%d.txt" "localhost" "8080" 0 false false (by decide) (by decide)).1.mp
      (Or.inl (le_refl 0)),
   ((lcf_multi_sendfile_connection_count_guard harness_env_first_fails "requests.txt"
      "out-%d.txt" "localhost" "8080" 2 false false (by decide) (by decide)).2
      (by decide)).1⟩

/-! ### The send loop -/

theorem send_loop_zero (env : SenderEnv) (fd : Int) (us : Bool) (fuel k : Nat) :
    send_loop env fd us fuel k 0 = some (none, []) := by
  unfold send_loop
  simp

theorem send_loop_succ (env : SenderEnv) (fd : Int) (us : Bool) (fuel k remaining : Nat)
    (h : remaining ≠ 0) :
    send_loop env fd us (fuel + 1) k remaining
      = (let sent := env.sendfile k remaining
         if sent < 0 then
           some (some ("sendfile failed: " ++ env.sendfile_err k),
             [Event.sendfile remaining sent])
         else if to_size_t sent ≥ remaining then
           (send_loop env fd us fuel (k + 1) 0).map
             (fun r => (r.1, Event.sendfile remaining sent
               :: (if us then [Event.shutdown_wr fd] else []) ++ r.2))
         else
           (send_loop env fd us fuel (k + 1) (remaining - to_size_t sent)).map
             (fun r => (r.1, Event.sendfile remaining sent :: r.2))) := by
  rw [send_loop]
  simp only [h, if_false]

theorem bytes_sent_sendfile (count : Nat) (sent : Int) (evs : List Event) :
    bytes_sent (Event.sendfile count sent :: evs) = sent + bytes_sent evs := rfl

theorem bytes_sent_append (xs ys : List Event) :
    bytes_sent (xs ++ ys) = bytes_sent xs + bytes_sent ys := by
  induction xs with
  | nil => simp [bytes_sent]
  | cons e es ih =>
    cases e <;> simp [bytes_sent, ih]
    ring

theorem send_loop_complete (env : SenderEnv) (fd : Int) (us : Bool)
    (hsf : ∀ k count, 0 < count →
      1 ≤ env.sendfile k count ∧ env.sendfile k count ≤ (count : Int)) :
    ∀ fuel k remaining, remaining ≤ fuel → remaining < 2 ^ 64 →
      ∃ evs, send_loop env fd us fuel k remaining = some (none, evs)
        ∧ bytes_sent evs = (remaining : Int)
        ∧ (evs.filter is_shutdown).length = (if us = true ∧ 0 < remaining then 1 else 0)
        ∧ (∀ e ∈ evs, (∃ c t, e = Event.sendfile c t) ∨ e = Event.shutdown_wr fd) := by
  intro fuel
  induction fuel with
  | zero =>
    intro k remaining hle _
    have h0 : remaining = 0 := Nat.le_zero.mp hle
    subst h0
    exact ⟨[], send_loop_zero env fd us 0 k, by simp [bytes_sent], by simp, by simp⟩
  | succ fuel ih =>
    intro k remaining hle hlt
    by_cases h0 : remaining = 0
    · subst h0
      exact ⟨[], send_loop_zero env fd us (fuel + 1) k, by simp [bytes_sent], by simp, by simp⟩
    · have hpos : 0 < remaining := Nat.pos_of_ne_zero h0
      obtain ⟨hs1, hs2⟩ := hsf k remaining hpos
      have hnn : ¬ env.sendfile k remaining < 0 := by omega
      have hcast : to_size_t (env.sendfile k remaining) = (env.sendfile k remaining).toNat :=
        to_size_t_of_nonneg _ (by omega) (by
          have : (remaining : Int) < 2 ^ 64 := by exact_mod_cast hlt
          omega)
      rw [send_loop_succ env fd us fuel k remaining h0]
      simp only [hnn, if_false, hcast]
      by_cases hge : (env.sendfile k remaining).toNat ≥ remaining
      · simp only [hge, if_true, send_loop_zero, Option.map_some']
        refine ⟨_, rfl, ?_, ?_, ?_⟩
        · cases us <;> simp [bytes_sent] <;> omega
        · cases us <;> simp [is_shutdown, hpos]
        · intro e he
          cases us
          · simp only [Bool.false_eq_true, if_false, List.append_nil,
              List.mem_singleton] at he
            exact Or.inl ⟨_, _, he⟩
          · simp only [if_true, List.append_nil, List.mem_cons, List.mem_singleton,
              List.not_mem_nil, or_false] at he
            rcases he with h | h
            · exact Or.inl ⟨_, _, h⟩
            · exact Or.inr h
      · obtain ⟨evs, hrun, hbytes, hshut, hkind⟩ :=
          ih (k + 1) (remaining - (env.sendfile k remaining).toNat) (by omega) (by omega)
        simp only [hge, if_false, hrun, Option.map_some']
        refine ⟨_, rfl, ?_, ?_, ?_⟩
        · rw [bytes_sent_sendfile, hbytes]
          omega
        · have hrem : 0 < remaining - (env.sendfile k remaining).toNat := by omega
          simp only [hrem, and_true] at hshut
          simp [is_shutdown, hshut, hpos]
        · intro e he
          rcases List.mem_cons.mp he with h | h
          · exact Or.inl ⟨_, _, h⟩
          · exact hkind e h

theorem send_loop_fails (env : SenderEnv) (fd : Int) (us : Bool) :
    ∀ (rs : List Nat) (fuel k remaining : Nat), rs.length < fuel → rs.sum < remaining →
      remaining < 2 ^ 64 → (∀ r ∈ rs, 0 < r) →
      (∀ j r : Nat, rs[j]? = some r →
        env.sendfile (k + j) (remaining - (rs.take j).sum) = (r : Int)) →
      env.sendfile (k + rs.length) (remaining - rs.sum) < 0 →
      ∃ evs, send_loop env fd us fuel k remaining
          = some (some ("sendfile failed: " ++ env.sendfile_err (k + rs.length)), evs)
        ∧ bytes_sent evs
            = (rs.sum : Int) + env.sendfile (k + rs.length) (remaining - rs.sum) := by
  intro rs
  induction rs with
  | nil =>
    intro fuel k remaining hfuel hsum _ _ _ hneg
    obtain ⟨f, rfl⟩ : ∃ f, fuel = f + 1 := ⟨fuel - 1, by simp at hfuel; omega⟩
    simp only [List.sum_nil, List.length_nil, Nat.add_zero, Nat.sub_zero] at hsum hneg ⊢
    rw [send_loop_succ env fd us f k remaining (by omega)]
    simp only [hneg, if_true]
    exact ⟨_, rfl, by simp [bytes_sent]⟩
  | cons r rs ih =>
    intro fuel k remaining hfuel hsum hlt hpos hsf hneg
    obtain ⟨f, rfl⟩ : ∃ f, fuel = f + 1 := ⟨fuel - 1, by simp at hfuel; omega⟩
    simp only [List.sum_cons, List.length_cons] at hsum hfuel hneg
    have hr : 0 < r := hpos r (List.mem_cons_self r rs)
    have h0 := hsf 0 r (by simp)
    simp only [Nat.add_zero, List.take_zero, List.sum_nil, Nat.sub_zero] at h0
    have hnn : ¬ env.sendfile k remaining < 0 := by omega
    have hcast : to_size_t (env.sendfile k remaining) = r := by
      rw [h0]
      exact to_size_t_natCast r (by omega)
    have hge : ¬ r ≥ remaining := by omega
    obtain ⟨evs, hrun, hbytes⟩ := ih f (k + 1) (remaining - r) (by omega) (by omega)
      (by omega) (fun x hx => hpos x (List.mem_cons_of_mem r hx))
      (fun j x hj => by
        have := hsf (j + 1) x (by simpa using hj)
        simp only [List.take_succ_cons, List.sum_cons] at this
        rw [show k + 1 + j = k + (j + 1) by omega,
          show remaining - r - (List.take j rs).sum
            = remaining - (r + (List.take j rs).sum) by omega]
        exact this)
      (by
        rw [show k + 1 + rs.length = k + (rs.length + 1) by omega,
          show remaining - r - rs.sum = remaining - (r + rs.sum) by omega]
        exact hneg)
    rw [send_loop_succ env fd us f k remaining (by omega)]
    simp only [hnn, if_false, hcast, hge, hrun, Option.map_some']
    refine ⟨_, by rw [List.length_cons, show k + 1 + rs.length = k + (rs.length + 1) by omega],
      ?_⟩
    rw [bytes_sent_sendfile, hbytes, h0, List.sum_cons, List.length_cons,
      show k + 1 + rs.length = k + (rs.length + 1) by omega,
      show remaining - r - rs.sum = remaining - (r + rs.sum) by omega]
    push_cast
    ring

theorem send_loop_events (env : SenderEnv) (fd : Int) (us : Bool) :
    ∀ fuel k remaining out evs, send_loop env fd us fuel k remaining = some (out, evs) →
      ∀ e ∈ evs, (∃ c t, e = Event.sendfile c t) ∨ e = Event.shutdown_wr fd := by
  intro fuel
  induction fuel with
  | zero =>
    intro k remaining out evs h
    by_cases h0 : remaining = 0
    · subst h0
      rw [send_loop_zero] at h
      simp only [Option.some.injEq, Prod.mk.injEq] at h
      rw [← h.2]
      simp
    · rw [send_loop] at h
      simp [h0] at h
  | succ fuel ih =>
    intro k remaining out evs h
    by_cases h0 : remaining = 0
    · subst h0
      rw [send_loop_zero] at h
      simp only [Option.some.injEq, Prod.mk.injEq] at h
      rw [← h.2]
      simp
    · rw [send_loop_succ env fd us fuel k remaining h0] at h
      simp only at h
      split at h
      · simp only [Option.some.injEq, Prod.mk.injEq] at h
        rw [← h.2]
        intro e he
        exact Or.inl ⟨_, _, List.mem_singleton.mp he⟩
      · split at h
        · rw [send_loop_zero] at h
          simp only [Option.map_some', Option.some.injEq, Prod.mk.injEq] at h
          rw [← h.2]
          intro e he
          cases us
          · simp only [Bool.false_eq_true, if_false, List.append_nil,
              List.mem_singleton] at he
            exact Or.inl ⟨_, _, he⟩
          · simp only [if_true, List.append_nil, List.mem_cons, List.mem_singleton,
              List.not_mem_nil, or_false] at he
            rcases he with h1 | h1
            · exact Or.inl ⟨_, _, h1⟩
            · exact Or.inr h1
        · cases hrec : send_loop env fd us fuel (k + 1)
              (remaining - to_size_t (env.sendfile k remaining)) with
          | none => simp [hrec] at h
          | some r =>
            simp only [hrec, Option.map_some', Option.some.injEq, Prod.mk.injEq] at h
            rw [← h.2]
            intro e he
            rcases List.mem_cons.mp he with h1 | h1
            · exact Or.inl ⟨_, _, h1⟩
            · exact ih (k + 1) _ r.1 r.2 hrec e h1

/-! ### The sender thread and the connect mutex -/

theorem ms_sender_thread_connect_failed (env : SenderEnv) (fuel : Nat) (conn : ms_conn)
    (hlock : env.lock_err = 0)
    (hfd : (connecttcpsock env.resolver "" 256 false).1 < 0) :
    ms_sender_thread env fuel conn
      = some (set_sender_errmsg
          { conn with
            fd_sock := (connecttcpsock env.resolver "" 256 false).1,
            sender := { conn.sender with successful := false } }
          ("Cannot open TCP connection to " ++ conn.host ++ ":" ++ conn.port ++ ": "
            ++ (connecttcpsock env.resolver "" 256 false).2),
        [Event.mutex_lock 0, Event.barrier_wait,
         Event.clock_gettime Timestamp.connect_start,
         Event.connecttcpsock (connecttcpsock env.resolver "" 256 false).1]) := by
  unfold ms_sender_thread
  simp only [hlock, ne_eq, not_true_eq_false, if_false, hfd, if_true]

theorem ms_sender_thread_connected (env : SenderEnv) (fuel : Nat) (conn : ms_conn)
    (hlock : env.lock_err = 0)
    (hfd : 0 ≤ (connecttcpsock env.resolver "" 256 false).1)
    (hunlock : env.unlock_err = 0) :
    ms_sender_thread env fuel conn
      = (send_loop env (connecttcpsock env.resolver "" 256 false).1 conn.use_shutdown fuel 0
          conn.in_len).map (fun r =>
        ((match r.1 with
          | some msg => set_sender_errmsg
              { conn with
                fd_sock := (connecttcpsock env.resolver "" 256 false).1,
                sender := { conn.sender with successful := false } } msg
          | none =>
              { conn with
                fd_sock := (connecttcpsock env.resolver "" 256 false).1,
                sender := { conn.sender with successful := true } }),
         [Event.mutex_lock 0, Event.barrier_wait,
          Event.clock_gettime Timestamp.connect_start,
          Event.connecttcpsock (connecttcpsock env.resolver "" 256 false).1,
          Event.clock_gettime Timestamp.connect_end, Event.mutex_unlock 0]
          ++ Event.clock_gettime Timestamp.send_start :: r.2
          ++ (match r.1 with
              | some _ => []
              | none => [Event.clock_gettime Timestamp.send_end]))) := by
  have hfd' : ¬ (connecttcpsock env.resolver "" 256 false).1 < 0 := not_lt.mpr hfd
  unfold ms_sender_thread
  simp only [hlock, ne_eq, not_true_eq_false, if_false, hfd', hunlock]
  cases hrun : send_loop env (connecttcpsock env.resolver "" 256 false).1 conn.use_shutdown
      fuel 0 conn.in_len with
  | none => rfl
  | some r =>
    obtain ⟨out, evs⟩ := r
    cases out with
    | none => simp
    | some msg => simp

/-- C9 (the code at the failing input): with an empty payload and
`use_shutdown` set, a sender whose calls all succeed ends successful without
any `shutdown` call: its events go from the start of sending directly to the
end of sending. -/
theorem ms_sender_thread_empty_payload_no_shutdown :
    ms_sender_thread sender_env_ok 0 (sample_conn 0 true false)
      = some ({ sample_conn 0 true false with
                fd_sock := 5,
                sender := { thread := 0, created := true, successful := true, errmsg := "" } },
              [Event.mutex_lock 0, Event.barrier_wait,
               Event.clock_gettime Timestamp.connect_start, Event.connecttcpsock 5,
               Event.clock_gettime Timestamp.connect_end, Event.mutex_unlock 0,
               Event.clock_gettime Timestamp.send_start,
               Event.clock_gettime Timestamp.send_end]) := by
  rfl

/-- C6 (counterexample): a sender that acquired the connect mutex and whose
connector fails returns with its diagnostic recorded and the mutex still
held: its trace has no unlock. -/
theorem ms_sender_thread_connect_failure_keeps_handoff :
    (ms_sender_thread sender_env_unknown_host 0 (sample_conn 7 false false)).map
        (fun r => (r.2, holds_handoff r.2, r.1.sender.successful, r.1.sender.errmsg))
      = some ([Event.mutex_lock 0, Event.barrier_wait,
               Event.clock_gettime Timestamp.connect_start, Event.connecttcpsock (-1)],
              true, false,
              "Cannot open TCP connection to localhost:8080: getaddrinfo: Name or service not known") := by
  rfl

/-- C6 (amended): for every sender run that acquired the connect mutex, the
mutex is released exactly when the connector succeeded.  When the connector
fails the sender returns with the diagnostic recorded, without any unlock and
with the mutex still held.  When the connector succeeds and the unlock
returns 0, every run that returns has unlocked exactly once, right after the
end of the connect and before any transfer, and no longer holds the mutex. -/
theorem ms_sender_thread_handoff_release (env : SenderEnv) (fuel : Nat) (conn : ms_conn)
    (hlock : env.lock_err = 0) :
    ((connecttcpsock env.resolver "" 256 false).1 < 0 →
      ∃ c evs, ms_sender_thread env fuel conn = some (c, evs)
        ∧ holds_handoff evs = true
        ∧ (∀ err, Event.mutex_unlock err ∉ evs)
        ∧ c.sender.successful = false
        ∧ c.sender.errmsg = snprintf 8192
            ("Cannot open TCP connection to " ++ conn.host ++ ":" ++ conn.port ++ ": "
              ++ (connecttcpsock env.resolver "" 256 false).2))
    ∧ (0 ≤ (connecttcpsock env.resolver "" 256 false).1 → env.unlock_err = 0 →
      ∀ c evs, ms_sender_thread env fuel conn = some (c, evs) →
        holds_handoff evs = false
        ∧ ∃ tl, evs = [Event.mutex_lock 0, Event.barrier_wait,
              Event.clock_gettime Timestamp.connect_start,
              Event.connecttcpsock (connecttcpsock env.resolver "" 256 false).1,
              Event.clock_gettime Timestamp.connect_end, Event.mutex_unlock 0,
              Event.clock_gettime Timestamp.send_start] ++ tl
          ∧ ∀ e ∈ tl, (∃ n t, e = Event.sendfile n t)
              ∨ e = Event.shutdown_wr (connecttcpsock env.resolver "" 256 false).1
              ∨ e = Event.clock_gettime Timestamp.send_end) := by
  constructor
  · intro hfd
    refine ⟨_, _, ms_sender_thread_connect_failed env fuel conn hlock hfd, rfl, ?_, rfl, rfl⟩
    intro err
    simp
  · intro hfd hunlock c evs hrun
    rw [ms_sender_thread_connected env fuel conn hlock hfd hunlock] at hrun
    cases hloop : send_loop env (connecttcpsock env.resolver "" 256 false).1
        conn.use_shutdown fuel 0 conn.in_len with
    | none => simp [hloop] at hrun
    | some r =>
      have hkind := send_loop_events env _ _ fuel 0 conn.in_len r.1 r.2 hloop
      simp only [hloop, Option.map_some', Option.some.injEq, Prod.mk.injEq] at hrun
      have hevs := hrun.2
      have htl : ∀ e ∈ r.2 ++ (match r.1 with
            | some _ => []
            | none => [Event.clock_gettime Timestamp.send_end]),
          (∃ n t, e = Event.sendfile n t)
            ∨ e = Event.shutdown_wr (connecttcpsock env.resolver "" 256 false).1
            ∨ e = Event.clock_gettime Timestamp.send_end := by
        intro e he
        rcases List.mem_append.mp he with h | h
        · rcases hkind e h with h1 | h1
          · exact Or.inl h1
          · exact Or.inr (Or.inl h1)
        · cases hr : r.1 with
          | none =>
            rw [hr] at h
            exact Or.inr (Or.inr (List.mem_singleton.mp h))
          | some msg =>
            rw [hr] at h
            simp at h
      have hfold : ∀ (l : List Event) (held : Bool),
          (∀ e ∈ l, (∃ n t, e = Event.sendfile n t)
            ∨ e = Event.shutdown_wr (connecttcpsock env.resolver "" 256 false).1
            ∨ e = Event.clock_gettime Timestamp.send_end) →
          l.foldl handoff_step held = held := by
        intro l
        induction l with
        | nil => intro _ _; rfl
        | cons x xs ih =>
          intro held hx
          rw [List.foldl_cons]
          have hxs := fun y hy => hx y (List.mem_cons_of_mem x hy)
          rcases hx x (List.mem_cons_self x xs) with ⟨n, t, rfl⟩ | rfl | rfl
          · exact ih held hxs
          · exact ih held hxs
          · exact ih held hxs
      refine ⟨?_, _, ?_, htl⟩
      · rw [← hevs]
        unfold holds_handoff
        simp only [List.cons_append, List.nil_append, List.append_assoc, List.foldl_cons]
        exact hfold _ _ htl
      · rw [← hevs]
        simp

/-- C6 (witness): the sender whose host name does not resolve returns with
the connect mutex held, and the sender that connects and sends 7 bytes
returns without holding it. -/
theorem ms_sender_thread_handoff_release_witness :
    (∃ c evs, ms_sender_thread sender_env_unknown_host 0 (sample_conn 7 false false)
        = some (c, evs)
      ∧ holds_handoff evs = true
      ∧ (∀ err, Event.mutex_unlock err ∉ evs)
      ∧ c.sender.successful = false
      ∧ c.sender.errmsg = snprintf 8192
          ("Cannot open TCP connection to " ++ (sample_conn 7 false false).host ++ ":"
            ++ (sample_conn 7 false false).port ++ ": "
            ++ (connecttcpsock sender_env_unknown_host.resolver "" 256 false).2))
    ∧ (ms_sender_thread sender_env_ok 7 (sample_conn 7 false false)).map
        (fun r => holds_handoff r.2) = some false :=
  ⟨(ms_sender_thread_handoff_release sender_env_unknown_host 0 (sample_conn 7 false false)
      rfl).1 (by decide),
   match h : ms_sender_thread sender_env_ok 7 (sample_conn 7 false false) with
   | none => absurd h (by decide)
   | some r => congrArg some
      ((ms_sender_thread_handoff_release sender_env_ok 7 (sample_conn 7 false false)
        rfl).2 (by decide) rfl r.1 r.2 h).1⟩

/-! ### Creation of the fleet -/

theorem create_conn_ok (env : HarnessEnv) (a : CreateArgs) (i in_len : Nat)
    (h : (create_conn env a i in_len).failed = none) :
    (create_conn env a i in_len).conn
      = { fd_in := env.open_in i,
          fd_out := if a.ignore_out then -1 else env.open_out i,
          fd_sock := -1, host := a.host, port := a.port,
          use_shutdown := a.use_shutdown, ignore_out := a.ignore_out,
          in_len := if i = 0 then to_size_t env.st_size else in_len,
          out_file := if a.ignore_out then ""
            else snprintf 4096 (env.format a.out_file_fmt (to_int ((i : Int) + 1))),
          connectmx_created := true,
          sender := { thread := sender_handle i, created := true, successful := false,
                      errmsg := "" },
          receiver := { thread := receiver_handle i, created := true, successful := false,
                        errmsg := "" },
          recv_total := 0 }
    ∧ (create_conn env a i in_len).in_len
        = (if i = 0 then to_size_t env.st_size else in_len) := by
  by_cases hi : i = 0
  all_goals cases hio : a.ignore_out
  all_goals
    unfold create_conn at h ⊢
    simp only [hi, hio, if_true, if_false, true_and, false_and, not_true_eq_false,
      not_false_eq_true, Bool.false_eq_true] at h ⊢
    split_ifs at h ⊢
  all_goals first | (simp at h; done) | simp

theorem create_conn_failed_indep (env : HarnessEnv) (a : CreateArgs) (i x y : Nat) :
    (create_conn env a i x).failed = (create_conn env a i y).failed := by
  by_cases hi : i = 0
  all_goals cases hio : a.ignore_out
  all_goals
    unfold create_conn
    simp only [hi, hio, if_true, if_false, true_and, false_and, not_true_eq_false,
      not_false_eq_true, Bool.false_eq_true]
    split_ifs
  all_goals rfl

theorem create_conn_no_open_out (env : HarnessEnv) (a : CreateArgs) (i in_len : Nat)
    (hio : a.ignore_out = true) :
    (create_conn env a i in_len).conn.fd_out = -1
    ∧ ∀ e ∈ (create_conn env a i in_len).events, is_open_out e = false := by
  by_cases hi : i = 0
  all_goals
    unfold create_conn
    simp only [hi, hio, if_true, if_false, true_and, false_and, not_true_eq_false,
      not_false_eq_true, Bool.false_eq_true]
    split_ifs
  all_goals simp [is_open_out]

theorem create_loop_chain (env : HarnessEnv) (a : CreateArgs) :
    ∀ (n i : Nat) (last : List ms_conn) (in_len : Nat) (msgbuf : String),
      (i = 0 ∨ in_len = to_size_t env.st_size) →
      (create_loop env a n i last in_len msgbuf).1 = []
      ∨ ((create_loop env a n i last in_len msgbuf).1
            = (List.range' i n).reverse.map
                (fun j => (create_conn env a j (to_size_t env.st_size)).conn) ++ last
          ∧ ∀ j ∈ List.range' i n,
              (create_conn env a j (to_size_t env.st_size)).failed = none) := by
  intro n
  induction n with
  | zero =>
    intro i last in_len msgbuf _
    right
    simp [create_loop]
  | succ n ih =>
    intro i last in_len msgbuf hin
    cases hstep : (create_conn env a i in_len).failed with
    | some msg =>
      left
      simp only [create_loop, hstep]
    | none =>
      obtain ⟨hconn, hlen⟩ := create_conn_ok env a i in_len hstep
      have hstepS : (create_conn env a i (to_size_t env.st_size)).failed = none := by
        rw [create_conn_failed_indep env a i (to_size_t env.st_size) in_len]
        exact hstep
      obtain ⟨hconnS, _⟩ := create_conn_ok env a i (to_size_t env.st_size) hstepS
      have hsame : (create_conn env a i in_len).conn
          = (create_conn env a i (to_size_t env.st_size)).conn := by
        rw [hconn, hconnS]
        rcases hin with h | h
        · simp [h]
        · simp [h]
      have hlenS : (create_conn env a i in_len).in_len = to_size_t env.st_size := by
        rw [hlen]
        rcases hin with h | h
        · simp [h]
        · simp [h]
      have hrec : (create_loop env a (n + 1) i last in_len msgbuf).1
          = (create_loop env a n (i + 1) ((create_conn env a i in_len).conn :: last)
              (create_conn env a i in_len).in_len msgbuf).1 := by
        simp only [create_loop, hstep]
      rw [hrec]
      rcases ih (i + 1) ((create_conn env a i in_len).conn :: last)
          (create_conn env a i in_len).in_len msgbuf (Or.inr hlenS) with h | ⟨h1, h2⟩
      · exact Or.inl h
      · right
        constructor
        · rw [h1, hsame, List.range'_succ]
          simp
        · intro j hj
          rw [List.range'_succ] at hj
          rcases List.mem_cons.mp hj with h | h
          · rw [h]; exact hstepS
          · exact h2 j h

theorem ms_create_conns_in_len (env : HarnessEnv) (a : CreateArgs) (msgbuf : String) :
    ∀ c ∈ (ms_create_conns env a msgbuf).1, c.in_len = to_size_t env.st_size := by
  intro c hc
  unfold ms_create_conns at hc
  rcases create_loop_chain env a a.num_conns 0 [] 0 msgbuf (Or.inl rfl) with h | ⟨h1, h2⟩
  · rw [h] at hc
    simp at hc
  · rw [h1, List.append_nil] at hc
    obtain ⟨j, hj, rfl⟩ := List.mem_map.mp hc
    have hj' : j ∈ List.range' 0 a.num_conns := List.mem_reverse.mp hj
    obtain ⟨hrec, _⟩ := create_conn_ok env a j _ (h2 j hj')
    rw [hrec]
    simp

theorem ms_destroy_conns_no_open_out (cs : List ms_conn) (cancel : Bool) :
    ∀ e ∈ ms_destroy_conns cs cancel, is_open_out e = false := by
  induction cs with
  | nil => simp [ms_destroy_conns]
  | cons c cs ih =>
    intro e he
    simp only [ms_destroy_conns, List.mem_append] at he
    rcases he with ((((h | h) | h) | h) | h) | h
    · split_ifs at h <;> simp at h
      rw [h]; rfl
    · split_ifs at h <;> simp at h
      rw [h]; rfl
    · split_ifs at h <;> simp at h
      rw [h]; rfl
    · split_ifs at h <;> simp at h
      rw [h]; rfl
    · simp at h
      rw [h]; rfl
    · exact ih e h

theorem create_loop_no_open_out (env : HarnessEnv) (a : CreateArgs)
    (hio : a.ignore_out = true) :
    ∀ (n i : Nat) (last : List ms_conn) (in_len : Nat) (msgbuf : String),
      ∀ e ∈ (create_loop env a n i last in_len msgbuf).2.2, is_open_out e = false := by
  intro n
  induction n with
  | zero =>
    intro i last in_len msgbuf e he
    simp [create_loop] at he
  | succ n ih =>
    intro i last in_len msgbuf e he
    obtain ⟨_, hev⟩ := create_conn_no_open_out env a i in_len hio
    cases hstep : (create_conn env a i in_len).failed with
    | some msg =>
      simp only [create_loop, hstep, List.mem_append] at he
      rcases he with h | h
      · exact hev e h
      · exact ms_destroy_conns_no_open_out _ _ e h
    | none =>
      simp only [create_loop, hstep, List.mem_append] at he
      rcases he with h | h
      · exact hev e h
      · exact ih _ _ _ _ e h

theorem reverse_range_map_getElem (f : Nat → ms_conn) (N j : Nat) (h : j < N) :
    ((List.range' 0 N).reverse.map f)[j]? = some (f (N - 1 - j)) := by
  rw [List.getElem?_map, List.getElem?_reverse (by simpa using h)]
  simp only [List.length_range']
  rw [List.getElem?_range' 0 1 (by omega)]
  simp

/-! ### The result table -/

theorem lua_rawgeti_filter (t : LuaTable) (i k : Int) :
    lua_rawgeti (t.filter (fun e => decide (e.1 ≠ i))) k
      = if k = i then none else lua_rawgeti t k := by
  induction t with
  | nil => simp [lua_rawgeti]
  | cons e t ih =>
    by_cases hei : e.1 = i
    · have hf : (e :: t).filter (fun e => decide (e.1 ≠ i))
          = t.filter (fun e => decide (e.1 ≠ i)) := by
        simp [List.filter_cons, hei]
      rw [hf, ih]
      by_cases hk : k = i
      · simp [hk]
      · have : ¬ e.1 = k := fun h => hk (h ▸ hei)
        simp [hk, lua_rawgeti, this]
    · have hf : (e :: t).filter (fun e => decide (e.1 ≠ i))
          = e :: t.filter (fun e => decide (e.1 ≠ i)) := by
        simp [List.filter_cons, hei]
      rw [hf]
      simp only [lua_rawgeti, ih]
      by_cases hk : k = i
      · have : ¬ e.1 = k := fun h => hei (h.trans hk)
        simp [hk, this]
        intro h
        exact absurd h hei
      · simp [hk]

theorem lua_rawgeti_rawseti (t : LuaTable) (i k : Int) (v : LuaValue) :
    lua_rawgeti (lua_rawseti t i v) k = if k = i then some v else lua_rawgeti t k := by
  unfold lua_rawseti
  by_cases hk : k = i
  · simp [lua_rawgeti, hk]
  · have : ¬ i = k := fun h => hk h.symm
    simp only [lua_rawgeti, this, if_false, hk]
    rw [lua_rawgeti_filter]
    simp only [hk, if_false]

theorem filter_of_rawgeti_none (t : LuaTable) (i : Int) (h : lua_rawgeti t i = none) :
    t.filter (fun e => decide (e.1 ≠ i)) = t := by
  induction t with
  | nil => rfl
  | cons e t ih =>
    by_cases hei : e.1 = i
    · simp [lua_rawgeti, hei] at h
    · simp only [lua_rawgeti, hei, if_false] at h
      rw [List.filter_cons]
      simp only [ne_eq, hei, not_false_eq_true, decide_True, if_true]
      rw [ih h]

theorem length_lua_rawseti (t : LuaTable) (i : Int) (v : LuaValue)
    (h : lua_rawgeti t i = none) : (lua_rawseti t i v).length = t.length + 1 := by
  unfold lua_rawseti
  rw [filter_of_rawgeti_none t i h]
  rfl

theorem result_step_table (env : HarnessEnv) (st : LoopState) (c : ms_conn) :
    (result_step env st c).1.table
        = lua_rawseti st.table (to_lua_Integer (st.i + 1)) (result_entry env c)
    ∧ (result_step env st c).1.i = to_lua_Integer (st.i + 1) := by
  unfold result_entry result_step
  simp only
  split_ifs <;> simp [lua_rawseti, lua_rawgeti, to_lua_Integer]

theorem result_entry_eq (env : HarnessEnv) (c : ms_conn) :
    result_entry env c
      = if (env.sender_done c.sender.thread).successful = false then
          LuaValue.string (env.sender_done c.sender.thread).errmsg
        else if (env.receiver_done c.receiver.thread).successful = false then
          LuaValue.string (env.receiver_done c.receiver.thread).errmsg
        else
          LuaValue.result (to_lua_Integer c.in_len)
            (to_lua_Integer (env.receiver_done c.receiver.thread).recv_total) := by
  unfold result_entry result_step join_sender join_receiver
  simp only
  split_ifs <;> simp_all [lua_rawseti, lua_rawgeti, to_lua_Integer]

theorem result_loop_table (env : HarnessEnv) :
    ∀ (cs : List ms_conn) (st : LoopState), 0 ≤ st.i → st.i + cs.length < 2 ^ 63 →
      (∀ k, st.i < k → lua_rawgeti st.table k = none) →
      (result_loop env cs st).1.i = st.i + cs.length
      ∧ (result_loop env cs st).1.table.length = st.table.length + cs.length
      ∧ (∀ k, k ≤ st.i →
          lua_rawgeti (result_loop env cs st).1.table k = lua_rawgeti st.table k)
      ∧ (∀ (j : Nat) (c : ms_conn), cs[j]? = some c →
          lua_rawgeti (result_loop env cs st).1.table (st.i + j + 1)
            = some (result_entry env c))
      ∧ (∀ k, st.i + cs.length < k →
          lua_rawgeti (result_loop env cs st).1.table k = none) := by
  intro cs
  induction cs with
  | nil =>
    intro st _ _ hfresh
    simp only [result_loop, List.length_nil, Nat.cast_zero, add_zero]
    refine ⟨trivial, trivial, fun _ _ => trivial, ?_, hfresh⟩
    intro j c h
    simp at h
  | cons c cs ih =>
    intro st h0 hlt hfresh
    simp only [List.length_cons, Nat.cast_add, Nat.cast_one] at hlt ⊢
    obtain ⟨htab, hi⟩ := result_step_table env st c
    have hwrap : to_lua_Integer (st.i + 1) = st.i + 1 :=
      to_lua_Integer_of_range _ (by linarith) (by linarith [Int.natCast_nonneg cs.length])
    rw [hwrap] at htab hi
    have hfresh1 : ∀ k, (result_step env st c).1.i < k →
        lua_rawgeti (result_step env st c).1.table k = none := by
      intro k hk
      rw [hi] at hk
      rw [htab, lua_rawgeti_rawseti]
      have : ¬ k = st.i + 1 := by omega
      simp only [this, if_false]
      exact hfresh k (by omega)
    obtain ⟨ih1, ih2, ih3, ih4, ih5⟩ := ih (result_step env st c).1
      (by rw [hi]; linarith) (by rw [hi]; linarith) hfresh1
    have hloop : (result_loop env (c :: cs) st).1
        = (result_loop env cs (result_step env st c).1).1 := rfl
    rw [hloop]
    refine ⟨?_, ?_, ?_, ?_, ?_⟩
    · rw [ih1, hi]
      ring
    · rw [ih2, htab, length_lua_rawseti _ _ _ (hfresh _ (by omega))]
      ring
    · intro k hk
      rw [ih3 k (by rw [hi]; omega), htab, lua_rawgeti_rawseti]
      have : ¬ k = st.i + 1 := by omega
      simp only [this, if_false]
    · intro j d hj
      cases j with
      | zero =>
        simp only [List.getElem?_cons_zero, Option.some.injEq] at hj
        subst hj
        rw [ih3 _ (by rw [hi]; simp), htab, lua_rawgeti_rawseti]
        simp
      | succ j =>
        simp only [List.getElem?_cons_succ] at hj
        have := ih4 j d hj
        rw [hi] at this
        rw [← this]
        congr 1
        push_cast
        ring
    · intro k hk
      exact ih5 k (by rw [hi]; omega)

/-- C2: the result loop gives every record of the chain one entry, at the
position of the record in the chain, and that entry is computed from the
record and from the outcome of its own two threads only: the diagnostic of
the sender when the sender failed (the receiver is then not even joined),
otherwise the diagnostic of the receiver when the receiver failed, otherwise
the success record with `total_sent` the `in_len` of the record and
`total_received` its `recv_total`.  Two runs whose thread outcomes and
records agree except for one connection produce the same entry for every
other connection. -/
theorem result_loop_failure_isolated (env : HarnessEnv) (conns : List ms_conn)
    (hlen : (conns.length : Int) < 2 ^ 63)
    (hrange : ∀ c ∈ conns, (env.sender_done c.sender.thread).successful = true →
      (env.receiver_done c.receiver.thread).successful = true →
      c.in_len < 2 ^ 63 ∧ (env.receiver_done c.receiver.thread).recv_total < 2 ^ 63) :
    (result_loop env conns { i := 0, table := [], events := [] }).1.table.length
        = conns.length
    ∧ (∀ (j : Nat) (c : ms_conn), conns[j]? = some c →
        lua_rawgeti (result_loop env conns { i := 0, table := [], events := [] }).1.table
            ((j : Int) + 1)
          = some (if (env.sender_done c.sender.thread).successful = false then
                    LuaValue.string (env.sender_done c.sender.thread).errmsg
                  else if (env.receiver_done c.receiver.thread).successful = false then
                    LuaValue.string (env.receiver_done c.receiver.thread).errmsg
                  else
                    LuaValue.result (c.in_len : Int)
                      ((env.receiver_done c.receiver.thread).recv_total : Int)))
    ∧ (∀ (st : LoopState) (c : ms_conn),
        (env.sender_done c.sender.thread).successful = false →
        (result_step env st c).1.events = st.events ++ [Event.join c.sender.thread])
    ∧ (∀ (env2 : HarnessEnv) (conns2 : List ms_conn) (j : Nat),
        conns2.length = conns.length →
        (∀ (k : Nat) (c : ms_conn), k ≠ j → conns[k]? = some c →
          conns2[k]? = some c
          ∧ env2.sender_done c.sender.thread = env.sender_done c.sender.thread
          ∧ env2.receiver_done c.receiver.thread = env.receiver_done c.receiver.thread) →
        ∀ (k : Nat), k ≠ j → k < conns.length →
          lua_rawgeti (result_loop env2 conns2 { i := 0, table := [], events := [] }).1.table
              ((k : Int) + 1)
            = lua_rawgeti (result_loop env conns { i := 0, table := [], events := [] }).1.table
              ((k : Int) + 1)) := by
  have hfresh : ∀ k : Int, (0 : Int) < k →
      lua_rawgeti ({ i := 0, table := [], events := [] } : LoopState).table k = none :=
    fun _ _ => rfl
  obtain ⟨_, h2, _, h4, _⟩ := result_loop_table env conns
    { i := 0, table := [], events := [] } (le_refl 0) (by simpa using hlen) hfresh
  refine ⟨by simpa using h2, ?_, ?_, ?_⟩
  · intro j c hj
    have hmem : c ∈ conns := List.getElem?_mem hj
    have := h4 j c hj
    simp only [zero_add] at this
    rw [this, result_entry_eq]
    by_cases hs : (env.sender_done c.sender.thread).successful = false
    · simp only [hs, if_true]
    · by_cases hr : (env.receiver_done c.receiver.thread).successful = false
      · simp only [hs, hr, if_true, if_false]
      · obtain ⟨hr1, hr2⟩ := hrange c hmem (by simpa using hs) (by simpa using hr)
        have hn1 := Int.natCast_nonneg c.in_len
        have hn2 := Int.natCast_nonneg (env.receiver_done c.receiver.thread).recv_total
        simp only [hs, hr, if_false]
        rw [to_lua_Integer_of_range (c.in_len : Int) (by linarith) (by exact_mod_cast hr1),
          to_lua_Integer_of_range ((env.receiver_done c.receiver.thread).recv_total : Int)
            (by linarith) (by exact_mod_cast hr2)]
  · intro st c hs
    unfold result_step join_sender
    simp [hs]
  · intro env2 conns2 j hlen2 hagree k hk hklt
    obtain ⟨_, _, _, g4, _⟩ := result_loop_table env2 conns2
      { i := 0, table := [], events := [] } (le_refl 0)
      (by rw [hlen2]; simpa using hlen) hfresh
    have hc : conns[k]? = some (conns[k]) := List.getElem?_eq_getElem hklt
    obtain ⟨hc2, hs, hr⟩ := hagree k conns[k] hk hc
    have e1 := h4 k _ hc
    have e2 := g4 k _ hc2
    simp only [zero_add] at e1 e2
    rw [e1, e2, result_entry_eq, result_entry_eq, hs, hr]

/-- C2 (witness): for the chain of two records that `ms_create_conns` builds,
of which the sender of the record created first fails and the threads of the
other succeed, the table has two entries, entry 1 is the success record of
the record at the head of the chain with `total_sent = 1024` and
`total_received = 1024`, entry 2 is the diagnostic of the failed sender, and
entry 1 is the same in the run in which that sender succeeds instead. -/
theorem result_loop_failure_isolated_witness :
    (ms_create_conns harness_env_first_fails create_args_two "").1
        = [conn_created_second, conn_created_first]
    ∧ (result_loop harness_env_first_fails [conn_created_second, conn_created_first]
        { i := 0, table := [], events := [] }).1.table.length = 2
    ∧ lua_rawgeti (result_loop harness_env_first_fails
          [conn_created_second, conn_created_first]
          { i := 0, table := [], events := [] }).1.table (((0 : Nat) : Int) + 1)
        = some (LuaValue.result 1024 1024)
    ∧ lua_rawgeti (result_loop harness_env_first_fails
          [conn_created_second, conn_created_first]
          { i := 0, table := [], events := [] }).1.table (((1 : Nat) : Int) + 1)
        = some (LuaValue.string "sendfile failed: Broken pipe")
    ∧ lua_rawgeti (result_loop harness_env_all_succeed
          [conn_created_second, conn_created_first]
          { i := 0, table := [], events := [] }).1.table (((0 : Nat) : Int) + 1)
        = lua_rawgeti (result_loop harness_env_first_fails
          [conn_created_second, conn_created_first]
          { i := 0, table := [], events := [] }).1.table (((0 : Nat) : Int) + 1) :=
  ⟨rfl,
   (result_loop_failure_isolated harness_env_first_fails
      [conn_created_second, conn_created_first] (by decide) (by decide)).1,
   (result_loop_failure_isolated harness_env_first_fails
      [conn_created_second, conn_created_first] (by decide) (by decide)).2.1
      0 conn_created_second rfl,
   (result_loop_failure_isolated harness_env_first_fails
      [conn_created_second, conn_created_first] (by decide) (by decide)).2.1
      1 conn_created_first rfl,
   (result_loop_failure_isolated harness_env_first_fails
      [conn_created_second, conn_created_first] (by decide) (by decide)).2.2.2
      harness_env_all_succeed [conn_created_second, conn_created_first] 1 rfl
      (by
        intro k c hk hc
        match k, hk, hc with
        | 0, _, hc =>
          simp only [List.getElem?_cons_zero, Option.some.injEq] at hc
          subst hc
          exact ⟨rfl, rfl, rfl⟩
        | 1, hk, _ => exact absurd rfl hk
        | k + 2, _, hc => simp at hc)
      0 (by decide) (by decide)⟩

/-- C1 (counterexample): with two connections of which the one created first
(output file `out-1.txt`) fails in its sender and the one created second
succeeds, entry 1 of the result table is the success record of the second
connection and entry 2 is the diagnostic of the first. -/
theorem lcf_multi_sendfile_results_not_in_creation_order :
    (create_conn harness_env_first_fails create_args_two 0 0).conn.out_file = "out-1.txt"
    ∧ result_entry harness_env_first_fails
          (create_conn harness_env_first_fails create_args_two 0 0).conn
        = LuaValue.string "sendfile failed: Broken pipe"
    ∧ (lcf_multi_sendfile harness_env_first_fails "requests.txt" "out-%d.txt" "localhost"
          "8080" 2 false false).1
        = LuaReturn.results
            [(2, LuaValue.string "sendfile failed: Broken pipe"),
             (1, LuaValue.result 1024 1024)]
    ∧ lua_rawgeti [(2, LuaValue.string "sendfile failed: Broken pipe"),
             (1, LuaValue.result 1024 1024)] 1
        ≠ some (LuaValue.string "sendfile failed: Broken pipe") := by
  refine ⟨rfl, rfl, rfl, ?_⟩
  decide

/-- C1 (amended): when `lcf_multi_sendfile` returns a result table for
`num_conns = N`, then `N ≥ 1`, the table has exactly `N` entries, at the
indices 1..N, and they are in reverse creation order: for every k in 1..N,
entry k is the entry of the record created in iteration `N - k` of
`ms_create_conns` (the `(N + 1 - k)`-th created connection), which is the
k-th record of the chain, whose threads are the ones started in that
iteration and whose output file was formatted with index `N + 1 - k`. -/
theorem lcf_multi_sendfile_results_reverse_creation_order (env : HarnessEnv)
    (in_file out_file_fmt host port : String) (num_conns : Int)
    (use_shutdown ignore_out : Bool) (t : LuaTable) (evs : List Event)
    (hlo : -2 ^ 63 ≤ num_conns) (hhi : num_conns < 2 ^ 63)
    (hrun : lcf_multi_sendfile env in_file out_file_fmt host port num_conns use_shutdown
        ignore_out = (LuaReturn.results t, evs)) :
    1 ≤ num_conns
    ∧ t.length = num_conns.toNat
    ∧ (∀ k : Int, lua_rawgeti t k ≠ none ↔ (1 ≤ k ∧ k ≤ num_conns))
    ∧ ∀ k : Nat, 1 ≤ k → (k : Int) ≤ num_conns →
        lua_rawgeti t k
          = some (result_entry env
              (create_conn env
                { msglen := 8192, in_file := in_file, out_file_fmt := out_file_fmt,
                  host := host, port := port, num_conns := to_size_t num_conns,
                  use_shutdown := use_shutdown, ignore_out := ignore_out }
                (num_conns.toNat - k) (to_size_t env.st_size)).conn)
        ∧ (ms_create_conns env
              { msglen := 8192, in_file := in_file, out_file_fmt := out_file_fmt,
                host := host, port := port, num_conns := to_size_t num_conns,
                use_shutdown := use_shutdown, ignore_out := ignore_out } "").1[k - 1]?
            = some (create_conn env
                { msglen := 8192, in_file := in_file, out_file_fmt := out_file_fmt,
                  host := host, port := port, num_conns := to_size_t num_conns,
                  use_shutdown := use_shutdown, ignore_out := ignore_out }
                (num_conns.toNat - k) (to_size_t env.st_size)).conn
        ∧ (create_conn env
              { msglen := 8192, in_file := in_file, out_file_fmt := out_file_fmt,
                host := host, port := port, num_conns := to_size_t num_conns,
                use_shutdown := use_shutdown, ignore_out := ignore_out }
              (num_conns.toNat - k) (to_size_t env.st_size)).conn.sender.thread
            = sender_handle (num_conns.toNat - k)
        ∧ (create_conn env
              { msglen := 8192, in_file := in_file, out_file_fmt := out_file_fmt,
                host := host, port := port, num_conns := to_size_t num_conns,
                use_shutdown := use_shutdown, ignore_out := ignore_out }
              (num_conns.toNat - k) (to_size_t env.st_size)).conn.receiver.thread
            = receiver_handle (num_conns.toNat - k)
        ∧ (ignore_out = false →
            (create_conn env
              { msglen := 8192, in_file := in_file, out_file_fmt := out_file_fmt,
                host := host, port := port, num_conns := to_size_t num_conns,
                use_shutdown := use_shutdown, ignore_out := ignore_out }
              (num_conns.toNat - k) (to_size_t env.st_size)).conn.out_file
            = snprintf 4096 (env.format out_file_fmt
                (to_int (((num_conns.toNat - k : Nat) : Int) + 1)))) := by
  have hiff := lcf_multi_sendfile_guard_iff num_conns hlo hhi
  unfold lcf_multi_sendfile at hrun
  simp only at hrun
  split_ifs at hrun with h1 h2 h3
  · simp at hrun
  · simp at hrun
  · simp at hrun
  · simp only [Prod.mk.injEq, LuaReturn.results.injEq] at hrun
    obtain ⟨ht, _⟩ := hrun
    have hacc : ¬ (num_conns ≤ 0 ∨ num_conns > ((UINT_MAX / 2 - 1 : Nat) : Int)) :=
      fun hc => h1 (hiff.mpr hc)
    simp only [UINT_MAX, not_or, not_le, gt_iff_lt, not_lt] at hacc
    have hpos : (0 : Int) < num_conns := hacc.1
    have hmax : num_conns ≤ 2147483646 := by
      have := hacc.2
      norm_num at this
      exact this
    have hN : to_size_t num_conns = num_conns.toNat :=
      to_size_t_of_nonneg num_conns (by omega) (by omega)
    have hNk : (num_conns.toNat : Int) = num_conns := Int.toNat_of_nonneg (by omega)
    rcases create_loop_chain env
        { msglen := 8192, in_file := in_file, out_file_fmt := out_file_fmt,
          host := host, port := port, num_conns := to_size_t num_conns,
          use_shutdown := use_shutdown, ignore_out := ignore_out }
        (to_size_t num_conns) 0 [] 0 "" (Or.inl rfl) with hnil | ⟨hchain, hok⟩
    · exact absurd hnil h3
    · have hchain2 : (ms_create_conns env
          { msglen := 8192, in_file := in_file, out_file_fmt := out_file_fmt,
            host := host, port := port, num_conns := to_size_t num_conns,
            use_shutdown := use_shutdown, ignore_out := ignore_out } "").1
          = (List.range' 0 (to_size_t num_conns)).reverse.map
              (fun j => (create_conn env
                { msglen := 8192, in_file := in_file, out_file_fmt := out_file_fmt,
                  host := host, port := port, num_conns := to_size_t num_conns,
                  use_shutdown := use_shutdown, ignore_out := ignore_out }
                j (to_size_t env.st_size)).conn) := by
        unfold ms_create_conns
        rw [hchain, List.append_nil]
      have hclen : (ms_create_conns env
          { msglen := 8192, in_file := in_file, out_file_fmt := out_file_fmt,
            host := host, port := port, num_conns := to_size_t num_conns,
            use_shutdown := use_shutdown, ignore_out := ignore_out } "").1.length
          = num_conns.toNat := by
        rw [hchain2, hN]
        simp
      obtain ⟨_, r2, r3, r4, r5⟩ := result_loop_table env _
        { i := 0, table := [], events := [] } (le_refl 0)
        (by
          show (0 : Int) + _ < 2 ^ 63
          rw [hclen, hNk]
          omega)
        (fun _ _ => rfl)
      rw [ht, hclen] at r2 r5
      rw [ht] at r3 r4
      simp only [List.length_nil, zero_add] at r2 r3 r4 r5
      rw [hNk] at r5
      have hentry : ∀ k : Nat, 1 ≤ k → (k : Int) ≤ num_conns →
          (ms_create_conns env
            { msglen := 8192, in_file := in_file, out_file_fmt := out_file_fmt,
              host := host, port := port, num_conns := to_size_t num_conns,
              use_shutdown := use_shutdown, ignore_out := ignore_out } "").1[k - 1]?
            = some (create_conn env
                { msglen := 8192, in_file := in_file, out_file_fmt := out_file_fmt,
                  host := host, port := port, num_conns := to_size_t num_conns,
                  use_shutdown := use_shutdown, ignore_out := ignore_out }
                (num_conns.toNat - k) (to_size_t env.st_size)).conn := by
        intro k hk1 hk2
        have hkN : k ≤ num_conns.toNat := by omega
        rw [hchain2, hN, reverse_range_map_getElem _ _ (k - 1) (by omega)]
        rw [show num_conns.toNat - 1 - (k - 1) = num_conns.toNat - k by omega]
      refine ⟨by omega, r2, ?_, ?_⟩
      · intro k
        constructor
        · intro hne
          by_contra hout
          apply hne
          by_cases hk0 : k ≤ 0
          · rw [r3 k hk0]
            rfl
          · exact r5 k (by omega)
        · rintro ⟨hk1, hk2⟩
          have hk : ((k.toNat : Nat) : Int) = k := Int.toNat_of_nonneg (by omega)
          have := r4 (k.toNat - 1) _ (hentry k.toNat (by omega) (by omega))
          rw [show ((k.toNat - 1 : Nat) : Int) + 1 = k by omega] at this
          rw [this]
          simp
      · intro k hk1 hk2
        have hkN : k ≤ num_conns.toNat := by omega
        have hget := hentry k hk1 hk2
        have hfailed := hok (num_conns.toNat - k) (by
          rw [hN]
          simp only [List.mem_range'_1]
          omega)
        obtain ⟨hrec, _⟩ := create_conn_ok env _ _ _ hfailed
        refine ⟨?_, hget, ?_, ?_, ?_⟩
        · have := r4 (k - 1) _ hget
          rw [show ((k - 1 : Nat) : Int) + 1 = (k : Int) by omega] at this
          exact this
        · rw [hrec]
        · rw [hrec]
        · intro hio
          rw [hrec]
          simp [hio]

/-- C1 (witness): for the run with two connections of which the first
created fails, entry 1 of the table is the entry of the record created in
iteration 1 and entry 2 the entry of the record created in iteration 0. -/
theorem lcf_multi_sendfile_results_reverse_creation_order_witness :
    lua_rawgeti [(2, LuaValue.string "sendfile failed: Broken pipe"),
        (1, LuaValue.result 1024 1024)] ((1 : Nat) : Int)
      = some (result_entry harness_env_first_fails
          (create_conn harness_env_first_fails
            { msglen := 8192, in_file := "requests.txt", out_file_fmt := "out-%d.txt",
              host := "localhost", port := "8080", num_conns := to_size_t 2,
              use_shutdown := false, ignore_out := false }
            (Int.toNat 2 - 1) (to_size_t harness_env_first_fails.st_size)).conn) :=
  ((lcf_multi_sendfile_results_reverse_creation_order harness_env_first_fails
    "requests.txt" "out-%d.txt" "localhost" "8080" 2 false false
    [(2, LuaValue.string "sendfile failed: Broken pipe"), (1, LuaValue.result 1024 1024)]
    (lcf_multi_sendfile harness_env_first_fails "requests.txt" "out-%d.txt" "localhost"
      "8080" 2 false false).2
    (by decide) (by decide) (Prod.ext rfl rfl)).2.2.2 1 (by decide) (by decide)).1

/-! ### The payload sent -/

/-- C3: for a sender that acquired the mutex, connected and unlocked, with a
payload length `in_len` and `sendfile` results that are each at least 1 and
at most the count requested, the send loop terminates (any fuel of at least
`in_len` is enough), the sender is marked successful and the bytes
transferred sum to `in_len` exactly.  If, after transfers that leave part of
the payload unsent, a `sendfile` result is negative, the sender ends
unsuccessful with the `sendfile failed` diagnostic.  Every record of a
created fleet has the `in_len` stat'ed in the first iteration, and that value
is the `total_sent` stored for a connection whose threads both succeeded. -/
theorem ms_sender_thread_sends_whole_payload (env : SenderEnv) (fuel : Nat)
    (conn : ms_conn) (henv : HarnessEnv) (a : CreateArgs) (msgbuf : String)
    (hlock : env.lock_err = 0)
    (hfd : 0 ≤ (connecttcpsock env.resolver "" 256 false).1)
    (hunlock : env.unlock_err = 0) (hlen : conn.in_len < 2 ^ 64) :
    ((∀ k count, 0 < count →
        1 ≤ env.sendfile k count ∧ env.sendfile k count ≤ (count : Int)) →
      conn.in_len ≤ fuel →
      ∃ c evs, ms_sender_thread env fuel conn = some (c, evs)
        ∧ c.sender.successful = true
        ∧ bytes_sent evs = (conn.in_len : Int)
        ∧ c.in_len = conn.in_len)
    ∧ (∀ rs : List Nat, rs.length < fuel → rs.sum < conn.in_len → (∀ r ∈ rs, 0 < r) →
        (∀ j r : Nat, rs[j]? = some r →
          env.sendfile j (conn.in_len - (rs.take j).sum) = (r : Int)) →
        env.sendfile rs.length (conn.in_len - rs.sum) < 0 →
        ∃ c evs, ms_sender_thread env fuel conn = some (c, evs)
          ∧ c.sender.successful = false
          ∧ c.sender.errmsg
              = snprintf 8192 ("sendfile failed: " ++ env.sendfile_err rs.length))
    ∧ (∀ c ∈ (ms_create_conns henv a msgbuf).1,
        c.in_len = to_size_t henv.st_size
        ∧ ((henv.sender_done c.sender.thread).successful = true →
            (henv.receiver_done c.receiver.thread).successful = true →
            0 ≤ henv.st_size → henv.st_size < 2 ^ 63 →
            result_entry henv c
              = LuaValue.result henv.st_size
                  (to_lua_Integer (henv.receiver_done c.receiver.thread).recv_total))) := by
  refine ⟨?_, ?_, ?_⟩
  · intro hsf hfuel
    obtain ⟨evs, hrun, hbytes, _, _⟩ := send_loop_complete env
      (connecttcpsock env.resolver "" 256 false).1 conn.use_shutdown hsf fuel 0 conn.in_len
      hfuel hlen
    rw [ms_sender_thread_connected env fuel conn hlock hfd hunlock, hrun]
    refine ⟨_, _, rfl, rfl, ?_, rfl⟩
    simp only [List.cons_append, List.nil_append, bytes_sent, List.append_eq]
    rw [bytes_sent_append, hbytes]
    simp [bytes_sent]
  · intro rs hfuel hsum hpos hsf hneg
    obtain ⟨evs, hrun, _⟩ := send_loop_fails env
      (connecttcpsock env.resolver "" 256 false).1 conn.use_shutdown rs fuel 0 conn.in_len
      hfuel hsum hlen hpos
      (fun j r hj => by rw [Nat.zero_add]; exact hsf j r hj)
      (by rw [Nat.zero_add]; exact hneg)
    rw [ms_sender_thread_connected env fuel conn hlock hfd hunlock, hrun]
    refine ⟨_, _, rfl, rfl, ?_⟩
    simp [set_sender_errmsg]
  · intro c hc
    have hin := ms_create_conns_in_len henv a msgbuf c hc
    refine ⟨hin, ?_⟩
    intro hs hr h0 h1
    rw [result_entry_eq, hin]
    have hcast : ((to_size_t henv.st_size : Nat) : Int) = henv.st_size := by
      rw [to_size_t_of_nonneg _ h0 (by linarith)]
      exact Int.toNat_of_nonneg h0
    rw [hcast, to_lua_Integer_of_range _ (by linarith) h1]
    simp [hs, hr]

/-- C3 (witness): a payload of 7 bytes sent in transfers of at most 3 bytes
ends successful, and a sender whose second transfer fails ends unsuccessful. -/
theorem ms_sender_thread_sends_whole_payload_witness :
    (∃ c evs, ms_sender_thread sender_env_ok 7 (sample_conn 7 true false) = some (c, evs)
        ∧ c.sender.successful = true
        ∧ bytes_sent evs = ((sample_conn 7 true false).in_len : Int)
        ∧ c.in_len = (sample_conn 7 true false).in_len)
    ∧ (∃ c evs, ms_sender_thread sender_env_broken_pipe 7 (sample_conn 7 true false)
          = some (c, evs)
        ∧ c.sender.successful = false
        ∧ c.sender.errmsg
            = snprintf 8192 ("sendfile failed: "
                ++ sender_env_broken_pipe.sendfile_err [3].length)) :=
  ⟨(ms_sender_thread_sends_whole_payload sender_env_ok 7 (sample_conn 7 true false)
      harness_env_first_fails create_args_two "" rfl (by decide) rfl (by decide)).1
      (by
        intro k count hc
        simp only [sender_env_ok]
        omega)
      (by decide),
   (ms_sender_thread_sends_whole_payload sender_env_broken_pipe 7 (sample_conn 7 true false)
      harness_env_first_fails create_args_two "" rfl (by decide) rfl (by decide)).2.1
      [3] (by decide) (by decide) (by decide)
      (by
        intro j r hj
        cases j with
        | zero =>
          simp only [List.getElem?_cons_zero, Option.some.injEq] at hj
          subst hj
          decide
        | succ j => simp at hj)
      (by decide)⟩

/-! ### The write loop and the receive loop -/

theorem write_loop_done (env : ReceiverEnv) (fd : Int) (out_file : String)
    (buf : List Byte) (fuel : Nat) (rlen : Int) (now : Nat) (st : DrainState)
    (h : ¬ rlen > 0) :
    write_loop env fd out_file buf fuel rlen now st = some (none, st) := by
  unfold write_loop
  simp only [h, if_false]

theorem write_loop_succ (env : ReceiverEnv) (fd : Int) (out_file : String)
    (buf : List Byte) (fuel : Nat) (rlen : Int) (now : Nat) (st : DrainState)
    (h : rlen > 0) :
    write_loop env fd out_file buf (fuel + 1) rlen now st
      = (if env.write st.writes rlen.toNat < 0 then
          some (some ("Cannot write to output file \x27" ++ out_file ++ "\x27: "
            ++ env.write_err st.writes),
            { st with
              writes := st.writes + 1,
              events := st.events
                ++ [Event.write fd now rlen.toNat (env.write st.writes rlen.toNat)] })
        else
          write_loop env fd out_file buf fuel (rlen - env.write st.writes rlen.toNat)
            (now + (env.write st.writes rlen.toNat).toNat)
            { st with
              writes := st.writes + 1,
              events := st.events
                ++ [Event.write fd now rlen.toNat (env.write st.writes rlen.toNat)],
              file := st.file
                ++ (buf.drop now).take (env.write st.writes rlen.toNat).toNat }) := by
  rw [write_loop]
  simp only [h, if_true]

theorem write_loop_complete (env : ReceiverEnv) (fd : Int) (out_file : String)
    (buf : List Byte) (K : Nat)
    (hwr : ∀ k count, k < K → 0 < count →
      1 ≤ env.write k count ∧ env.write k count ≤ (count : Int)) :
    ∀ (fuel : Nat) (rlen : Int) (now : Nat) (st : DrainState),
      now ≤ buf.length → rlen = (buf.length : Int) - now → rlen.toNat ≤ fuel →
      st.writes + rlen.toNat ≤ K →
      ∃ st2 wevs, write_loop env fd out_file buf fuel rlen now st = some (none, st2)
        ∧ st2.file = st.file ++ buf.drop now
        ∧ st2.recv_total = st.recv_total
        ∧ st.writes ≤ st2.writes
        ∧ (0 < rlen → st.writes < st2.writes)
        ∧ st2.writes ≤ st.writes + rlen.toNat
        ∧ st2.events = st.events ++ wevs
        ∧ (∀ e ∈ wevs, ∃ (at_ count : Nat) (wlen : Int),
            e = Event.write fd at_ count wlen ∧ at_ + count = buf.length
              ∧ 1 ≤ wlen ∧ wlen ≤ count)
        ∧ resumes_from fd buf.length now wevs = true := by
  intro fuel
  induction fuel with
  | zero =>
    intro rlen now st hnow hrlen hfuel _
    have h0 : ¬ rlen > 0 := by omega
    have hdrop : buf.drop now = [] := List.drop_eq_nil_of_le (by omega)
    have hnowlen : now = buf.length := by omega
    exact ⟨st, [], write_loop_done env fd out_file buf 0 rlen now st h0,
      by simp [hdrop], rfl, le_refl _, fun h => absurd h h0, by omega, by simp, by simp,
      by simp [resumes_from, hnowlen]⟩
  | succ fuel ih =>
    intro rlen now st hnow hrlen hfuel hK
    by_cases h0 : rlen > 0
    · have hcount : 0 < rlen.toNat := by omega
      obtain ⟨hw1, hw2⟩ := hwr st.writes rlen.toNat (by omega) hcount
      have hnn : ¬ env.write st.writes rlen.toNat < 0 := by omega
      rw [write_loop_succ env fd out_file buf fuel rlen now st h0]
      simp only [hnn, if_false]
      obtain ⟨st2, wevs, hrun, hfile, hrt, hle, _, hub, hev, hkind, hres⟩ :=
        ih (rlen - env.write st.writes rlen.toNat)
          (now + (env.write st.writes rlen.toNat).toNat)
          { st with
            writes := st.writes + 1,
            events := st.events
              ++ [Event.write fd now rlen.toNat (env.write st.writes rlen.toNat)],
            file := st.file ++ (buf.drop now).take (env.write st.writes rlen.toNat).toNat }
          (by omega) (by omega) (by omega) (by simp only; omega)
      refine ⟨st2, Event.write fd now rlen.toNat (env.write st.writes rlen.toNat) :: wevs,
        hrun, ?_, hrt, ?_, ?_, ?_, ?_, ?_, ?_⟩
      · rw [hfile]
        simp only [List.append_assoc]
        congr 1
        rw [← List.drop_drop, List.take_append_drop]
      · simp only at hle
        omega
      · intro _
        simp only at hle
        omega
      · simp only at hub
        omega
      · rw [hev]
        simp
      · intro e he
        rcases List.mem_cons.mp he with h | h
        · exact ⟨now, rlen.toNat, _, h, by omega, hw1, hw2⟩
        · exact hkind e h
      · have hcnt : rlen.toNat = buf.length - now := by omega
        have hd1 : decide (1 ≤ env.write st.writes rlen.toNat) = true :=
          decide_eq_true hw1
        have hd2 : decide (env.write st.writes rlen.toNat ≤ (rlen.toNat : Int)) = true :=
          decide_eq_true hw2
        simp only [resumes_from, hres, beq_self_eq_true, hd1, hd2, Bool.and_true,
          Bool.true_and, beq_iff_eq]
        exact hcnt
    · have hdrop : buf.drop now = [] := List.drop_eq_nil_of_le (by omega)
      have hnowlen : now = buf.length := by omega
      exact ⟨st, [], write_loop_done env fd out_file buf (fuel + 1) rlen now st h0,
        by simp [hdrop], rfl, le_refl _, fun h => absurd h h0, by omega, by simp, by simp,
        by simp [resumes_from, hnowlen]⟩

theorem write_loop_fails_at (env : ReceiverEnv) (fd : Int) (out_file : String)
    (buf : List Byte) (K : Nat)
    (hgood : ∀ k count, k < K → 0 < count →
      1 ≤ env.write k count ∧ env.write k count ≤ (count : Int))
    (hbad : ∀ count, 0 < count → env.write K count < 0) :
    ∀ (fuel : Nat) (rlen : Int) (now : Nat) (st : DrainState),
      0 < rlen → rlen.toNat ≤ fuel → st.writes ≤ K →
      (∃ st2, write_loop env fd out_file buf fuel rlen now st
          = some (some ("Cannot write to output file \x27" ++ out_file ++ "\x27: "
              ++ env.write_err K), st2))
      ∨ (∃ st2, write_loop env fd out_file buf fuel rlen now st = some (none, st2)
          ∧ st.writes < st2.writes ∧ st2.writes ≤ K) := by
  intro fuel
  induction fuel with
  | zero =>
    intro rlen now st h0 hfuel _
    omega
  | succ fuel ih =>
    intro rlen now st h0 hfuel hK
    have hcount : 0 < rlen.toNat := by omega
    rw [write_loop_succ env fd out_file buf fuel rlen now st h0]
    by_cases hk : st.writes = K
    · left
      have hneg := hbad rlen.toNat hcount
      rw [← hk] at hneg ⊢
      rw [if_pos hneg]
      exact ⟨_, rfl⟩
    · obtain ⟨hw1, hw2⟩ := hgood st.writes rlen.toNat (by omega) hcount
      have hnn : ¬ env.write st.writes rlen.toNat < 0 := by omega
      simp only [hnn, if_false]
      by_cases hrest : 0 < rlen - env.write st.writes rlen.toNat
      · rcases ih (rlen - env.write st.writes rlen.toNat)
            (now + (env.write st.writes rlen.toNat).toNat)
            { st with
              writes := st.writes + 1,
              events := st.events
                ++ [Event.write fd now rlen.toNat (env.write st.writes rlen.toNat)],
              file := st.file
                ++ (buf.drop now).take (env.write st.writes rlen.toNat).toNat }
            hrest (by omega) (by simp only; omega) with ⟨st2, h⟩ | ⟨st2, h, h1, h2⟩
        · exact Or.inl ⟨st2, h⟩
        · right
          simp only at h1
          exact ⟨st2, h, by omega, h2⟩
      · right
        rw [write_loop_done _ _ _ _ _ _ _ _ (by omega)]
        exact ⟨_, rfl, by simp, by simp only; omega⟩

theorem recv_loop_data (env : ReceiverEnv) (fuel : Nat) (conn : ms_conn)
    (c : List Byte) (rest : List RecvResult) (st : DrainState) (hc : c ≠ []) :
    recv_loop env fuel conn (RecvResult.data c :: rest) st
      = (if ¬ conn.ignore_out then
          match write_loop env conn.fd_out conn.out_file c fuel c.length 0
              { st with events := st.events ++ [Event.recv c.length],
                        recv_total := (st.recv_total + c.length) % 2 ^ 64 } with
          | none => none
          | some (some msg, st3) => some (some msg, st3)
          | some (none, st3) => recv_loop env fuel conn rest st3
        else
          recv_loop env fuel conn rest
            { st with events := st.events ++ [Event.recv c.length],
                      recv_total := (st.recv_total + c.length) % 2 ^ 64 }) := by
  have hlen : 0 < c.length := List.length_pos.mpr hc
  have h1 : ¬ ((c.length : Int) = 0) := by omega
  have h2 : ¬ ((c.length : Int) < 0) := by omega
  rw [recv_loop]
  simp only [RecvResult.rlen, RecvResult.recvbuf, h1, h2, if_false, Int.toNat_ofNat]

theorem recv_loop_eof (env : ReceiverEnv) (fuel : Nat) (conn : ms_conn)
    (rest : List RecvResult) (st : DrainState) :
    recv_loop env fuel conn (RecvResult.data [] :: rest) st
      = some (none, { st with
          events := st.events ++ [Event.recv 0]
            ++ [Event.clock_gettime Timestamp.receive_end] }) := by
  rw [recv_loop]
  simp [RecvResult.rlen]

theorem recv_loop_error (env : ReceiverEnv) (fuel : Nat) (conn : ms_conn) (msg : String)
    (rest : List RecvResult) (st : DrainState) :
    recv_loop env fuel conn (RecvResult.error msg :: rest) st
      = some (some ("recv failed: " ++ msg),
          { st with events := st.events ++ [Event.recv (-1)] }) := by
  rw [recv_loop]
  simp [RecvResult.rlen, RecvResult.strerror]

theorem recv_loop_chunks (env : ReceiverEnv) (fuel : Nat) (conn : ms_conn) (K : Nat)
    (hwr : conn.ignore_out = false → ∀ k count, k < K → 0 < count →
      1 ≤ env.write k count ∧ env.write k count ≤ (count : Int))
    (tail : List RecvResult) :
    ∀ (chunks : List (List Byte)) (st : DrainState),
      (∀ c ∈ chunks, c ≠ [] ∧ c.length ≤ fuel) →
      st.writes + (chunks.map List.length).sum ≤ K → st.recv_total < 2 ^ 64 →
      ∃ st2 evs, recv_loop env fuel conn (chunks.map RecvResult.data ++ tail) st
          = recv_loop env fuel conn tail st2
        ∧ st2.recv_total = (st.recv_total + (chunks.map List.length).sum) % 2 ^ 64
        ∧ st2.file = st.file ++ (if conn.ignore_out then [] else chunks.flatten)
        ∧ st2.events = st.events ++ evs
        ∧ (conn.ignore_out = true → ∀ e ∈ evs, is_write e = false)
        ∧ (conn.ignore_out = false → ∀ e ∈ evs, is_write e = true →
            ∃ (at_ count : Nat) (wlen : Int),
              e = Event.write conn.fd_out at_ count wlen ∧ 1 ≤ wlen ∧ wlen ≤ count) := by
  intro chunks
  induction chunks with
  | nil =>
    intro st _ _ hlt
    refine ⟨st, [], rfl, ?_, ?_, by simp, by simp, by simp⟩
    · simp only [List.map_nil, List.sum_nil, Nat.add_zero]
      exact (Nat.mod_eq_of_lt hlt).symm
    · cases conn.ignore_out <;> simp
  | cons c cs ih =>
    intro st hall hK hlt
    obtain ⟨hc, hcfuel⟩ := hall c (List.mem_cons_self c cs)
    have hcs : ∀ x ∈ cs, x ≠ [] ∧ x.length ≤ fuel :=
      fun x hx => hall x (List.mem_cons_of_mem c hx)
    simp only [List.map_cons, List.sum_cons] at hK ⊢
    have hmod : (st.recv_total + c.length) % 2 ^ 64 < 2 ^ 64 :=
      Nat.mod_lt _ (by norm_num)
    rw [List.cons_append, recv_loop_data env fuel conn c _ st hc]
    cases hio : conn.ignore_out with
    | true =>
      simp only [Bool.not_eq_true, Bool.true_eq_false, if_false, not_true_eq_false]
      obtain ⟨st2, evs, hrun, h1, h2, h3, h4, _⟩ := ih
        { st with events := st.events ++ [Event.recv c.length],
                  recv_total := (st.recv_total + c.length) % 2 ^ 64 }
        hcs (by simp only; omega) hmod
      simp only [hio, if_true, List.append_nil] at h2
      refine ⟨st2, Event.recv c.length :: evs, hrun, ?_, ?_, ?_, ?_, ?_⟩
      · rw [h1]
        simp only
        rw [Nat.mod_add_mod, Nat.add_assoc]
      · simp [h2]
      · rw [h3]
        simp
      · intro _ e he
        rcases List.mem_cons.mp he with h | h
        · rw [h]; rfl
        · exact h4 hio e h
      · intro h
        simp at h
    | false =>
      simp only [Bool.not_eq_true, if_true]
      obtain ⟨st3, wevs, hrun, hfile, hrt, hle, _, hub, hev, hkind, _⟩ :=
        write_loop_complete env conn.fd_out conn.out_file c K (hwr hio) fuel c.length 0
          { st with events := st.events ++ [Event.recv c.length],
                    recv_total := (st.recv_total + c.length) % 2 ^ 64 }
          (Nat.zero_le _) (by simp) (by simpa using hcfuel) (by simp only [Int.toNat_ofNat]; omega)
      rw [hrun]
      simp only
      simp only [Int.toNat_ofNat] at hub
      obtain ⟨st2, evs, hrun2, h1, h2, h3, _, h5⟩ := ih st3 hcs (by omega) (by rw [hrt]; exact hmod)
      simp only [hio, Bool.false_eq_true, if_false] at h2 h5 ⊢
      refine ⟨st2, Event.recv c.length :: (wevs ++ evs), hrun2, ?_, ?_, ?_, ?_, ?_⟩
      · rw [h1, hrt]
        simp only
        rw [Nat.mod_add_mod, Nat.add_assoc]
      · rw [h2, hfile]
        simp
      · rw [h3, hev]
        simp
      · intro h
        simp at h
      · intro _ e he hw
        rcases List.mem_cons.mp he with h | h
        · rw [h] at hw
          simp [is_write] at hw
        · rcases List.mem_append.mp h with h | h
          · obtain ⟨a1, a2, a3, e1, _, e3, e4⟩ := hkind e h
            exact ⟨a1, a2, a3, e1, e3, e4⟩
          · exact h5 trivial e h hw

theorem recv_loop_write_fails (env : ReceiverEnv) (fuel : Nat) (conn : ms_conn) (K : Nat)
    (hio : conn.ignore_out = false)
    (hgood : ∀ k count, k < K → 0 < count →
      1 ≤ env.write k count ∧ env.write k count ≤ (count : Int))
    (hbad : ∀ count, 0 < count → env.write K count < 0)
    (tail : List RecvResult) :
    ∀ (chunks : List (List Byte)) (st : DrainState),
      (∀ c ∈ chunks, c ≠ [] ∧ c.length ≤ fuel) →
      st.writes ≤ K → K < st.writes + chunks.length →
      ∃ st2, recv_loop env fuel conn (chunks.map RecvResult.data ++ tail) st
          = some (some ("Cannot write to output file \x27" ++ conn.out_file ++ "\x27: "
              ++ env.write_err K), st2) := by
  intro chunks
  induction chunks with
  | nil =>
    intro st _ h1 h2
    simp at h2
    omega
  | cons c cs ih =>
    intro st hall h1 h2
    obtain ⟨hc, hcfuel⟩ := hall c (List.mem_cons_self c cs)
    have hcs : ∀ x ∈ cs, x ≠ [] ∧ x.length ≤ fuel :=
      fun x hx => hall x (List.mem_cons_of_mem c hx)
    have hlen : 0 < c.length := List.length_pos.mpr hc
    simp only [List.length_cons] at h2
    rw [List.map_cons, List.cons_append, recv_loop_data env fuel conn c _ st hc]
    simp only [hio, Bool.not_eq_true, if_true]
    rcases write_loop_fails_at env conn.fd_out conn.out_file c K hgood hbad fuel c.length 0
        { st with events := st.events ++ [Event.recv c.length],
                  recv_total := (st.recv_total + c.length) % 2 ^ 64 }
        (by omega) (by simpa using hcfuel) h1 with ⟨st2, h⟩ | ⟨st2, h, g1, g2⟩
    · rw [h]
      exact ⟨st2, rfl⟩
    · rw [h]
      simp only at g1 ⊢
      exact ih st2 hcs g2 (by omega)

theorem write_loop_replay (env : ReceiverEnv) (fd : Int) (out_file : String)
    (buf : List Byte) :
    ∀ (ws : List Nat) (f : Nat) (rlen : Int) (now : Nat) (st : DrainState),
      (∀ j w : Nat, ws[j]? = some w →
        env.write (st.writes + j) (rlen - ((ws.take j).sum : Nat)).toNat = (w : Int)) →
      (∀ j, j < ws.length → (((ws.take j).sum : Nat) : Int) < rlen) →
      ∃ st2, write_loop env fd out_file buf (ws.length + f) rlen now st
          = write_loop env fd out_file buf f (rlen - (ws.sum : Nat)) (now + ws.sum) st2
        ∧ st2.writes = st.writes + ws.length
        ∧ st2.recv_total = st.recv_total
        ∧ st2.file = st.file ++ (buf.drop now).take ws.sum
        ∧ ∃ evs, st2.events = st.events ++ evs := by
  intro ws
  induction ws with
  | nil =>
    intro f rlen now st _ _
    refine ⟨st, ?_, rfl, rfl, by simp, [], by simp⟩
    simp
  | cons w ws ih =>
    intro f rlen now st hwr hpre
    have h0 : rlen > 0 := by
      have := hpre 0 (by simp)
      simpa using this
    have hw : env.write st.writes rlen.toNat = (w : Int) := by
      have := hwr 0 w (by simp)
      simpa using this
    have hnn : ¬ env.write st.writes rlen.toNat < 0 := by
      rw [hw]
      exact not_lt.mpr (Int.natCast_nonneg w)
    obtain ⟨st2, hrun, h1, h2, h3, evs, h4⟩ := ih f (rlen - (w : Int)) (now + w)
      { st with
        writes := st.writes + 1,
        events := st.events ++ [Event.write fd now rlen.toNat (w : Int)],
        file := st.file ++ (buf.drop now).take w }
      (fun j x hj => by
        have := hwr (j + 1) x (by simpa using hj)
        simp only [List.take_succ_cons, List.sum_cons] at this
        rw [show st.writes + 1 + j = st.writes + (j + 1) by omega,
          show rlen - (w : Int) - (((List.take j ws).sum : Nat) : Int)
            = rlen - ((w + (List.take j ws).sum : Nat) : Int) by rw [Nat.cast_add]; ring]
        exact this)
      (fun j hj => by
        have := hpre (j + 1) (by simpa using hj)
        simp only [List.take_succ_cons, List.sum_cons, Nat.cast_add] at this
        omega)
    rw [show (w :: ws).length + f = (ws.length + f) + 1 by simp; omega,
      write_loop_succ env fd out_file buf (ws.length + f) rlen now st h0]
    rw [if_neg hnn]
    simp only [hw, Int.toNat_ofNat]
    refine ⟨st2, ?_, ?_, h2, ?_, ?_⟩
    · rw [hrun]
      simp only [List.sum_cons]
      rw [show rlen - (w : Int) - ((ws.sum : Nat) : Int) = rlen - ((w + ws.sum : Nat) : Int) by
        rw [Nat.cast_add]; ring, show now + w + ws.sum = now + (w + ws.sum) by omega]
    · rw [h1]
      simp only [List.length_cons]
      omega
    · rw [h3]
      simp only [List.sum_cons, List.append_assoc]
      congr 1
      rw [List.take_add, List.drop_drop]
    · exact ⟨Event.write fd now rlen.toNat (w : Int) :: evs, by rw [h4]; simp⟩

theorem take_sum_lt_sum (ws : List Nat) (hpos : ∀ w ∈ ws, 0 < w) :
    ∀ j, j < ws.length → (ws.take j).sum < ws.sum := by
  induction ws with
  | nil => intro j hj; simp at hj
  | cons w ws ih =>
    intro j hj
    have hw : 0 < w := hpos w (List.mem_cons_self w ws)
    cases j with
    | zero => simp; omega
    | succ j =>
      have := ih (fun x hx => hpos x (List.mem_cons_of_mem w hx)) j (by simpa using hj)
      simp only [List.take_succ_cons, List.sum_cons]
      omega

theorem recv_loop_replay (env : ReceiverEnv) (fuel : Nat) (conn : ms_conn)
    (hio : conn.ignore_out = false) (tail : List RecvResult) :
    ∀ (done : List (List Byte × List Nat)) (st : DrainState),
      (∀ cw ∈ done, cw.1 ≠ [] ∧ (∀ w ∈ cw.2, 0 < w) ∧ cw.2.sum = cw.1.length
        ∧ cw.2.length ≤ fuel) →
      (∀ (i : Nat) (cw : List Byte × List Nat), done[i]? = some cw →
        ∀ j w : Nat, cw.2[j]? = some w →
          env.write (st.writes + ((done.take i).map (fun x => x.2.length)).sum + j)
            (cw.1.length - (cw.2.take j).sum) = (w : Int)) →
      ∃ st2, recv_loop env fuel conn
            (done.map (fun cw => RecvResult.data cw.1) ++ tail) st
          = recv_loop env fuel conn tail st2
        ∧ st2.writes = st.writes + (done.map (fun x => x.2.length)).sum
        ∧ st2.file = st.file ++ (done.map (fun x => x.1)).flatten
        ∧ ∃ evs, st2.events = st.events ++ evs := by
  intro done
  induction done with
  | nil =>
    intro st _ _
    exact ⟨st, rfl, by simp, by simp, [], by simp⟩
  | cons cw done ih =>
    intro st hall hwr
    obtain ⟨hne, hpos, hsum, hfuel⟩ := hall cw (List.mem_cons_self cw done)
    have hrest : ∀ x ∈ done, x.1 ≠ [] ∧ (∀ w ∈ x.2, 0 < w) ∧ x.2.sum = x.1.length
        ∧ x.2.length ≤ fuel := fun x hx => hall x (List.mem_cons_of_mem cw hx)
    obtain ⟨st1, hrun, h1, _, h3, evs1, h4⟩ := write_loop_replay env conn.fd_out
      conn.out_file cw.1 cw.2 (fuel - cw.2.length) (cw.1.length : Int) 0
      { st with events := st.events ++ [Event.recv cw.1.length],
                recv_total := (st.recv_total + cw.1.length) % 2 ^ 64 }
      (fun j w hj => by
        have := hwr 0 cw (by simp) j w hj
        simp only [List.take_zero, List.map_nil, List.sum_nil, Nat.add_zero] at this
        rw [show ((cw.1.length : Int) - (((List.take j cw.2).sum : Nat) : Int)).toNat
          = cw.1.length - (List.take j cw.2).sum by omega]
        exact this)
      (fun j hj => by
        have := take_sum_lt_sum cw.2 hpos j hj
        rw [hsum] at this
        exact_mod_cast this)
    rw [show cw.2.length + (fuel - cw.2.length) = fuel by omega] at hrun
    rw [List.map_cons, List.cons_append, recv_loop_data env fuel conn cw.1 _ st hne]
    simp only [hio, Bool.not_eq_true, if_true]
    rw [hrun, write_loop_done _ _ _ _ _ _ _ _ (by rw [hsum]; simp)]
    simp only
    obtain ⟨st2, hrun2, g1, g3, evs2, g4⟩ := ih st1 hrest
      (fun i x hi j w hj => by
        have := hwr (i + 1) x (by simpa using hi) j w hj
        simp only [List.take_succ_cons, List.map_cons, List.sum_cons] at this
        rw [h1]
        simp only
        rw [show st.writes + cw.2.length
            + (List.map (fun x => x.2.length) (List.take i done)).sum + j
          = st.writes + (cw.2.length
            + (List.map (fun x => x.2.length) (List.take i done)).sum) + j by omega]
        exact this)
    refine ⟨st2, hrun2, ?_, ?_, ?_⟩
    · rw [g1, h1]
      simp only [List.map_cons, List.sum_cons]
      omega
    · rw [g3, h3, hsum]
      simp
    · exact ⟨Event.recv cw.1.length :: (evs1 ++ evs2), by rw [g4, h4]; simp⟩

theorem recv_loop_write_negative (env : ReceiverEnv) (fuel : Nat) (conn : ms_conn)
    (hio : conn.ignore_out = false) (cur : List Byte) (ws : List Nat)
    (rest : List RecvResult) (st : DrainState)
    (hsum : ws.sum < cur.length) (hfuel : ws.length < fuel)
    (hwr : ∀ j w : Nat, ws[j]? = some w →
      env.write (st.writes + j) (cur.length - (ws.take j).sum) = (w : Int))
    (hneg : env.write (st.writes + ws.length) (cur.length - ws.sum) < 0) :
    ∃ st2, recv_loop env fuel conn (RecvResult.data cur :: rest) st
        = some (some ("Cannot write to output file \x27" ++ conn.out_file ++ "\x27: "
            ++ env.write_err (st.writes + ws.length)), st2)
      ∧ st2.file = st.file ++ cur.take ws.sum := by
  have hne : cur ≠ [] := by
    intro h
    rw [h] at hsum
    simp at hsum
  have hle : ∀ j, (ws.take j).sum ≤ ws.sum := by
    intro j
    conv_rhs => rw [← List.take_append_drop j ws]
    rw [List.sum_append]
    exact Nat.le_add_right _ _
  obtain ⟨st1, hrun, h1, _, h3, _⟩ := write_loop_replay env conn.fd_out
    conn.out_file cur ws (fuel - ws.length) (cur.length : Int) 0
    { st with events := st.events ++ [Event.recv cur.length],
              recv_total := (st.recv_total + cur.length) % 2 ^ 64 }
    (fun j w hj => by
      have := hwr j w hj
      rw [show ((cur.length : Int) - (((List.take j ws).sum : Nat) : Int)).toNat
        = cur.length - (List.take j ws).sum by omega]
      exact this)
    (fun j _ => by
      have := hle j
      exact_mod_cast lt_of_le_of_lt this hsum)
  rw [show ws.length + (fuel - ws.length) = fuel by omega] at hrun
  obtain ⟨f, hf⟩ : ∃ f, fuel - ws.length = f + 1 := ⟨fuel - ws.length - 1, by omega⟩
  rw [recv_loop_data env fuel conn cur _ st hne]
  simp only [hio, Bool.not_eq_true, if_true]
  rw [hrun, hf, write_loop_succ _ _ _ _ _ _ _ _ (by omega)]
  have hcount : ((cur.length : Int) - ((ws.sum : Nat) : Int)).toNat = cur.length - ws.sum := by
    omega
  have hneg2 : env.write st1.writes
      ((cur.length : Int) - ((ws.sum : Nat) : Int)).toNat < 0 := by
    rw [hcount, h1]
    exact hneg
  rw [if_pos hneg2]
  simp only [h1]
  exact ⟨_, rfl, by simpa using h3⟩

/-! ### The receiver thread -/

theorem ms_receiver_thread_run (env : ReceiverEnv) (fuel : Nat) (conn : ms_conn)
    (hlock : env.lock_err = 0) (hunlock : env.unlock_err = 0) :
    ms_receiver_thread env fuel conn
      = (recv_loop env fuel
          { conn with receiver := { conn.receiver with successful := false },
                      recv_total := 0 }
          env.recv
          { writes := 0, recv_total := 0, file := [],
            events := [Event.barrier_wait, Event.mutex_lock 0, Event.mutex_unlock 0,
              Event.clock_gettime Timestamp.receive_start] }).map (fun r =>
        ((match r.1 with
          | some msg => set_receiver_errmsg
              { conn with receiver := { conn.receiver with successful := false },
                          recv_total := r.2.recv_total } msg
          | none =>
              { conn with recv_total := r.2.recv_total,
                          receiver := { conn.receiver with successful := true } }),
         r.2.file, r.2.events)) := by
  unfold ms_receiver_thread
  simp only [hlock, hunlock, ne_eq, not_true_eq_false, if_false, List.cons_append,
    List.nil_append]
  cases hrun : recv_loop env fuel
      { conn with receiver := { conn.receiver with successful := false }, recv_total := 0 }
      env.recv
      { writes := 0, recv_total := 0, file := [],
        events := [Event.barrier_wait, Event.mutex_lock 0, Event.mutex_unlock 0,
          Event.clock_gettime Timestamp.receive_start] } with
  | none => rfl
  | some r =>
    obtain ⟨out, st⟩ := r
    cases out with
    | none => rfl
    | some msg => rfl

/-- C4: for a receiver that passed the mutex, when the socket delivers
non-empty chunks and then a zero-length read, the receiver ends successful
with `recv_total` the sum of the chunk lengths (reduced modulo `2 ^ 64`, the
width of the counter, and hence the sum itself when it is below `2 ^ 64`);
this holds for both values of `ignore_out`, the writes being assumed to
succeed when `ignore_out` is unset.  With `ignore_out` set the receiver
makes no `write` call and appends nothing, and `ms_create_conns` opens no
output file: no record has an output descriptor.  If a read fails after the
chunks, the receiver ends unsuccessful with the `recv failed` diagnostic. -/
theorem ms_receiver_thread_counts_received (env : ReceiverEnv) (fuel : Nat)
    (conn : ms_conn) (chunks : List (List Byte)) (rest : List RecvResult)
    (henv : HarnessEnv) (a : CreateArgs) (msgbuf : String)
    (hlock : env.lock_err = 0) (hunlock : env.unlock_err = 0)
    (hchunks : ∀ c ∈ chunks, c ≠ [] ∧ c.length ≤ fuel)
    (hwr : conn.ignore_out = false → ∀ k count, 0 < count →
      1 ≤ env.write k count ∧ env.write k count ≤ (count : Int)) :
    (env.recv = chunks.map RecvResult.data ++ RecvResult.data [] :: rest →
      ∃ c file evs, ms_receiver_thread env fuel conn = some (c, file, evs)
        ∧ c.receiver.successful = true
        ∧ c.recv_total = (chunks.map List.length).sum % 2 ^ 64
        ∧ ((chunks.map List.length).sum < 2 ^ 64 →
            c.recv_total = (chunks.map List.length).sum)
        ∧ (conn.ignore_out = true → file = [] ∧ ∀ e ∈ evs, is_write e = false))
    ∧ (∀ msg, env.recv = chunks.map RecvResult.data ++ RecvResult.error msg :: rest →
      ∃ c file evs, ms_receiver_thread env fuel conn = some (c, file, evs)
        ∧ c.receiver.successful = false
        ∧ c.receiver.errmsg = snprintf 8192 ("recv failed: " ++ msg))
    ∧ (a.ignore_out = true →
        (∀ e ∈ (ms_create_conns henv a msgbuf).2.2, is_open_out e = false)
        ∧ ∀ c ∈ (ms_create_conns henv a msgbuf).1, c.fd_out = -1 ∧ c.ignore_out = true) := by
  have hloop := fun tail => recv_loop_chunks env fuel
    { conn with receiver := { conn.receiver with successful := false }, recv_total := 0 }
    (0 + (chunks.map List.length).sum)
    (fun hio k count _ hc => hwr hio k count hc) tail chunks
    { writes := 0, recv_total := 0, file := [],
      events := [Event.barrier_wait, Event.mutex_lock 0, Event.mutex_unlock 0,
        Event.clock_gettime Timestamp.receive_start] }
    hchunks (le_refl _) (by norm_num)
  refine ⟨?_, ?_, ?_⟩
  · intro hrecv
    obtain ⟨st2, evs, hrun, h1, h2, h3, h4, _⟩ := hloop (RecvResult.data [] :: rest)
    rw [ms_receiver_thread_run env fuel conn hlock hunlock, hrecv, hrun, recv_loop_eof]
    simp only [Option.map_some']
    simp only [Nat.zero_add] at h1
    refine ⟨_, _, _, rfl, rfl, h1, ?_, ?_⟩
    · intro hsum
      rw [h1, Nat.mod_eq_of_lt hsum]
    · intro hio
      simp only [hio, if_true, List.nil_append] at h2
      refine ⟨h2, ?_⟩
      intro e he
      simp only [h3, List.cons_append, List.nil_append, List.append_assoc, List.mem_cons,
        List.mem_append, List.mem_singleton, List.not_mem_nil, or_false] at he
      rcases he with h | h | h | h | h | h | h
      · rw [h]; rfl
      · rw [h]; rfl
      · rw [h]; rfl
      · rw [h]; rfl
      · exact h4 hio e h
      · rw [h]; rfl
      · rw [h]; rfl
  · intro msg hrecv
    obtain ⟨st2, evs, hrun, _⟩ := hloop (RecvResult.error msg :: rest)
    rw [ms_receiver_thread_run env fuel conn hlock hunlock, hrecv, hrun, recv_loop_error]
    simp only [Option.map_some']
    exact ⟨_, _, _, rfl, rfl, rfl⟩
  · intro hio
    constructor
    · exact create_loop_no_open_out henv a hio a.num_conns 0 [] 0 msgbuf
    · intro c hc
      unfold ms_create_conns at hc
      rcases create_loop_chain henv a a.num_conns 0 [] 0 msgbuf (Or.inl rfl) with
        h | ⟨h1, h2⟩
      · rw [h] at hc
        simp at hc
      · rw [h1, List.append_nil] at hc
        obtain ⟨j, hj, rfl⟩ := List.mem_map.mp hc
        obtain ⟨hrec, _⟩ := create_conn_ok henv a j _ (h2 j (List.mem_reverse.mp hj))
        rw [hrec]
        simp [hio]

/-- C4 (witness): 5 bytes and 2 bytes followed by the end of the stream give
a successful receiver with `recv_total = 7`; a reset after 5 bytes gives the
`recv failed` diagnostic; a fleet created with `ignore_out` opens no output
file. -/
theorem ms_receiver_thread_counts_received_witness :
    (∃ c file evs, ms_receiver_thread receiver_env_ok 5 (sample_conn 0 false false)
          = some (c, file, evs)
        ∧ c.receiver.successful = true
        ∧ c.recv_total = ([[1, 2, 3, 4, 5], [6, 7]].map List.length).sum % 2 ^ 64
        ∧ (([[1, 2, 3, 4, 5], [6, 7]].map List.length).sum < 2 ^ 64 →
            c.recv_total = ([[1, 2, 3, 4, 5], [6, 7]].map List.length).sum)
        ∧ ((sample_conn 0 false false).ignore_out = true →
            file = [] ∧ ∀ e ∈ evs, is_write e = false))
    ∧ (∃ c file evs, ms_receiver_thread receiver_env_reset 5 (sample_conn 0 false false)
          = some (c, file, evs)
        ∧ c.receiver.successful = false
        ∧ c.receiver.errmsg = snprintf 8192 ("recv failed: " ++ "Connection reset by peer"))
    ∧ ((∀ e ∈ (ms_create_conns harness_env_first_fails create_args_discard "").2.2,
          is_open_out e = false)
        ∧ ∀ c ∈ (ms_create_conns harness_env_first_fails create_args_discard "").1,
            c.fd_out = -1 ∧ c.ignore_out = true) :=
  ⟨(ms_receiver_thread_counts_received receiver_env_ok 5 (sample_conn 0 false false)
      [[1, 2, 3, 4, 5], [6, 7]] [] harness_env_first_fails create_args_discard ""
      rfl rfl (by decide)
      (by
        intro _ k count hc
        simp only [receiver_env_ok]
        omega)).1 rfl,
   (ms_receiver_thread_counts_received receiver_env_reset 5 (sample_conn 0 false false)
      [[1, 2, 3, 4, 5]] [] harness_env_first_fails create_args_discard ""
      rfl rfl (by decide)
      (by
        intro _ k count hc
        simp only [receiver_env_reset, receiver_env_ok]
        omega)).2.1 "Connection reset by peer" rfl,
   (ms_receiver_thread_counts_received receiver_env_ok 5 (sample_conn 0 false false)
      [[1, 2, 3, 4, 5], [6, 7]] [] harness_env_first_fails create_args_discard ""
      rfl rfl (by decide)
      (by
        intro _ k count hc
        simp only [receiver_env_ok]
        omega)).2.2 rfl⟩

/-- C8: with `ignore_out` unset and `write` results that are each at least 1
and at most the count requested, the write loop run on a chunk terminates
(any fuel of at least the chunk length is enough) having appended exactly
the bytes of the chunk, in order, every `write` call starting at the first
unwritten byte and asking for all the remaining bytes; over a successful run
the output file receives the concatenation of the chunks read.  If a `write`
result is negative, the receiver ends unsuccessful with the
`Cannot write to output file` diagnostic.  This is proved twice: for a
failing call number `K` smaller than the number of chunks, the calls before
it being successful; and for every run described by the chunks flushed
before, each with the positive results of its `write` calls, the results of
the short writes of the current chunk, and the negative result of the call
that follows them, in which case the file holds the flushed chunks and the
bytes already written of the current chunk. -/
theorem ms_receiver_thread_writes_chunks (env : ReceiverEnv) (fuel : Nat)
    (conn : ms_conn) (chunks : List (List Byte)) (rest : List RecvResult)
    (hlock : env.lock_err = 0) (hunlock : env.unlock_err = 0)
    (hio : conn.ignore_out = false)
    (hchunks : ∀ c ∈ chunks, c ≠ [] ∧ c.length ≤ fuel) :
    ((∀ k count, 0 < count →
        1 ≤ env.write k count ∧ env.write k count ≤ (count : Int)) →
      ∀ (buf : List Byte) (st : DrainState), buf.length ≤ fuel →
        ∃ st2 wevs, write_loop env conn.fd_out conn.out_file buf fuel buf.length 0 st
            = some (none, st2)
          ∧ st2.file = st.file ++ buf
          ∧ st2.events = st.events ++ wevs
          ∧ resumes_from conn.fd_out buf.length 0 wevs = true)
    ∧ ((∀ k count, 0 < count →
        1 ≤ env.write k count ∧ env.write k count ≤ (count : Int)) →
      env.recv = chunks.map RecvResult.data ++ RecvResult.data [] :: rest →
      ∃ c file evs, ms_receiver_thread env fuel conn = some (c, file, evs)
        ∧ c.receiver.successful = true
        ∧ file = chunks.flatten)
    ∧ (∀ K, K < chunks.length →
        (∀ k count, k < K → 0 < count →
          1 ≤ env.write k count ∧ env.write k count ≤ (count : Int)) →
        (∀ count, 0 < count → env.write K count < 0) →
        env.recv = chunks.map RecvResult.data ++ rest →
        ∃ c file evs, ms_receiver_thread env fuel conn = some (c, file, evs)
          ∧ c.receiver.successful = false
          ∧ c.receiver.errmsg = snprintf 8192
              ("Cannot write to output file \x27" ++ conn.out_file ++ "\x27: "
                ++ env.write_err K))
    ∧ (∀ (done : List (List Byte × List Nat)) (cur : List Byte) (ws : List Nat)
        (tail : List RecvResult),
        env.recv = done.map (fun cw => RecvResult.data cw.1) ++ RecvResult.data cur :: tail →
        (∀ cw ∈ done, cw.1 ≠ [] ∧ (∀ w ∈ cw.2, 0 < w) ∧ cw.2.sum = cw.1.length
          ∧ cw.2.length ≤ fuel) →
        (∀ (i : Nat) (cw : List Byte × List Nat), done[i]? = some cw →
          ∀ j w : Nat, cw.2[j]? = some w →
            env.write (((done.take i).map (fun x => x.2.length)).sum + j)
              (cw.1.length - (cw.2.take j).sum) = (w : Int)) →
        ws.sum < cur.length → ws.length < fuel →
        (∀ j w : Nat, ws[j]? = some w →
          env.write ((done.map (fun x => x.2.length)).sum + j)
            (cur.length - (ws.take j).sum) = (w : Int)) →
        env.write ((done.map (fun x => x.2.length)).sum + ws.length)
          (cur.length - ws.sum) < 0 →
        ∃ c file evs, ms_receiver_thread env fuel conn = some (c, file, evs)
          ∧ c.receiver.successful = false
          ∧ c.receiver.errmsg = snprintf 8192
              ("Cannot write to output file \x27" ++ conn.out_file ++ "\x27: "
                ++ env.write_err ((done.map (fun x => x.2.length)).sum + ws.length))
          ∧ file = (done.map (fun x => x.1)).flatten ++ cur.take ws.sum) := by
  refine ⟨?_, ?_, ?_, ?_⟩
  · intro hwr buf st hfuel
    obtain ⟨st2, wevs, hrun, hfile, _, _, _, _, hev, _, hres⟩ :=
      write_loop_complete env conn.fd_out conn.out_file buf (st.writes + buf.length)
        (fun k count _ hc => hwr k count hc) fuel buf.length 0 st
        (Nat.zero_le _) (by simp) (by simpa using hfuel) (by simp)
    exact ⟨st2, wevs, hrun, by simpa using hfile, hev, hres⟩
  · intro hwr hrecv
    obtain ⟨st2, evs, hrun, _, h2, _⟩ := recv_loop_chunks env fuel
      { conn with receiver := { conn.receiver with successful := false }, recv_total := 0 }
      (0 + (chunks.map List.length).sum)
      (fun _ k count _ hc => hwr k count hc) (RecvResult.data [] :: rest) chunks
      { writes := 0, recv_total := 0, file := [],
        events := [Event.barrier_wait, Event.mutex_lock 0, Event.mutex_unlock 0,
          Event.clock_gettime Timestamp.receive_start] }
      hchunks (le_refl _) (by norm_num)
    rw [ms_receiver_thread_run env fuel conn hlock hunlock, hrecv, hrun, recv_loop_eof]
    simp only [Option.map_some']
    refine ⟨_, _, _, rfl, rfl, ?_⟩
    simp only [hio, Bool.false_eq_true, if_false, List.nil_append] at h2
    exact h2
  · intro K hK hgood hbad hrecv
    obtain ⟨st2, hrun⟩ := recv_loop_write_fails env fuel
      { conn with receiver := { conn.receiver with successful := false }, recv_total := 0 }
      K hio hgood hbad rest chunks
      { writes := 0, recv_total := 0, file := [],
        events := [Event.barrier_wait, Event.mutex_lock 0, Event.mutex_unlock 0,
          Event.clock_gettime Timestamp.receive_start] }
      hchunks (Nat.zero_le _) (by simpa using hK)
    rw [ms_receiver_thread_run env fuel conn hlock hunlock, hrecv, hrun]
    simp only [Option.map_some']
    exact ⟨_, _, _, rfl, rfl, rfl⟩
  · intro done cur ws tail hrecv hdone hagree hsum hfuel hcur hneg
    obtain ⟨st2, hrun, g1, g3, _⟩ := recv_loop_replay env fuel
      { conn with receiver := { conn.receiver with successful := false }, recv_total := 0 }
      hio (RecvResult.data cur :: tail) done
      { writes := 0, recv_total := 0, file := [],
        events := [Event.barrier_wait, Event.mutex_lock 0, Event.mutex_unlock 0,
          Event.clock_gettime Timestamp.receive_start] }
      hdone
      (fun i cw hi j w hj => by
        simp only [Nat.zero_add]
        exact hagree i cw hi j w hj)
    simp only [Nat.zero_add, List.nil_append] at g1 g3
    obtain ⟨st3, hrun3, hfile⟩ := recv_loop_write_negative env fuel
      { conn with receiver := { conn.receiver with successful := false }, recv_total := 0 }
      hio cur ws tail st2 hsum hfuel
      (fun j w hj => by rw [g1]; exact hcur j w hj)
      (by rw [g1]; exact hneg)
    rw [ms_receiver_thread_run env fuel conn hlock hunlock, hrecv, hrun, hrun3]
    simp only [Option.map_some']
    refine ⟨_, _, _, rfl, rfl, ?_, ?_⟩
    · simp only [set_receiver_errmsg, g1]
    · rw [hfile, g3]

/-- C8 (witness): with writes of at most 2 bytes the output file receives the
7 bytes read, in order; when the second write fails at the start of the
second chunk the receiver ends with the `Cannot write to output file`
diagnostic; so it does for a single chunk of 5 bytes of which the first write
takes 2 bytes and the second write fails, the file then holding 2 bytes; and
for a failure of the fourth write, after a first chunk flushed by three
writes. -/
theorem ms_receiver_thread_writes_chunks_witness :
    (∃ c file evs, ms_receiver_thread receiver_env_ok 5 (sample_conn 0 false false)
          = some (c, file, evs)
        ∧ c.receiver.successful = true
        ∧ file = [[1, 2, 3, 4, 5], [6, 7]].flatten)
    ∧ (∃ c file evs, ms_receiver_thread receiver_env_disk_full 5 (sample_conn 0 false false)
          = some (c, file, evs)
        ∧ c.receiver.successful = false
        ∧ c.receiver.errmsg = snprintf 8192
            ("Cannot write to output file \x27" ++ (sample_conn 0 false false).out_file
              ++ "\x27: " ++ receiver_env_disk_full.write_err 1))
    ∧ (∃ c file evs, ms_receiver_thread receiver_env_short_then_fail 5
            (sample_conn 0 false false) = some (c, file, evs)
        ∧ c.receiver.successful = false
        ∧ c.receiver.errmsg = snprintf 8192
            ("Cannot write to output file \x27" ++ (sample_conn 0 false false).out_file
              ++ "\x27: " ++ receiver_env_short_then_fail.write_err
                (((([] : List (List Byte × List Nat))).map (fun x => x.2.length)).sum
                  + [2].length))
        ∧ file = (([] : List (List Byte × List Nat)).map (fun x => x.1)).flatten
            ++ [1, 2, 3, 4, 5].take [2].sum)
    ∧ (∃ c file evs, ms_receiver_thread receiver_env_disk_full_late 5
            (sample_conn 0 false false) = some (c, file, evs)
        ∧ c.receiver.successful = false
        ∧ c.receiver.errmsg = snprintf 8192
            ("Cannot write to output file \x27" ++ (sample_conn 0 false false).out_file
              ++ "\x27: " ++ receiver_env_disk_full_late.write_err
                (([([1, 2, 3, 4, 5], [2, 2, 1])].map (fun x => x.2.length)).sum
                  + ([] : List Nat).length))
        ∧ file = ([([1, 2, 3, 4, 5], [2, 2, 1])].map (fun x => x.1)).flatten
            ++ [6, 7].take ([] : List Nat).sum) :=
  ⟨(ms_receiver_thread_writes_chunks receiver_env_ok 5 (sample_conn 0 false false)
      [[1, 2, 3, 4, 5], [6, 7]] [] rfl rfl rfl (by decide)).2.1
      (by
        intro k count hc
        simp only [receiver_env_ok]
        omega)
      rfl,
   (ms_receiver_thread_writes_chunks receiver_env_disk_full 5 (sample_conn 0 false false)
      [[1, 2, 3, 4, 5], [6, 7]] [RecvResult.data []] rfl rfl rfl (by decide)).2.2.1
      1 (by decide)
      (by
        intro k count hk hc
        have hk0 : k = 0 := by omega
        subst hk0
        simp only [receiver_env_disk_full, receiver_env_ok]
        simp only [Nat.lt_one_iff, if_true]
        omega)
      (by
        intro count _
        simp [receiver_env_disk_full, receiver_env_ok])
      rfl,
   (ms_receiver_thread_writes_chunks receiver_env_short_then_fail 5
      (sample_conn 0 false false) [] [] rfl rfl rfl (by decide)).2.2.2
      [] [1, 2, 3, 4, 5] [2] [RecvResult.data []] rfl (by decide)
      (by
        intro i cw hi
        simp at hi)
      (by decide) (by decide)
      (by
        intro j w hj
        match j, hj with
        | 0, hj =>
          simp only [List.getElem?_cons_zero, Option.some.injEq] at hj
          subst hj
          decide
        | j + 1, hj => simp at hj)
      (by decide),
   (ms_receiver_thread_writes_chunks receiver_env_disk_full_late 5
      (sample_conn 0 false false) [] [] rfl rfl rfl (by decide)).2.2.2
      [([1, 2, 3, 4, 5], [2, 2, 1])] [6, 7] [] [RecvResult.data []] rfl (by decide)
      (by
        intro i cw hi j w hj
        match i, hi with
        | 0, hi =>
          simp only [List.getElem?_cons_zero, Option.some.injEq] at hi
          subst hi
          match j, hj with
          | 0, hj =>
            simp only [List.getElem?_cons_zero, Option.some.injEq] at hj
            subst hj
            decide
          | 1, hj =>
            simp only [List.getElem?_cons_succ, List.getElem?_cons_zero,
              Option.some.injEq] at hj
            subst hj
            decide
          | 2, hj =>
            simp only [List.getElem?_cons_succ, List.getElem?_cons_zero,
              Option.some.injEq] at hj
            subst hj
            decide
          | j + 3, hj => simp at hj
        | i + 1, hi => simp at hi)
      (by decide) (by decide)
      (by
        intro j w hj
        simp at hj)
      (by decide)⟩

/-! ### Teardown -/

theorem closed_fds_append (xs ys : List Event) :
    closed_fds (xs ++ ys) = closed_fds xs ++ closed_fds ys := by
  induction xs with
  | nil => rfl
  | cons e es ih => cases e <;> simp [closed_fds, ih]

theorem ms_destroy_conns_closed_fds (cs : List ms_conn) (cancel : Bool) :
    closed_fds (ms_destroy_conns cs cancel)
      = (cs.map (fun c =>
          [c.fd_in, c.fd_out, c.fd_sock].filter (fun fd => decide (0 ≤ fd)))).flatten := by
  induction cs with
  | nil => rfl
  | cons c cs ih =>
    simp only [ms_destroy_conns, closed_fds_append, ih, List.map_cons, List.flatten_cons,
      ge_iff_le, List.filter_cons, List.filter_nil]
    by_cases h1 : 0 ≤ c.fd_in <;> by_cases h2 : 0 ≤ c.fd_out <;>
      by_cases h3 : 0 ≤ c.fd_sock <;>
      cases c.receiver.created <;> cases cancel <;> cases c.connectmx_created <;>
      simp [h1, h2, h3, closed_fds]

theorem ms_destroy_conns_free_count (cs : List ms_conn) (cancel : Bool) :
    ((ms_destroy_conns cs cancel).filter is_free).length = cs.length := by
  induction cs with
  | nil => rfl
  | cons c cs ih =>
    simp only [ms_destroy_conns, List.filter_append, List.length_append, ih,
      List.length_cons]
    by_cases h1 : 0 ≤ c.fd_in <;> by_cases h2 : 0 ≤ c.fd_out <;>
      by_cases h3 : 0 ≤ c.fd_sock <;>
      cases c.receiver.created <;> cases cancel <;> cases c.connectmx_created <;>
      simp [h1, h2, h3, is_free] <;> omega

theorem ms_destroy_conns_mutex_count (cs : List ms_conn) (cancel : Bool) :
    ((ms_destroy_conns cs cancel).filter is_mutex_destroy).length
      = (cs.filter
          (fun c => c.receiver.created && cancel && c.connectmx_created)).length := by
  induction cs with
  | nil => rfl
  | cons c cs ih =>
    simp only [ms_destroy_conns, List.filter_append, List.length_append, ih,
      List.filter_cons]
    by_cases h1 : 0 ≤ c.fd_in <;> by_cases h2 : 0 ≤ c.fd_out <;>
      by_cases h3 : 0 ≤ c.fd_sock <;>
      cases c.receiver.created <;> cases cancel <;> cases c.connectmx_created <;>
      simp [h1, h2, h3, is_mutex_destroy] <;> omega

/-- C11 (the code at the failing inputs): after a completed run
(`cancel_threads = 0`) the teardown of a record with open files, open
socket and `connectmx_created` set closes the three handles and frees the
record without destroying the mutex; after a setup failure
(`cancel_threads = 1`) the mutex of a record whose threads were not started
is not destroyed either; and the events of a whole successful run with two
connections hold two mutex creations and no mutex destruction. -/
theorem ms_destroy_conns_leaves_mutex :
    conn_after_run.connectmx_created = true
    ∧ ms_destroy_conns [conn_after_run] false
        = [Event.close 3, Event.close 4, Event.close 5, Event.free]
    ∧ conn_sender_not_started.connectmx_created = true
    ∧ ms_destroy_conns [conn_sender_not_started] true
        = [Event.close 3, Event.close 4, Event.free]
    ∧ (lcf_multi_sendfile harness_env_first_fails "requests.txt" "out-%d.txt" "localhost"
          "8080" 2 false false).2.count (Event.mutex_init 0) = 2
    ∧ ((lcf_multi_sendfile harness_env_first_fails "requests.txt" "out-%d.txt" "localhost"
          "8080" 2 false false).2.filter is_mutex_destroy).length = 0 := by
  refine ⟨rfl, rfl, rfl, rfl, ?_, ?_⟩ <;> decide

/-! ### Interleavings of the sender and the receiver -/

theorem handoff_step_cases (h : Bool) (x : Event) :
    (x = Event.mutex_lock 0 ∧ handoff_step h x = true)
    ∨ (x = Event.mutex_unlock 0 ∧ handoff_step h x = false)
    ∨ (x ≠ Event.mutex_lock 0 ∧ x ≠ Event.mutex_unlock 0 ∧ handoff_step h x = h) := by
  cases x with
  | mutex_lock n =>
    cases n with
    | zero => exact Or.inl ⟨rfl, rfl⟩
    | succ n => exact Or.inr (Or.inr ⟨by simp, by simp, rfl⟩)
  | mutex_unlock n =>
    cases n with
    | zero => exact Or.inr (Or.inl ⟨rfl, rfl⟩)
    | succ n => exact Or.inr (Or.inr ⟨by simp, by simp, rfl⟩)
  | _ => exact Or.inr (Or.inr ⟨by simp, by simp, rfl⟩)

theorem perform_cases (t : Task) (owner o : Option Task) (x : Event)
    (h : perform t owner x = some o) :
    (x = Event.mutex_lock 0 ∧ owner = none ∧ o = some t)
    ∨ (x = Event.mutex_unlock 0 ∧ o = (if owner = some t then none else owner))
    ∨ (x ≠ Event.mutex_lock 0 ∧ x ≠ Event.mutex_unlock 0 ∧ o = owner) := by
  cases x with
  | mutex_lock n =>
    cases n with
    | zero =>
      simp only [perform] at h
      by_cases ho : owner = none
      · simp only [ho, if_true, Option.some.injEq] at h
        exact Or.inl ⟨rfl, ho, h.symm⟩
      · simp [ho] at h
    | succ n =>
      simp only [perform, Option.some.injEq] at h
      exact Or.inr (Or.inr ⟨by simp, by simp, h.symm⟩)
  | mutex_unlock n =>
    cases n with
    | zero =>
      simp only [perform, Option.some.injEq] at h
      exact Or.inr (Or.inl ⟨rfl, h.symm⟩)
    | succ n =>
      simp only [perform, Option.some.injEq] at h
      exact Or.inr (Or.inr ⟨by simp, by simp, h.symm⟩)
  | _ =>
    simp only [perform, Option.some.injEq] at h
    exact Or.inr (Or.inr ⟨by simp, by simp, h.symm⟩)

theorem events_of_append (t : Task) (xs ys : List (Task × Event)) :
    events_of t (xs ++ ys) = events_of t xs ++ events_of t ys := by
  induction xs with
  | nil => rfl
  | cons x xs ih =>
    simp only [List.cons_append, events_of]
    split_ifs <;> simp [ih]

theorem events_of_single (t u : Task) (x : Event) :
    events_of t [(u, x)] = if u = t then [x] else [] := by
  simp only [events_of]

theorem mem_of_mem_events_of (t : Task) (x : Event) (h : List (Task × Event))
    (hx : x ∈ events_of t h) : (t, x) ∈ h := by
  induction h with
  | nil => simp [events_of] at hx
  | cons y ys ih =>
    simp only [events_of] at hx
    by_cases hy : y.1 = t
    · simp only [hy, if_true, List.mem_cons] at hx
      rcases hx with h1 | h1
      · have : y = (t, x) := by
          rw [← hy, h1]
        rw [this]
        exact List.mem_cons_self _ _
      · exact List.mem_cons_of_mem _ (ih h1)
    · simp only [hy, if_false] at hx
      exact List.mem_cons_of_mem _ (ih hx)

theorem holds_handoff_concat (l : List Event) (x : Event) :
    holds_handoff (l ++ [x]) = handoff_step (holds_handoff l) x := by
  unfold holds_handoff
  rw [List.foldl_append]
  rfl

theorem unlock_mem_of_foldl_false (t : List Event) :
    ∀ h : Bool, t.foldl handoff_step h = false →
      h = false ∨ Event.mutex_unlock 0 ∈ t := by
  induction t with
  | nil =>
    intro h hf
    exact Or.inl hf
  | cons x t ih =>
    intro h hf
    rw [List.foldl_cons] at hf
    rcases ih (handoff_step h x) hf with h1 | h1
    · rcases handoff_step_cases h x with ⟨_, h2⟩ | ⟨h2, _⟩ | ⟨_, _, h2⟩
      · rw [h2] at h1
        exact absurd h1 (by simp)
      · exact Or.inr (by rw [h2]; exact List.mem_cons_self _ _)
      · rw [h2] at h1
        exact Or.inl h1
    · exact Or.inr (List.mem_cons_of_mem _ h1)

theorem concat_eq_append_cons {α : Type} (h pre post : List α) (y z : α)
    (heq : h ++ [y] = pre ++ z :: post) :
    (post = [] ∧ pre = h ∧ z = y) ∨ (∃ post2, h = pre ++ z :: post2) := by
  rcases List.eq_nil_or_concat' post with hp | ⟨post2, w, hp⟩
  · left
    subst hp
    have h2 : h ++ [y] = pre ++ [z] := heq
    have h3 := List.append_inj' h2 rfl
    exact ⟨rfl, h3.1.symm, by simpa using h3.2.symm⟩
  · right
    subst hp
    have h2 : h ++ [y] = (pre ++ z :: post2) ++ [w] := by
      rw [heq]
      simp
    exact ⟨post2, (List.append_inj' h2 rfl).1⟩

theorem mem_events_of_of_mem (t : Task) (x : Event) :
    ∀ h : List (Task × Event), (t, x) ∈ h → x ∈ events_of t h := by
  intro h
  induction h with
  | nil => intro hx; simp at hx
  | cons y ys ih =>
    intro hx
    simp only [events_of]
    rcases List.mem_cons.mp hx with h1 | h1
    · rw [← h1]
      simp
    · split_ifs
      · exact List.mem_cons_of_mem _ (ih h1)
      · exact ih h1

theorem launch_step_sender_some (s s2 : Launch) (h : launch_step s Task.sender = some s2) :
    ∃ x rest o, s.sender_rest = x :: rest
      ∧ (is_barrier_wait x = true → at_barrier s.receiver_rest s.receiver_passed = true)
      ∧ perform Task.sender s.owner x = some o
      ∧ s2 = { s with
          sender_rest := rest,
          sender_passed := s.sender_passed || is_barrier_wait x,
          owner := o,
          history := s.history ++ [(Task.sender, x)] } := by
  unfold launch_step at h
  cases hrest : s.sender_rest with
  | nil => simp [hrest] at h
  | cons x rest =>
    simp only [hrest] at h
    split_ifs at h with hb
    cases hp : perform Task.sender s.owner x with
    | none => simp [hp] at h
    | some o =>
      simp only [hp, Option.map_some', Option.some.injEq] at h
      refine ⟨x, rest, o, rfl, ?_, hp, h.symm⟩
      intro hx
      simp only [hx, Bool.true_and, Bool.not_eq_true', Bool.and_eq_false_imp,
        Bool.not_eq_true] at hb
      by_contra hc
      have hc2 : at_barrier s.receiver_rest s.receiver_passed = false := by
        simpa using hc
      simp [hc2] at hb

theorem launch_step_receiver_some (s s2 : Launch)
    (h : launch_step s Task.receiver = some s2) :
    ∃ x rest o, s.receiver_rest = x :: rest
      ∧ (is_barrier_wait x = true → at_barrier s.sender_rest s.sender_passed = true)
      ∧ perform Task.receiver s.owner x = some o
      ∧ s2 = { s with
          receiver_rest := rest,
          receiver_passed := s.receiver_passed || is_barrier_wait x,
          owner := o,
          history := s.history ++ [(Task.receiver, x)] } := by
  unfold launch_step at h
  cases hrest : s.receiver_rest with
  | nil => simp [hrest] at h
  | cons x rest =>
    simp only [hrest] at h
    split_ifs at h with hb
    cases hp : perform Task.receiver s.owner x with
    | none => simp [hp] at h
    | some o =>
      simp only [hp, Option.map_some', Option.some.injEq] at h
      refine ⟨x, rest, o, rfl, ?_, hp, h.symm⟩
      intro hx
      simp only [hx, Bool.true_and, Bool.not_eq_true', Bool.and_eq_false_imp,
        Bool.not_eq_true] at hb
      by_contra hc
      have hc2 : at_barrier s.sender_rest s.sender_passed = false := by
        simpa using hc
      simp [hc2] at hb

theorem launch_step_other_some (s s2 : Launch) (h : launch_step s Task.other = some s2) :
    s2 = { s with
      others_left := s.others_left - 1,
      history := s.history ++ [(Task.other, Event.barrier_wait)] } := by
  unfold launch_step at h
  split_ifs at h
  simp only [Option.some.injEq] at h
  exact h.symm

theorem handed_off_concat (e : Nat) (fd : Int) (h : List (Task × Event))
    (y : Task × Event) (hq : handed_off e fd h)
    (hy : y.1 = Task.sender → ∀ n, y.2 ≠ Event.mutex_lock n) :
    handed_off e fd (h ++ [y]) := by
  obtain ⟨h1, h2⟩ := hq
  constructor
  · rw [events_of_append]
    by_cases hs : y.1 = Task.sender
    · have : events_of Task.sender [y] = [y.2] := by
        simp [events_of, hs]
      rw [this, holds_handoff_concat, h1]
      rcases handoff_step_cases false y.2 with ⟨h3, _⟩ | ⟨_, h3⟩ | ⟨_, _, h3⟩
      · exact absurd h3 (hy hs 0)
      · exact h3
      · exact h3
    · have : events_of Task.sender [y] = [] := by
        simp [events_of, hs]
      rw [this, List.append_nil]
      exact h1
  · intro he
    obtain ⟨g1, g2, g3⟩ := h2 he
    exact ⟨List.mem_append_left _ g1, List.mem_append_left _ g2, g3⟩

theorem next_after_head (a b x : Event) (hist rest tl : List Event)
    (hne : hist ≠ []) (heq : hist ++ x :: rest = a :: b :: tl) :
    x = b ∨ x ∈ tl := by
  cases hist with
  | nil => exact absurd rfl hne
  | cons y ys =>
    simp only [List.cons_append, List.cons.injEq] at heq
    cases ys with
    | nil =>
      simp only [List.nil_append, List.cons.injEq] at heq
      exact Or.inl heq.2.1
    | cons z zs =>
      simp only [List.cons_append, List.cons.injEq] at heq
      right
      rw [← heq.2.2]
      simp

theorem launch_step_inv (S2 R2 : List Event) (e : Nat) (fd : Int)
    (HS2 : ∀ x ∈ S2, ∀ n, x ≠ Event.mutex_lock n)
    (HS3 : ∀ a b, S2 = a ++ Event.mutex_unlock 0 :: b →
      Event.connecttcpsock fd ∈ a ∧ 0 ≤ fd)
    (HR2 : ∀ a b rlen, R2 = a ++ Event.recv rlen :: b → Event.mutex_lock 0 ∈ a)
    (s s2 : Launch) (t : Task)
    (hinv : launch_inv (Event.mutex_lock e :: Event.barrier_wait :: S2)
      (Event.barrier_wait :: R2) e fd s)
    (hstep : launch_step s t = some s2) :
    launch_inv (Event.mutex_lock e :: Event.barrier_wait :: S2)
      (Event.barrier_wait :: R2) e fd s2 := by
  obtain ⟨i1, i2, i3a, i3b, i4, i5, i6⟩ := hinv
  cases t with
  | other =>
    have hs2 := launch_step_other_some s s2 hstep
    subst hs2
    have hS : events_of Task.sender (s.history ++ [(Task.other, Event.barrier_wait)])
        = events_of Task.sender s.history := by
      rw [events_of_append]
      simp [events_of]
    have hR : events_of Task.receiver (s.history ++ [(Task.other, Event.barrier_wait)])
        = events_of Task.receiver s.history := by
      rw [events_of_append]
      simp [events_of]
    refine ⟨?_, ?_, ?_, ?_, ?_, ?_, ?_⟩
    · simp only [hS]; exact i1
    · simp only [hR]; exact i2
    · simp only [hS]; exact i3a
    · simp only [hS, hR]; exact i3b
    · simp only [hS]; exact i4
    · intro hm
      simp only [List.mem_append, List.mem_singleton, Prod.mk.injEq, reduceCtorEq,
        false_and, or_false] at hm
      exact handed_off_concat e fd s.history _ (i5 hm) (by simp)
    · intro pre post rlen heq
      rcases concat_eq_append_cons s.history pre post _ _ heq with ⟨_, _, h3⟩ | ⟨p2, h3⟩
      · simp at h3
      · exact i6 pre p2 rlen h3
  | sender =>
    obtain ⟨x, rest, o, hrest, _, hperf, hs2⟩ := launch_step_sender_some s s2 hstep
    subst hs2
    have hS : events_of Task.sender (s.history ++ [(Task.sender, x)])
        = events_of Task.sender s.history ++ [x] := by
      rw [events_of_append]
      simp [events_of]
    have hR : events_of Task.receiver (s.history ++ [(Task.sender, x)])
        = events_of Task.receiver s.history := by
      rw [events_of_append]
      simp [events_of]
    rw [hrest] at i1
    refine ⟨?_, ?_, ?_, ?_, ?_, ?_, ?_⟩
    · simp only [hS, List.append_assoc, List.singleton_append]
      exact i1
    · simp only [hR]; exact i2
    · intro _
      simp only [hS]
      simp
    · intro _
      simp only [hS]
      simp
    · simp only [hS, holds_handoff_concat]
      intro hh
      rcases perform_cases Task.sender s.owner o x hperf with
        ⟨_, _, h3⟩ | ⟨h1, _⟩ | ⟨h1, h2, h3⟩
      · exact h3
      · rw [h1] at hh
        exact absurd hh (by simp [handoff_step])
      · rcases handoff_step_cases (holds_handoff (events_of Task.sender s.history)) x with
          ⟨g, _⟩ | ⟨g, _⟩ | ⟨_, _, g⟩
        · exact absurd g h1
        · exact absurd g h2
        · rw [g] at hh
          rw [h3]
          exact i4 hh
    · intro hm
      simp only [List.mem_append, List.mem_singleton, Prod.mk.injEq, reduceCtorEq,
        false_and, or_false] at hm
      have hr : events_of Task.receiver s.history ≠ [] := by
        intro hnil
        have := mem_events_of_of_mem Task.receiver (Event.mutex_lock 0) s.history hm
        rw [hnil] at this
        simp at this
      have hne := i3b hr
      have hx := next_after_head _ _ x _ rest S2 hne i1
      refine handed_off_concat e fd s.history _ (i5 hm) ?_
      intro _ n
      rcases hx with h1 | h1
      · rw [h1]
        simp
      · exact HS2 x h1 n
    · intro pre post rlen heq
      rcases concat_eq_append_cons s.history pre post _ _ heq with ⟨_, _, h3⟩ | ⟨p2, h3⟩
      · simp at h3
      · exact i6 pre p2 rlen h3
  | receiver =>
    obtain ⟨x, rest, o, hrest, hbar, hperf, hs2⟩ := launch_step_receiver_some s s2 hstep
    subst hs2
    have hS : events_of Task.sender (s.history ++ [(Task.receiver, x)])
        = events_of Task.sender s.history := by
      rw [events_of_append]
      simp [events_of]
    have hR : events_of Task.receiver (s.history ++ [(Task.receiver, x)])
        = events_of Task.receiver s.history ++ [x] := by
      rw [events_of_append]
      simp [events_of]
    rw [hrest] at i2
    have hne_of : ∀ y, x = y → y ≠ Event.barrier_wait →
        events_of Task.receiver s.history ≠ [] := by
      intro y hxy hy hnil
      rw [hnil, List.nil_append, List.cons.injEq] at i2
      exact hy (hxy ▸ i2.1)
    refine ⟨?_, ?_, ?_, ?_, ?_, ?_, ?_⟩
    · simp only [hS]; exact i1
    · simp only [hR, List.append_assoc, List.singleton_append]
      exact i2
    · simp only [hS]; exact i3a
    · intro _
      simp only [hS]
      by_cases hr : events_of Task.receiver s.history = []
      · rw [hr, List.nil_append, List.cons.injEq] at i2
        have hxb : is_barrier_wait x = true := by
          rw [i2.1]
          rfl
        have hat := hbar hxb
        unfold at_barrier at hat
        simp only [Bool.or_eq_true] at hat
        rcases hat with h1 | h1
        · exact i3a h1
        · intro hnil
          rw [hnil, List.nil_append] at i1
          rw [i1] at h1
          simp [is_barrier_wait] at h1
      · exact i3b hr
    · simp only [hS]
      intro hh
      have hown := i4 hh
      rcases perform_cases Task.receiver s.owner o x hperf with
        ⟨_, h2, _⟩ | ⟨_, h2⟩ | ⟨_, _, h3⟩
      · rw [hown] at h2
        exact absurd h2 (by simp)
      · rw [h2, hown]
        simp
      · rw [h3]
        exact hown
    · intro hm
      simp only [List.mem_append, List.mem_singleton, Prod.mk.injEq, true_and] at hm
      rcases hm with hm | hm
      · exact handed_off_concat e fd s.history _ (i5 hm) (by simp)
      · -- the receiver acquires the mutex now
        refine handed_off_concat e fd s.history _ ?_ (by simp)
        have hfree : s.owner = none := by
          rcases perform_cases Task.receiver s.owner o x hperf with
            ⟨_, h2, _⟩ | ⟨h1, _⟩ | ⟨h1, _, _⟩
          · exact h2
          · rw [← hm] at h1
            simp at h1
          · exact absurd hm.symm h1
        have hnh : holds_handoff (events_of Task.sender s.history) = false := by
          cases hh : holds_handoff (events_of Task.sender s.history) with
          | false => rfl
          | true =>
            have := i4 hh
            rw [hfree] at this
            simp at this
        refine ⟨hnh, ?_⟩
        intro he
        have hrne := hne_of (Event.mutex_lock 0) hm.symm (by simp)
        have hsne := i3b hrne
        cases hhist : events_of Task.sender s.history with
        | nil => exact absurd hhist hsne
        | cons y ys =>
          rw [hhist, List.cons_append, List.cons.injEq] at i1
          obtain ⟨hy, hys⟩ := i1
          rw [hhist, hy, he] at hnh
          have hfold : ys.foldl handoff_step true = false := by
            simpa [holds_handoff, handoff_step] using hnh
          rcases unlock_mem_of_foldl_false ys true hfold with h1 | h1
          · simp at h1
          · cases ys with
            | nil => simp at h1
            | cons z zs =>
              rw [List.cons_append, List.cons.injEq] at hys
              obtain ⟨hz, hzs⟩ := hys
              have h2 : Event.mutex_unlock 0 ∈ zs := by
                rcases List.mem_cons.mp h1 with h3 | h3
                · rw [hz] at h3
                  simp at h3
                · exact h3
              obtain ⟨a, b, hab⟩ := List.append_of_mem h2
              have hS2 : S2 = a ++ Event.mutex_unlock 0 :: (b ++ s.sender_rest) := by
                rw [← hzs, hab]
                simp
              obtain ⟨hc, hfd⟩ := HS3 a _ hS2
              have hcz : Event.connecttcpsock fd ∈ events_of Task.sender s.history := by
                rw [hhist, hab]
                simp [hc]
              have huz : Event.mutex_unlock 0 ∈ events_of Task.sender s.history := by
                rw [hhist]
                exact List.mem_cons_of_mem _ h1
              exact ⟨mem_of_mem_events_of _ _ _ huz, mem_of_mem_events_of _ _ _ hcz, hfd⟩
    · intro pre post rlen heq
      rcases concat_eq_append_cons s.history pre post _ _ heq with ⟨_, h2, h3⟩ | ⟨p2, h3⟩
      · rw [h2]
        apply i5
        simp only [Prod.mk.injEq, true_and] at h3
        have hrne := hne_of (Event.recv rlen) h3.symm (by simp)
        cases hhist : events_of Task.receiver s.history with
        | nil => exact absurd hhist hrne
        | cons y ys =>
          rw [hhist, List.cons_append, List.cons.injEq] at i2
          have hR2 : R2 = ys ++ Event.recv rlen :: rest := by
            rw [← i2.2, h3]
          have hl := HR2 ys rest rlen hR2
          apply mem_of_mem_events_of
          rw [hhist]
          exact List.mem_cons_of_mem _ hl
      · exact i6 pre p2 rlen h3

theorem run_schedule_inv (S2 R2 : List Event) (e : Nat) (fd : Int)
    (HS2 : ∀ x ∈ S2, ∀ n, x ≠ Event.mutex_lock n)
    (HS3 : ∀ a b, S2 = a ++ Event.mutex_unlock 0 :: b →
      Event.connecttcpsock fd ∈ a ∧ 0 ≤ fd)
    (HR2 : ∀ a b rlen, R2 = a ++ Event.recv rlen :: b → Event.mutex_lock 0 ∈ a) :
    ∀ (schedule : List Task) (s s2 : Launch),
      launch_inv (Event.mutex_lock e :: Event.barrier_wait :: S2)
        (Event.barrier_wait :: R2) e fd s →
      run_schedule s schedule = some s2 →
      launch_inv (Event.mutex_lock e :: Event.barrier_wait :: S2)
        (Event.barrier_wait :: R2) e fd s2 := by
  intro schedule
  induction schedule with
  | nil =>
    intro s s2 hinv hrun
    simp only [run_schedule, Option.some.injEq] at hrun
    rw [← hrun]
    exact hinv
  | cons t ts ih =>
    intro s s2 hinv hrun
    simp only [run_schedule] at hrun
    cases hstep : launch_step s t with
    | none => simp [hstep] at hrun
    | some s1 =>
      simp only [hstep] at hrun
      exact ih s1 s2 (launch_step_inv S2 R2 e fd HS2 HS3 HR2 s s1 t hinv hstep) hrun

theorem launch_inv_initial (S R : List Event) (e : Nat) (fd : Int) (others : Nat) :
    launch_inv S R e fd (launch S R others) := by
  refine ⟨rfl, rfl, ?_, ?_, ?_, ?_, ?_⟩
  · intro h
    simp [launch] at h
  · intro h
    simp [launch, events_of] at h
  · intro h
    simp [launch, events_of, holds_handoff] at h
  · intro h
    simp [launch] at h
  · intro pre post rlen h
    simp [launch] at h

theorem connect_before_unlock (c1 : Event) (fd : Int) (tl a b : List Event)
    (h1 : c1 ≠ Event.mutex_unlock 0)
    (heq : c1 :: Event.connecttcpsock fd :: tl = a ++ Event.mutex_unlock 0 :: b) :
    Event.connecttcpsock fd ∈ a := by
  cases a with
  | nil =>
    simp only [List.nil_append, List.cons.injEq] at heq
    exact absurd heq.1 h1
  | cons x a2 =>
    cases a2 with
    | nil =>
      simp only [List.cons_append, List.nil_append, List.cons.injEq, reduceCtorEq,
        false_and, and_false] at heq
    | cons y a3 =>
      simp only [List.cons_append, List.cons.injEq] at heq
      rw [← heq.2.1]
      simp

theorem sender_trace_shape (env : SenderEnv) (fuel : Nat) (conn cs : ms_conn)
    (evs : List Event) (h : ms_sender_thread env fuel conn = some (cs, evs)) :
    ∃ S2, evs = Event.mutex_lock env.lock_err :: Event.barrier_wait :: S2
      ∧ (∀ x ∈ S2, ∀ n, x ≠ Event.mutex_lock n)
      ∧ (∀ a b, S2 = a ++ Event.mutex_unlock 0 :: b →
          Event.connecttcpsock cs.fd_sock ∈ a ∧ 0 ≤ cs.fd_sock) := by
  by_cases hl : env.lock_err = 0
  · by_cases hfd : (connecttcpsock env.resolver "" 256 false).1 < 0
    · rw [ms_sender_thread_connect_failed env fuel conn hl hfd] at h
      simp only [Option.some.injEq, Prod.mk.injEq] at h
      obtain ⟨_, h2⟩ := h
      refine ⟨[Event.clock_gettime Timestamp.connect_start,
        Event.connecttcpsock (connecttcpsock env.resolver "" 256 false).1], ?_, ?_, ?_⟩
      · rw [← h2, hl]
      · intro x hx n
        simp only [List.mem_cons, List.mem_singleton, List.not_mem_nil, or_false] at hx
        rcases hx with rfl | rfl
        · simp
        · simp
      · intro a b hab
        have hm : Event.mutex_unlock 0 ∈ [Event.clock_gettime Timestamp.connect_start,
            Event.connecttcpsock (connecttcpsock env.resolver "" 256 false).1] := by
          rw [hab]
          simp
        simp at hm
    · have hfd0 : 0 ≤ (connecttcpsock env.resolver "" 256 false).1 := not_lt.mp hfd
      by_cases hu : env.unlock_err = 0
      · rw [ms_sender_thread_connected env fuel conn hl hfd0 hu] at h
        cases hrun : send_loop env (connecttcpsock env.resolver "" 256 false).1
            conn.use_shutdown fuel 0 conn.in_len with
        | none => simp [hrun] at h
        | some r =>
          obtain ⟨out, sevs⟩ := r
          simp only [hrun, Option.map_some', Option.some.injEq, Prod.mk.injEq] at h
          obtain ⟨h1, h2⟩ := h
          have hev := send_loop_events env _ _ fuel 0 conn.in_len out sevs hrun
          have hcs : cs.fd_sock = (connecttcpsock env.resolver "" 256 false).1 := by
            rw [← h1]
            cases out <;> rfl
          obtain ⟨tlE, h2, htlE⟩ : ∃ tlE : List Event,
              [Event.mutex_lock 0, Event.barrier_wait,
                Event.clock_gettime Timestamp.connect_start,
                Event.connecttcpsock (connecttcpsock env.resolver "" 256 false).1,
                Event.clock_gettime Timestamp.connect_end, Event.mutex_unlock 0]
                ++ Event.clock_gettime Timestamp.send_start :: sevs ++ tlE = evs
              ∧ ∀ x ∈ tlE, x = Event.clock_gettime Timestamp.send_end := by
            cases out with
            | none => exact ⟨_, h2, by simp⟩
            | some msg => exact ⟨_, h2, by simp⟩
          refine ⟨Event.clock_gettime Timestamp.connect_start ::
            Event.connecttcpsock (connecttcpsock env.resolver "" 256 false).1 ::
            ([Event.clock_gettime Timestamp.connect_end, Event.mutex_unlock 0]
              ++ Event.clock_gettime Timestamp.send_start :: sevs ++ tlE), ?_, ?_, ?_⟩
          · rw [← h2, hl]
            simp
          · intro x hx n
            simp only [List.mem_cons, List.mem_append, List.cons_append, List.nil_append,
              List.not_mem_nil, or_false] at hx
            rcases hx with rfl | rfl | rfl | rfl | rfl | hx | hx
            · simp
            · simp
            · simp
            · simp
            · simp
            · rcases hev x hx with ⟨c, t, rfl⟩ | rfl
              · simp
              · simp
            · rw [htlE x hx]
              simp
          · intro a b hab
            rw [hcs]
            exact ⟨connect_before_unlock _ _ _ a b (by simp) hab, hfd0⟩
      · unfold ms_sender_thread at h
        simp only [hl, ne_eq, not_true_eq_false, if_false, hfd, hu, not_false_eq_true,
          if_true, Option.some.injEq, Prod.mk.injEq] at h
        obtain ⟨h1, h2⟩ := h
        have hcs : cs.fd_sock = (connecttcpsock env.resolver "" 256 false).1 := by
          rw [← h1]
          rfl
        refine ⟨[Event.clock_gettime Timestamp.connect_start,
          Event.connecttcpsock (connecttcpsock env.resolver "" 256 false).1,
          Event.clock_gettime Timestamp.connect_end,
          Event.mutex_unlock env.unlock_err], ?_, ?_, ?_⟩
        · rw [← h2, hl]
        · intro x hx n
          simp only [List.mem_cons, List.mem_singleton, List.not_mem_nil, or_false] at hx
          rcases hx with rfl | rfl | rfl | rfl
          · simp
          · simp
          · simp
          · simp
        · intro a b hab
          rw [hcs]
          exact ⟨connect_before_unlock _ _ _ a b (by simp) hab, hfd0⟩
  · unfold ms_sender_thread at h
    simp only [ne_eq, hl, not_false_eq_true, if_true, Option.some.injEq,
      Prod.mk.injEq] at h
    refine ⟨[], h.2.symm, ?_, ?_⟩
    · intro x hx
      simp at hx
    · intro a b hab
      simp at hab

theorem write_loop_events_prefix (env : ReceiverEnv) (fd : Int) (out_file : String)
    (buf : List Byte) :
    ∀ (fuel : Nat) (rlen : Int) (now : Nat) (st : DrainState) (out : Option String)
      (st2 : DrainState),
      write_loop env fd out_file buf fuel rlen now st = some (out, st2) →
      ∃ tl, st2.events = st.events ++ tl := by
  intro fuel
  induction fuel with
  | zero =>
    intro rlen now st out st2 h
    by_cases hr : rlen > 0
    · unfold write_loop at h
      simp [hr] at h
    · rw [write_loop_done env fd out_file buf 0 rlen now st hr] at h
      simp only [Option.some.injEq, Prod.mk.injEq] at h
      exact ⟨[], by rw [← h.2]; simp⟩
  | succ fuel ih =>
    intro rlen now st out st2 h
    by_cases hr : rlen > 0
    · rw [write_loop_succ env fd out_file buf fuel rlen now st hr] at h
      by_cases hw : env.write st.writes rlen.toNat < 0
      · rw [if_pos hw] at h
        simp only [Option.some.injEq, Prod.mk.injEq] at h
        exact ⟨_, by rw [← h.2]⟩
      · rw [if_neg hw] at h
        obtain ⟨tl, htl⟩ := ih _ _ _ _ _ h
        exact ⟨_, by rw [htl, List.append_assoc]⟩
    · rw [write_loop_done env fd out_file buf (fuel + 1) rlen now st hr] at h
      simp only [Option.some.injEq, Prod.mk.injEq] at h
      exact ⟨[], by rw [← h.2]; simp⟩

theorem recv_loop_events_prefix (env : ReceiverEnv) (fuel : Nat) (conn : ms_conn) :
    ∀ (rs : List RecvResult) (st : DrainState) (out : Option String) (st2 : DrainState),
      recv_loop env fuel conn rs st = some (out, st2) →
      ∃ tl, st2.events = st.events ++ tl := by
  intro rs
  induction rs with
  | nil =>
    intro st out st2 h
    simp [recv_loop] at h
  | cons r rest ih =>
    intro st out st2 h
    cases r with
    | error msg =>
      rw [recv_loop_error] at h
      simp only [Option.some.injEq, Prod.mk.injEq] at h
      exact ⟨_, by rw [← h.2]⟩
    | data c =>
      by_cases hc : c = []
      · subst hc
        rw [recv_loop_eof] at h
        simp only [Option.some.injEq, Prod.mk.injEq] at h
        exact ⟨_, by rw [← h.2, List.append_assoc]⟩
      · rw [recv_loop_data env fuel conn c rest st hc] at h
        cases hio : conn.ignore_out with
        | true =>
          simp only [hio, not_true_eq_false, if_false] at h
          obtain ⟨tl, htl⟩ := ih _ _ _ h
          exact ⟨_, by rw [htl, List.append_assoc]⟩
        | false =>
          simp only [hio, Bool.not_eq_true, if_true] at h
          cases hw : write_loop env conn.fd_out conn.out_file c fuel c.length 0
              { st with events := st.events ++ [Event.recv c.length],
                        recv_total := (st.recv_total + c.length) % 2 ^ 64 } with
          | none =>
            rw [hw] at h
            simp at h
          | some p =>
            obtain ⟨o, st3⟩ := p
            obtain ⟨tl1, htl1⟩ := write_loop_events_prefix env _ _ _ _ _ _ _ _ _ hw
            rw [hw] at h
            cases o with
            | some msg =>
              simp only [Option.some.injEq, Prod.mk.injEq] at h
              exact ⟨_, by rw [← h.2, htl1, List.append_assoc]⟩
            | none =>
              simp only at h
              obtain ⟨tl, htl⟩ := ih _ _ _ h
              exact ⟨_, by rw [htl, htl1, List.append_assoc, List.append_assoc]⟩

theorem receiver_trace_shape (env : ReceiverEnv) (fuel : Nat) (conn cr : ms_conn)
    (file : List Byte) (evs : List Event)
    (h : ms_receiver_thread env fuel conn = some (cr, file, evs)) :
    ∃ R2, evs = Event.barrier_wait :: R2
      ∧ (∀ a b rlen, R2 = a ++ Event.recv rlen :: b → Event.mutex_lock 0 ∈ a) := by
  by_cases hl : env.lock_err = 0
  · by_cases hu : env.unlock_err = 0
    · rw [ms_receiver_thread_run env fuel conn hl hu] at h
      cases hrun : recv_loop env fuel
          { conn with receiver := { conn.receiver with successful := false },
                      recv_total := 0 }
          env.recv
          { writes := 0, recv_total := 0, file := [],
            events := [Event.barrier_wait, Event.mutex_lock 0, Event.mutex_unlock 0,
              Event.clock_gettime Timestamp.receive_start] } with
      | none => simp [hrun] at h
      | some p =>
        obtain ⟨o, st⟩ := p
        obtain ⟨tl, htl⟩ := recv_loop_events_prefix env fuel _ _ _ _ _ hrun
        simp only [hrun, Option.map_some', Option.some.injEq, Prod.mk.injEq] at h
        refine ⟨Event.mutex_lock 0 :: Event.mutex_unlock 0 ::
          Event.clock_gettime Timestamp.receive_start :: tl, ?_, ?_⟩
        · rw [← h.2.2, htl]
          rfl
        · intro a b rlen hab
          cases a with
          | nil => simp at hab
          | cons x a2 =>
            simp only [List.cons_append, List.cons.injEq] at hab
            rw [← hab.1]
            simp
    · unfold ms_receiver_thread at h
      simp only [hl, ne_eq, not_true_eq_false, if_false, hu, not_false_eq_true, if_true,
        Option.some.injEq, Prod.mk.injEq] at h
      refine ⟨[Event.mutex_lock 0, Event.mutex_unlock env.unlock_err], ?_, ?_⟩
      · rw [← h.2.2]
      · intro a b rlen hab
        have hm : Event.recv rlen ∈ [Event.mutex_lock 0, Event.mutex_unlock env.unlock_err] := by
          rw [hab]
          simp
        simp at hm
  · unfold ms_receiver_thread at h
    simp only [ne_eq, hl, not_false_eq_true, if_true, Option.some.injEq,
      Prod.mk.injEq] at h
    refine ⟨[Event.mutex_lock env.lock_err], h.2.2.symm, ?_⟩
    intro a b rlen hab
    have hm : Event.recv rlen ∈ [Event.mutex_lock env.lock_err] := by
      rw [hab]
      simp
    simp at hm

/-- C7: in every interleaving of the sender thread and the receiver thread of
one connection with the other participants of the barrier, whatever the
answers of their environments: at each `recv` call of the receiver, the
sender does not hold the connect mutex; and, when the sender's own
`pthread_mutex_lock` returned 0, the sender has by then performed
`connecttcpsock` with the non-negative descriptor it stored in `fd_sock` and a
`pthread_mutex_unlock` that returned 0.  The schedules are those allowed by
the mutex (a lock returns 0 only while the mutex is free) and by the barrier
(a `pthread_barrier_wait` returns only once all participants have reached
it). -/
theorem receiver_reads_only_after_handoff (senv : SenderEnv) (renv : ReceiverEnv)
    (fuel_s fuel_r : Nat) (conn cs cr : ms_conn) (evs_s evs_r : List Event)
    (file : List Byte) (others : Nat) (schedule : List Task) (s : Launch)
    (pre post : List (Task × Event)) (rlen : Int)
    (hs : ms_sender_thread senv fuel_s conn = some (cs, evs_s))
    (hr : ms_receiver_thread renv fuel_r conn = some (cr, file, evs_r))
    (hrun : run_schedule (launch evs_s evs_r others) schedule = some s)
    (hsplit : s.history = pre ++ (Task.receiver, Event.recv rlen) :: post) :
    holds_handoff (events_of Task.sender pre) = false
    ∧ (senv.lock_err = 0 →
        (Task.sender, Event.mutex_unlock 0) ∈ pre
        ∧ (Task.sender, Event.connecttcpsock cs.fd_sock) ∈ pre
        ∧ 0 ≤ cs.fd_sock) := by
  obtain ⟨S2, hS, HS2, HS3⟩ := sender_trace_shape senv fuel_s conn cs evs_s hs
  obtain ⟨R2, hR, HR2⟩ := receiver_trace_shape renv fuel_r conn cr file evs_r hr
  rw [hS, hR] at hrun
  have hinv := run_schedule_inv S2 R2 senv.lock_err cs.fd_sock HS2 HS3 HR2 schedule _ s
    (launch_inv_initial _ _ _ _ others) hrun
  exact hinv.2.2.2.2.2.2 pre post rlen hsplit

theorem receiver_reads_only_after_handoff_witness :
    (ms_sender_thread sender_env_ok 7 (sample_conn 7 false false)).map (fun r => r.2)
      = some launch_sender_trace
    ∧ (ms_receiver_thread receiver_env_one_chunk 7 (sample_conn 7 false false)).map
        (fun r => r.2.2) = some launch_receiver_trace
    ∧ run_schedule (launch launch_sender_trace launch_receiver_trace 1) launch_schedule
      = some launch_at_first_read
    ∧ launch_at_first_read.history
      = launch_before_first_read ++ [(Task.receiver, Event.recv 2)]
    ∧ holds_handoff (events_of Task.sender launch_before_first_read) = false
    ∧ (Task.sender, Event.mutex_unlock 0) ∈ launch_before_first_read
    ∧ (Task.sender, Event.connecttcpsock 5) ∈ launch_before_first_read
    ∧ run_schedule (launch launch_sender_trace launch_receiver_trace 1) [Task.receiver] = none
    ∧ run_schedule (launch launch_sender_trace launch_receiver_trace 1)
        [Task.sender, Task.other, Task.sender, Task.receiver, Task.receiver] = none :=
  have key := receiver_reads_only_after_handoff sender_env_ok receiver_env_one_chunk 7 7
    (sample_conn 7 false false)
    { sample_conn 7 false false with
      fd_sock := 5,
      sender := { thread := 0, created := true, successful := true, errmsg := "" } }
    { sample_conn 7 false false with
      recv_total := 2,
      receiver := { thread := 1, created := true, successful := true, errmsg := "" } }
    launch_sender_trace launch_receiver_trace [6, 7] 1 launch_schedule
    launch_at_first_read launch_before_first_read [] 2 rfl rfl rfl rfl
  ⟨rfl, rfl, rfl, rfl, key.1, (key.2 rfl).1, (key.2 rfl).2.1, rfl, rfl⟩

end Sockbiter
